import Mathlib

/-!
# Docking geometry of station types (`src/SpaceStationType.cpp`)

A shallow embedding of `SpaceStationType::OnSetupComplete` and of the query
functions of `SpaceStationType`, followed by theorems about them.

Conventions of the embedding

* Scalars (`float`, `double`) are elements of an arbitrary linearly ordered
  field `K`; the square root and the rotation constructor of the maths
  headers are fields of `MathEnv`.
* `int` values are `Int`; `Uint32 (x)` is `x % 2 ^ 32`.
* `std::map<int, V>` is an association list kept in increasing key order.
* `PiVerify`, `assert`, `Error` and the exception of `std::map::at` end the
  run: the functions return `Except Fatal _`.
* An output parameter is an argument and a component of the result.
* A quotient is that of the field, in which `x / 0 = 0`. Where the code
  divides by zero its `float` is an infinity or a NaN, which no element of `K`
  stands for: the embedding agrees with the code where no divisor is zero, and
  a theorem on a position that is read through the quotients of
  `IntersectLine` assumes that their divisors, `rayDenominators`, are not zero.
* A `Char` of a name stands for one `char` of the C string that `sscanf`
  reads; a number read by `%d` is the integer its digits denote, stored in
  an `int` of 32 bits.
-/

namespace Pioneer

/-! ## Vectors and matrices -/

/-- Modelled from the spec: the three-component vector `vector3<T>` of the
maths headers, which are not part of the sources at hand. -/
structure vector3 (K : Type) where
  x : K
  y : K
  z : K
deriving DecidableEq, Repr

namespace vector3

variable {K : Type} [Field K]

/-- Component-wise sum, `a + b`. -/
def add (a b : vector3 K) : vector3 K := ⟨a.x + b.x, a.y + b.y, a.z + b.z⟩

/-- Component-wise difference, `a - b`. -/
def sub (a b : vector3 K) : vector3 K := ⟨a.x - b.x, a.y - b.y, a.z - b.z⟩

/-- Unary minus, `-a`. -/
def neg (a : vector3 K) : vector3 K := ⟨-a.x, -a.y, -a.z⟩

/-- Product with a scalar, `a * s` and `s * a`. -/
def scale (a : vector3 K) (s : K) : vector3 K := ⟨a.x * s, a.y * s, a.z * s⟩

/-- The zero vector. -/
def zero : vector3 K := ⟨0, 0, 0⟩

/-- Scalar product, `MathUtil::Dot` and `vector3::Dot`. -/
def Dot (a b : vector3 K) : K := a.x * b.x + a.y * b.y + a.z * b.z

/-- Squared length, `LengthSqr ()`. -/
def LengthSqr (a : vector3 K) : K := a.x * a.x + a.y * a.y + a.z * a.z

/-- Length, `Length ()`: the square root of the squared length. -/
def Length (sqrt : K → K) (a : vector3 K) : K := sqrt (LengthSqr a)

/-- Modelled from the spec: `Normalized ()`, the vector scaled by the inverse
of its length. -/
def Normalized (sqrt : K → K) (a : vector3 K) : vector3 K :=
  scale a (1 / Length sqrt a)

end vector3

/-- Modelled from the spec: the rotation part `matrix3x3<T>` of a transform,
given by its three columns. -/
structure matrix3x3 (K : Type) where
  vx : vector3 K
  vy : vector3 K
  vz : vector3 K
deriving DecidableEq, Repr

namespace matrix3x3

variable {K : Type}

/-- First column, `VectorX ()`. -/
def VectorX (m : matrix3x3 K) : vector3 K := m.vx

/-- Second column, `VectorY ()`. -/
def VectorY (m : matrix3x3 K) : vector3 K := m.vy

/-- Third column, `VectorZ ()`. -/
def VectorZ (m : matrix3x3 K) : vector3 K := m.vz

end matrix3x3

/-- Modelled from the spec: the rigid transform `matrix4x4<T>` of an anchor,
a position and three orientation axes (the columns right, up and back of the
rotation part). -/
structure matrix4x4 (K : Type) where
  right : vector3 K
  up : vector3 K
  back : vector3 K
  translate : vector3 K
deriving DecidableEq, Repr

namespace matrix4x4

variable {K : Type} [Field K]

/-- Local x axis, `Right ()`. -/
def Right (m : matrix4x4 K) : vector3 K := m.right

/-- Local y axis, `Up ()`. -/
def Up (m : matrix4x4 K) : vector3 K := m.up

/-- Local z axis, `Back ()`. -/
def Back (m : matrix4x4 K) : vector3 K := m.back

/-- Position, `GetTranslate ()`. -/
def GetTranslate (m : matrix4x4 K) : vector3 K := m.translate

/-- Replace the position, `SetTranslate (v)`. -/
def SetTranslate (m : matrix4x4 K) (v : vector3 K) : matrix4x4 K :=
  { m with translate := v }

/-- Rotation part, `GetOrient ()`. -/
def GetOrient (m : matrix4x4 K) : matrix3x3 K := ⟨m.right, m.up, m.back⟩

/-- Conversion of a rotation to a transform with no translation, the
converting constructor `matrix4x4 (const matrix3x3 &)`. -/
def ofOrient (o : matrix3x3 K) : matrix4x4 K := ⟨o.vx, o.vy, o.vz, vector3.zero⟩

/-- Replace the rotation part and keep the position, `SetRotationOnly (m)`. -/
def SetRotationOnly (m r : matrix4x4 K) : matrix4x4 K :=
  { m with right := r.right, up := r.up, back := r.back }

/-- Rotation part of `m` applied to a vector. -/
def rotate (m : matrix4x4 K) (v : vector3 K) : vector3 K :=
  ((m.right.scale v.x).add (m.up.scale v.y)).add (m.back.scale v.z)

/-- Matrix product `a * b` of two transforms. -/
def mul (a b : matrix4x4 K) : matrix4x4 K :=
  ⟨a.rotate b.right, a.rotate b.up, a.rotate b.back, (a.rotate b.translate).add a.translate⟩

end matrix4x4

/-- What the code takes from headers that are not part of the sources at
hand: the square root, the rotation constructor `matrix3x3f::Rotate`, the
conversion `DEG2RAD`, the content of a default-constructed `matrix4x4f`, and
the size range a default-constructed `SPort` starts with. -/
structure MathEnv (K : Type) where
  sqrt : K → K
  Rotate : K → vector3 K → matrix3x3 K
  DEG2RAD : K → K
  uninitialised : matrix4x4 K
  minShipSize0 : Int
  maxShipSize0 : Int

/-- Modelled from the spec: `MathUtil::mix`, the linear interpolation between
`v1` (at `t = 0`) and `v2` (at `t = 1`). -/
def mix {K : Type} [Field K] (v1 v2 : vector3 K) (t : K) : vector3 K :=
  (v2.scale t).add (v1.scale (1 - t))

/-! ## `std::map` with integer keys -/

/-- Lookup, `m.find (k)`. -/
def mapFind {V : Type} (k : Int) : List (Int × V) → Option V
  | [] => none
  | (k', v) :: rest => if k' = k then some v else mapFind k rest

/-- Assignment `m[k] = v`: replaces the entry of `k` or inserts one at its
place in key order. -/
def mapAssign {V : Type} (k : Int) (v : V) : List (Int × V) → List (Int × V)
  | [] => [(k, v)]
  | (k', v') :: rest =>
    if k < k' then (k, v) :: (k', v') :: rest
    else if k = k' then (k, v) :: rest
    else (k', v') :: mapAssign k v rest

/-- Read access `m[k]`: the entry of `k`, which is created with the value
`dflt` when it is absent. -/
def mapIndex {V : Type} (dflt : V) (k : Int) (m : List (Int × V)) : V × List (Int × V) :=
  match mapFind k m with
  | some v => (v, m)
  | none => (dflt, mapAssign k dflt m)

/-! ## `sscanf` -/

/-- The `isspace` of C. -/
def isspace (c : Char) : Bool := c.toNat = 32 || (9 ≤ c.toNat && c.toNat ≤ 13)

/-- The `isdigit` of C. -/
def isdigit (c : Char) : Bool := 48 ≤ c.toNat && c.toNat ≤ 57

/-- Skip leading white space. -/
def skipSpace : List Char → List Char
  | [] => []
  | c :: cs => if isspace c then skipSpace cs else c :: cs

/-- Read the longest run of decimal digits, accumulating its value. -/
def scanDigits (acc : Nat) : List Char → Nat × List Char
  | [] => (acc, [])
  | c :: cs => if isdigit c then scanDigits (acc * 10 + (c.toNat - 48)) cs else (acc, c :: cs)

/-- The value an `int` holds when `x` is stored in it: `x` reduced to 32 bits
in two's complement (C leaves the case that `x` does not fit undefined). -/
def toInt32 (x : Int) : Int := (x + 2 ^ 31) % 2 ^ 32 - 2 ^ 31

/-- Conversion `%d`: white space, an optional sign, at least one digit; the
value is stored in an `int`. -/
def scanInt (input : List Char) : Option (Int × List Char) :=
  let s := skipSpace input
  let signed : Bool × List Char :=
    match s with
    | [] => (false, s)
    | c :: r => if c = '-' then (true, r) else if c = '+' then (false, r) else (false, s)
  match signed.2 with
  | [] => none
  | c :: _ =>
    if isdigit c then
      let r := scanDigits 0 signed.2
      some (toInt32 (if signed.1 then -(r.1 : Int) else (r.1 : Int)), r.2)
    else none

/-- Read at most `width` characters that are not white space. -/
def takeWord : Nat → List Char → List Char × List Char
  | 0, cs => ([], cs)
  | _ + 1, [] => ([], [])
  | w + 1, c :: cs =>
    if isspace c then ([], c :: cs)
    else ((c :: (takeWord w cs).1), (takeWord w cs).2)

/-- Conversion `%<width>s`: white space, then one to `width` characters that
are not white space. -/
def scanStr (width : Nat) (input : List Char) : Option (List Char × List Char) :=
  let r := takeWord width (skipSpace input)
  if r.1 = [] then none else some r

/-- One item of a format string. -/
inductive Directive where
  | lit (c : Char)
  | str (width : Nat)
  | int
deriving DecidableEq, Repr

/-- One converted value. -/
inductive Arg where
  | str (s : List Char)
  | int (v : Int)
deriving DecidableEq, Repr

/-- The items of a format string made of `%d`, `%<digit>s` and ordinary
characters. -/
def parseFormat : List Char → List Directive
  | [] => []
  | [c] => [Directive.lit c]
  | [c, d] => if c = '%' ∧ d = 'd' then [Directive.int] else [Directive.lit c, Directive.lit d]
  | c :: d :: e :: rest =>
    if c = '%' ∧ d = 'd' then Directive.int :: parseFormat (e :: rest)
    else if c = '%' ∧ isdigit d ∧ e = 's' then Directive.str (d.toNat - 48) :: parseFormat rest
    else Directive.lit c :: parseFormat (d :: e :: rest)

/-- Run the items of a format over the input; the result lists the values
converted before the first failure. -/
def scanItems : List Directive → List Char → List Arg
  | [], _ => []
  | Directive.lit _ :: _, [] => []
  | Directive.lit c :: ds, c' :: rest => if c' = c then scanItems ds rest else []
  | Directive.str w :: ds, inp =>
    match scanStr w inp with
    | some (s, rest) => Arg.str s :: scanItems ds rest
    | none => []
  | Directive.int :: ds, inp =>
    match scanInt inp with
    | some (v, rest) => Arg.int v :: scanItems ds rest
    | none => []

/-- The converted values of `sscanf (str, format, ...)`. The value `sscanf`
returns is their number (or `EOF` when the input ends before the first
conversion, which like 0 differs from every count the code compares it to). -/
def sscanf (str : String) (format : String) : List Arg :=
  scanItems (parseFormat format.toList) str.toList

/-! ## The data of a station type -/

/-- A named anchor of the model, `SceneGraph::MatrixTransform`. -/
structure MatrixTransform (K : Type) where
  name : String
  transform : matrix4x4 K
deriving DecidableEq, Repr

namespace MatrixTransform

variable {K : Type}

/-- Name of the anchor, `GetName ()`. -/
def GetName (mt : MatrixTransform K) : String := mt.name

/-- Transform of the anchor, `GetTransform ()`. -/
def GetTransform (mt : MatrixTransform K) : matrix4x4 K := mt.transform

end MatrixTransform

/-- Modelled from the spec: the model, consumed only through the query "find
all named anchors whose name starts with a given text". -/
structure Model (K : Type) where
  tags : List (MatrixTransform K)
deriving DecidableEq, Repr

/-- Modelled from the spec: `Model::FindTagsByStartOfName`, the anchors whose
name starts with `start`, in the order of the model. -/
def Model.FindTagsByStartOfName {K : Type} (model : Model K) (start : String) :
    List (MatrixTransform K) :=
  model.tags.filter (fun mt => start.toList.isPrefixOf mt.name.toList)

/-- The enumeration `DOCKMETHOD`. -/
inductive DockMethod where
  | ORBITAL
  | SURFACE
deriving DecidableEq, Repr

/-- The type `TMapBayIDMat`, a map from stage index to transform. -/
abbrev TMapBayIDMat (K : Type) := List (Int × matrix4x4 K)

/-- A docking port, `SPort`. -/
structure SPort (K : Type) where
  portId : Int
  minShipSize : Int
  maxShipSize : Int
  bayIDs : List (Int × List Char)
  name : String
  m_approach : TMapBayIDMat K
deriving DecidableEq, Repr

/-- The waypoints of one bay, `PortPath`. -/
structure PortPath (K : Type) where
  m_docking : TMapBayIDMat K
  m_leaving : TMapBayIDMat K
deriving DecidableEq, Repr

/-- The type `PortPathMap`, a map from one-based bay number to waypoints. -/
abbrev PortPathMap (K : Type) := List (Int × PortPath K)

/-- The fields of `SpaceStationType` that docking uses. -/
structure SpaceStationType (K : Type) where
  model : Model K
  modelName : String
  dockMethod : DockMethod
  numDockingPorts : Nat
  numDockingStages : Int
  numUndockStages : Int
  shipLaunchStage : Int
  m_ports : List (SPort K)
  m_portPaths : PortPathMap K
deriving DecidableEq, Repr

/-- A pose, `positionOrient_t`. -/
structure positionOrient_t (K : Type) where
  pos : vector3 K
  xaxis : vector3 K
  yaxis : vector3 K
  zaxis : vector3 K
deriving DecidableEq, Repr

/-- What docking reads of a ship: its landing offset. -/
structure Ship (K : Type) where
  landingPosOffset : K
deriving DecidableEq, Repr

/-- Landing offset of a ship, `GetLandingPosOffset ()`. -/
def Ship.GetLandingPosOffset {K : Type} (ship : Ship K) : K := ship.landingPosOffset

/-- The ways a run ends abnormally. -/
inductive Fatal where
  | PiVerify (what : String)
  | assertion (what : String)
  | Error (what : String)
  | out_of_range
deriving DecidableEq, Repr

/-- The conversion `Uint32 (x)` of an `int`. -/
def Uint32 (x : Int) : Nat := (x % 2 ^ 32).toNat

/-- The constructor `SpaceStationType ()`, with the model and the dock method
that `_define_station` and its callers set before `OnSetupComplete`. -/
def SpaceStationType.new {K : Type} (model : Model K) (modelName : String)
    (dockMethod : DockMethod) : SpaceStationType K :=
  { model := model
    modelName := modelName
    dockMethod := dockMethod
    numDockingPorts := 0
    numDockingStages := 0
    numUndockStages := 0
    shipLaunchStage := 3
    m_ports := []
    m_portPaths := [] }

/-! ## `OnSetupComplete` -/

section Setup

variable {K : Type} [LinearOrderedField K]

/-- Body of the loop over the entrance anchors: the port of one anchor. -/
def newPort (env : MathEnv K) (dockMethod : DockMethod) (apprIter : MatrixTransform K) :
    Except Fatal (SPort K) :=
  match sscanf apprIter.GetName "entrance_port%d" with
  | [Arg.int portId] =>
    if portId > 0 then
      let approach1 : matrix4x4 K :=
        if dockMethod = DockMethod.SURFACE then
          let offDir := apprIter.GetTransform.Up.Normalized env.sqrt
          apprIter.GetTransform.SetTranslate (apprIter.GetTransform.GetTranslate.add (offDir.scale 500))
        else
          let offDir := (apprIter.GetTransform.Back.Normalized env.sqrt).neg
          apprIter.GetTransform.SetTranslate (apprIter.GetTransform.GetTranslate.add (offDir.scale 1500))
      Except.ok
        { portId := portId
          minShipSize := env.minShipSize0
          maxShipSize := env.maxShipSize0
          bayIDs := []
          name := apprIter.GetName
          m_approach := mapAssign 2 apprIter.GetTransform (mapAssign 1 approach1 []) }
    else Except.error (Fatal.PiVerify "portId>0")
  | _ => Except.error (Fatal.PiVerify "1 == sscanf entrance_port%d")

/-- The loop over the entrance anchors: each port is appended to `m_ports`. -/
def addPorts (env : MathEnv K) (dockMethod : DockMethod) :
    List (MatrixTransform K) → List (SPort K) → Except Fatal (List (SPort K))
  | [], m_ports => Except.ok m_ports
  | apprIter :: rest, m_ports =>
    match newPort env dockMethod apprIter with
    | Except.error e => Except.error e
    | Except.ok new_port => addPorts env dockMethod rest (m_ports ++ [new_port])

/-- The loop over `m_ports` of a locator: the first port with the locator's
port id takes the size range and the bay; the result has the updated ports
and the two approach transforms of that port, or nothing when no port has
the id. -/
def findPort (env : MathEnv K) (portId minSize maxSize bay : Int) (padname : List Char) :
    List (SPort K) → Option (List (SPort K) × matrix4x4 K × matrix4x4 K)
  | [] => none
  | rPort :: rest =>
    if rPort.portId = portId then
      let a1 := mapIndex env.uninitialised 1 rPort.m_approach
      let a2 := mapIndex env.uninitialised 2 a1.2
      some ({ rPort with
                minShipSize := min minSize rPort.minShipSize
                maxShipSize := max maxSize rPort.maxShipSize
                bayIDs := rPort.bayIDs ++ [(bay - 1, padname)]
                m_approach := a2.2 } :: rest, a1.1, a2.1)
    else
      match findPort env portId minSize maxSize bay padname rest with
      | none => none
      | some r => some (rPort :: r.1, r.2)

/-- The function `SPlane::IntersectLine`. The quotient is that of the field:
where `nDotBA = 0` it is 0 and the result is `a`, whereas the `float` quotient
of the code is an infinity or a NaN. The function is that of the code where
`nDotBA ≠ 0`. -/
def IntersectLine (env : MathEnv K) (n p0 a b : vector3 K) : vector3 K :=
  let ba := b.sub a
  let d := p0.Length env.sqrt
  let nDotA := n.Dot a
  let nDotBA := n.Dot ba
  a.add (ba.scale ((d - nDotA) / nDotBA))

/-- The three candidates for the position above the pad: the intersections
with the planes of the back, right and up normals, in the order the code
computes them. -/
def intersectionCandidates (env : MathEnv K) (locTransform approach1 approach2 : matrix4x4 K) :
    vector3 K × vector3 K × vector3 K :=
  let approach1Pos := approach1.GetTranslate
  let approach2Pos := approach2.GetTranslate
  let nUp := locTransform.Up.Normalized env.sqrt
  let nBack := locTransform.Back.Normalized env.sqrt
  let nRight := locTransform.Right.Normalized env.sqrt
  let p0 := locTransform.GetTranslate
  let l := (approach2Pos.sub approach1Pos).Normalized env.sqrt
  let l0 := approach1Pos.add (l.scale 10000)
  (IntersectLine env nBack p0 approach1Pos l0,
   IntersectLine env nRight p0 approach1Pos l0,
   IntersectLine env nUp p0 approach1Pos l0)

/-- The position above the pad, `intersectionPos`. -/
def intersectionPos (env : MathEnv K) (locTransform approach1 approach2 : matrix4x4 K) :
    vector3 K :=
  let p0 := locTransform.GetTranslate
  let c := intersectionCandidates env locTransform approach1 approach2
  let pos1 := c.1
  let pos2 := if (pos1.sub p0).LengthSqr > (c.2.1.sub p0).LengthSqr then c.2.1 else pos1
  if (pos2.sub p0).LengthSqr > (c.2.2.sub p0).LengthSqr then c.2.2 else pos2

/-- The name of an exit anchor as the exit loop reads it: the port id when
`sscanf` converts one value, nothing otherwise (the case in which `PiVerify`
ends the run). -/
def exitId (name : String) : Option Int :=
  match sscanf name "exit_port%d" with
  | [Arg.int exitport] => some exitport
  | _ => none

/-- The loop over the exit anchors of a locator: `exitport` keeps the id read
last, `EndOrient` is assigned at the first anchor with the locator's port
id. -/
def findExit (portId : Int) :
    List (MatrixTransform K) → Int → matrix4x4 K → Except Fatal (Int × matrix4x4 K)
  | [], exitport, EndOrient => Except.ok (exitport, EndOrient)
  | exitIt :: rest, _, EndOrient =>
    match exitId exitIt.GetName with
    | some exitport =>
      if exitport = portId then Except.ok (exitport, exitIt.GetTransform)
      else findExit portId rest exitport EndOrient
    | none => Except.error (Fatal.PiVerify "1 == sscanf exit_port%d")

/-- The leaving orientation `orient` and the end of the leaving path
`EndOrient` of a locator on an orbital station. -/
def leavingOrient (env : MathEnv K) (exit_mts : List (MatrixTransform K)) (portId : Int)
    (locTransform approach2 : matrix4x4 K) : Except Fatal (matrix4x4 K × matrix4x4 K) :=
  let orient : matrix4x4 K := matrix4x4.ofOrient locTransform.GetOrient
  if exit_mts = [] then
    let rot : matrix4x4 K := matrix4x4.ofOrient (env.Rotate (env.DEG2RAD 180) orient.Back)
    let orient := (orient.mul rot).SetTranslate locTransform.GetTranslate
    Except.ok (orient, approach2.SetRotationOnly orient)
  else
    let orient := orient.SetTranslate locTransform.GetTranslate
    match findExit portId exit_mts 0 env.uninitialised with
    | Except.error e => Except.error e
    | Except.ok r => Except.ok (orient, if r.1 = 0 then approach2 else r.2)

/-- The waypoints a locator writes into the path of its bay. -/
def buildPath (env : MathEnv K) (dockMethod : DockMethod) (exit_mts : List (MatrixTransform K))
    (portId : Int) (locTransform approach1 approach2 : matrix4x4 K) (path : PortPath K) :
    Except Fatal (PortPath K) :=
  if dockMethod = DockMethod.SURFACE then
    Except.ok { path with m_docking := mapAssign 2 locTransform path.m_docking }
  else
    let docking2 := approach2.SetRotationOnly (matrix4x4.ofOrient locTransform.GetOrient)
    let pos := intersectionPos env locTransform approach1 approach2
    let docking := mapAssign 4 locTransform
      (mapAssign 3 (locTransform.SetTranslate pos) (mapAssign 2 docking2 path.m_docking))
    match leavingOrient env exit_mts portId locTransform approach2 with
    | Except.error e => Except.error e
    | Except.ok r =>
      Except.ok
        { m_docking := docking
          m_leaving := mapAssign 3 r.2
            (mapAssign 2 (r.1.SetTranslate pos) (mapAssign 1 locTransform path.m_leaving)) }

/-- The five values `sscanf` reads from the name of a locator anchor. -/
structure LocatorName where
  padname : List Char
  portId : Int
  minSize : Int
  maxSize : Int
  bay : Int
deriving DecidableEq, Repr

/-- The name of a locator anchor as the locator loop reads it: the five
values when `sscanf` converts five, nothing otherwise (the case in which
`PiVerify` ends the run). -/
def locatorFields (name : String) : Option LocatorName :=
  match sscanf name "loc_%4s_p%d_s%d_%d_b%d" with
  | [Arg.str padname, Arg.int portId, Arg.int minSize, Arg.int maxSize, Arg.int bay] =>
    some ⟨padname, portId, minSize, maxSize, bay⟩
  | _ => none

/-- Body of the loop over the locator anchors. -/
def addLocator (env : MathEnv K) (exit_mts : List (MatrixTransform K))
    (st : SpaceStationType K) (locIter : MatrixTransform K) : Except Fatal (SpaceStationType K) :=
  let locTransform := locIter.GetTransform
  match locatorFields locIter.GetName with
  | some f =>
    if f.bay > 0 ∧ f.portId > 0 then
      match findPort env f.portId f.minSize f.maxSize f.bay f.padname st.m_ports with
      | none => Except.error (Fatal.assertion "bFoundPort")
      | some (m_ports, approach1, approach2) =>
        let path := mapIndex { m_docking := [], m_leaving := [] } f.bay st.m_portPaths
        match buildPath env st.dockMethod exit_mts f.portId locTransform approach1 approach2
            path.1 with
        | Except.error e => Except.error e
        | Except.ok newPath =>
          Except.ok
            { st with
                m_ports := m_ports
                m_portPaths := mapAssign f.bay newPath path.2
                numDockingStages := if st.dockMethod = DockMethod.SURFACE then 2 else 4
                numUndockStages := if st.dockMethod = DockMethod.SURFACE then 1 else 3 }
    else Except.error (Fatal.PiVerify "bay>0 && portId>0")
  | none => Except.error (Fatal.PiVerify "5 == sscanf loc_%4s_p%d_s%d_%d_b%d")

/-- The loop over the locator anchors. -/
def addLocators (env : MathEnv K) (exit_mts : List (MatrixTransform K)) :
    List (MatrixTransform K) → SpaceStationType K → Except Fatal (SpaceStationType K)
  | [], st => Except.ok st
  | locIter :: rest, st =>
    match addLocator env exit_mts st locIter with
    | Except.error e => Except.error e
    | Except.ok st1 => addLocators env exit_mts rest st1

/-- What the check of one bay reports. -/
inductive Report where
  | Error (what : String)
  | Warning (what : String)
deriving DecidableEq, Repr

/-- The check of the docking stages of one bay in the loop that closes
`OnSetupComplete`. -/
def checkDocking (numDockingStages : Int) (path : PortPath K) : Option Report :=
  if Uint32 (numDockingStages - 1) < path.m_docking.length then
    some (Report.Error "numDockingStages vs number of docking stages: Must have at least the same number of entries as the number of docking stages PLUS the docking timeout at the start of the array.")
  else if Uint32 (numDockingStages - 1) ≠ path.m_docking.length then
    some (Report.Warning "numDockingStages vs number of docking stages")
  else none

/-- The check of the leaving stages of one bay in the loop that closes
`OnSetupComplete`. -/
def checkLeaving (numUndockStages : Int) (path : PortPath K) : Option Report :=
  if 0 ≠ path.m_leaving.length ∧ Uint32 numUndockStages < path.m_leaving.length then
    some (Report.Error "numUndockStages vs number of leaving stages: Must have at least the same number of entries as the number of leaving stages.")
  else if 0 ≠ path.m_leaving.length ∧ Uint32 numUndockStages ≠ path.m_leaving.length then
    some (Report.Warning "numUndockStages vs number of leaving stages")
  else none

/-- The loop that closes `OnSetupComplete`: an `Error` ends the run, the
warnings are collected. -/
def insanity (numDockingStages numUndockStages : Int) :
    PortPathMap K → Except Fatal (List String)
  | [] => Except.ok []
  | pIt :: rest =>
    match checkDocking numDockingStages pIt.2 with
    | some (Report.Error what) => Except.error (Fatal.Error what)
    | d =>
      match checkLeaving numUndockStages pIt.2 with
      | some (Report.Error what) => Except.error (Fatal.Error what)
      | l =>
        match insanity numDockingStages numUndockStages rest with
        | Except.error e => Except.error e
        | Except.ok ws =>
          Except.ok
            ((match d with | some (Report.Warning w) => [w] | _ => []) ++
              (match l with | some (Report.Warning w) => [w] | _ => []) ++ ws)

/-- The state of the station before the checks that close `OnSetupComplete`:
launch stage, the two passes over the anchors, the number of bays. -/
def build (env : MathEnv K) (st : SpaceStationType K) : Except Fatal (SpaceStationType K) :=
  let st1 := { st with shipLaunchStage := if DockMethod.SURFACE = st.dockMethod then 0 else 3 }
  let entrance_mts := st.model.FindTagsByStartOfName "entrance_"
  let locator_mts := st.model.FindTagsByStartOfName "loc_"
  let exit_mts := st.model.FindTagsByStartOfName "exit_"
  match addPorts env st.dockMethod entrance_mts st1.m_ports with
  | Except.error e => Except.error e
  | Except.ok m_ports =>
    match addLocators env exit_mts locator_mts { st1 with m_ports := m_ports } with
    | Except.error e => Except.error e
    | Except.ok st2 => Except.ok { st2 with numDockingPorts := st2.m_portPaths.length }

/-- The function `SpaceStationType::OnSetupComplete`. -/
def OnSetupComplete (env : MathEnv K) (st : SpaceStationType K) :
    Except Fatal (SpaceStationType K) :=
  match build env st with
  | Except.error e => Except.error e
  | Except.ok st3 =>
    if st3.m_portPaths = [] then Except.error (Fatal.assertion "!m_portPaths.empty()")
    else if ¬ st3.numDockingStages > 0 then Except.error (Fatal.assertion "numDockingStages > 0")
    else if ¬ st3.numUndockStages > 0 then Except.error (Fatal.assertion "numUndockStages > 0")
    else
      match insanity st3.numDockingStages st3.numUndockStages st3.m_portPaths with
      | Except.error e => Except.error e
      | Except.ok _ => Except.ok st3

/-- The functions `define_orbital_station` and `define_surface_station`: a
new station type with its dock method and model is set up; the result is the
station type that is registered. -/
def define_station (env : MathEnv K) (dockMethod : DockMethod) (model : Model K)
    (modelName : String) : Except Fatal (SpaceStationType K) :=
  OnSetupComplete env (SpaceStationType.new model modelName dockMethod)

end Setup

/-! ## The queries -/

section Queries

variable {K : Type} [LinearOrderedField K]

/-- The inner loop of `FindPortByBay`: whether a bay list has an entry with
the index. -/
def hasBay (zeroBaseBayID : Int) : List (Int × List Char) → Bool
  | [] => false
  | idIter :: rest => if idIter.1 = zeroBaseBayID then true else hasBay zeroBaseBayID rest

/-- The outer loop of `FindPortByBay`, over the ports. -/
def findPortByBay (zeroBaseBayID : Int) : List (SPort K) → Option (SPort K)
  | [] => none
  | bayIter :: rest =>
    if hasBay zeroBaseBayID bayIter.bayIDs then some bayIter
    else findPortByBay zeroBaseBayID rest

/-- The function `SpaceStationType::FindPortByBay`; `none` is the null
pointer. -/
def FindPortByBay (st : SpaceStationType K) (zeroBaseBayID : Int) : Option (SPort K) :=
  findPortByBay zeroBaseBayID st.m_ports

/-- The conversion of an `unsigned int` to `int`. -/
def toInt (x : Nat) : Int :=
  if x % 2 ^ 32 < 2 ^ 31 then ((x % 2 ^ 32 : Nat) : Int) else ((x % 2 ^ 32 : Nat) : Int) - 2 ^ 32

/-- The axes and the position of a transform written into a pose; the axes
are normalized. -/
def poseOf (env : MathEnv K) (mt : matrix4x4 K) (pos : vector3 K) : positionOrient_t K :=
  { pos := pos
    xaxis := mt.GetOrient.VectorX.Normalized env.sqrt
    yaxis := mt.GetOrient.VectorY.Normalized env.sqrt
    zaxis := mt.GetOrient.VectorZ.Normalized env.sqrt }

/-- The function `SpaceStationType::GetShipApproachWaypoints`: the flag it
returns and the content of `outPosOrient` after the call. The map is asked
twice, by `find` and then by `at`, which throws when it has no entry. -/
def GetShipApproachWaypoints (env : MathEnv K) (st : SpaceStationType K) (port : Nat)
    (stage : Int) (outPosOrient : positionOrient_t K) :
    Except Fatal (Bool × positionOrient_t K) :=
  match FindPortByBay st (toInt port) with
  | none => Except.ok (false, outPosOrient)
  | some pPort =>
    if stage > 0 then
      match mapFind stage pPort.m_approach with
      | none => Except.ok (false, outPosOrient)
      | some _ =>
        match mapFind stage pPort.m_approach with
        | none => Except.error Fatal.out_of_range
        | some mt => Except.ok (true, poseOf env mt mt.GetTranslate)
    else Except.ok (false, outPosOrient)

/-- The function `SpaceStationType::GetDockAnimStageDuration`. -/
def GetDockAnimStageDuration (st : SpaceStationType K) (stage : Int) : K :=
  if stage = 0 then 300 else if DockMethod.SURFACE = st.dockMethod then 0 else 3

/-- The function `SpaceStationType::GetUndockAnimStageDuration`. -/
def GetUndockAnimStageDuration (st : SpaceStationType K) (_stage : Int) : K :=
  if DockMethod.SURFACE = st.dockMethod then 0 else 5

/-- The static function `GetPosOrient`: the flag it returns and the content
of `outPosOrient` after the call. -/
def GetPosOrient (env : MathEnv K) (bayMap : TMapBayIDMat K) (stage : Int) (t : K)
    (from_ : vector3 K) (_outPosOrient : positionOrient_t K) :
    Except Fatal (Bool × positionOrient_t K) :=
  match mapFind stage bayMap with
  | none => Except.error (Fatal.assertion "bHasStageData")
  | some mt => Except.ok (true, poseOf env mt (mix from_ mt.GetTranslate t))

/-- The stage and the parameter `t` after the two clamping tests that open
`GetDockAnimPositionOrient`. -/
def clampStage (st : SpaceStationType K) (stage : Int) (t : K) : Int × K :=
  let c : Int × K := if stage < -st.shipLaunchStage then (-st.shipLaunchStage, 1) else (stage, t)
  if c.1 > st.numDockingStages ∨ c.1 = 0 then (st.numDockingStages, 1) else c

/-- The landing offset taken off a pose along its normalized y axis. -/
def landed (env : MathEnv K) (ship : Ship K) (o : positionOrient_t K) : positionOrient_t K :=
  let up := (o.yaxis.Normalized env.sqrt).scale ship.GetLandingPosOffset
  { o with pos := o.pos.sub up }

/-- The function `SpaceStationType::GetDockAnimPositionOrient`: the flag it
returns and the content of `outPosOrient` after the call. -/
def GetDockAnimPositionOrient (env : MathEnv K) (st : SpaceStationType K) (port : Nat)
    (stage : Int) (t : K) (from_ : vector3 K) (outPosOrient : positionOrient_t K)
    (ship : Option (Ship K)) : Except Fatal (Bool × positionOrient_t K) :=
  match ship with
  | none => Except.error (Fatal.assertion "ship")
  | some ship =>
    let c := clampStage st stage t
    if ¬ port ≤ st.m_portPaths.length then
      Except.error (Fatal.assertion "port<=m_portPaths.size()")
    else
      match mapFind (((port + 1) % 2 ^ 32 : Nat) : Int) st.m_portPaths with
      | none => Except.error Fatal.out_of_range
      | some rPortPath =>
        if c.1 < 0 then
          let leavingStage := -1 * c.1
          match GetPosOrient env rPortPath.m_leaving leavingStage c.2 from_ outPosOrient with
          | Except.error e => Except.error e
          | Except.ok r => Except.ok (r.1, landed env ship r.2)
        else if c.1 > 0 then
          match GetPosOrient env rPortPath.m_docking c.1 c.2 from_ outPosOrient with
          | Except.error e => Except.error e
          | Except.ok r => Except.ok (r.1, landed env ship r.2)
        else Except.ok (false, outPosOrient)

end Queries

/-! ## Names of locator anchors -/

/-- The values of an `int`: the integers from `INT_MIN` to `INT_MAX`. -/
abbrev isInt (x : Int) : Prop := -2 ^ 31 ≤ x ∧ x < 2 ^ 31

/-- A list that does not start with a digit. -/
def noDigitHead (rest : List Char) : Prop := ∀ c cs, rest = c :: cs → isdigit c = false

/-- The name `loc_<pad>_p<portId>_s<min>_<max>_b<bay>`, the numbers written in
decimal. -/
def locatorName (pad : List Char) (portId minSize maxSize bay : Int) : String :=
  "loc_" ++ String.mk pad ++ "_p" ++ toString portId ++ "_s" ++ toString minSize ++ "_" ++
    toString maxSize ++ "_b" ++ toString bay

/-- The name `loc_<pad>_p<portId>_s<min>_<max>`, which lacks the bay. -/
def locatorNameNoBay (pad : List Char) (portId minSize maxSize : Int) : String :=
  "loc_" ++ String.mk pad ++ "_p" ++ toString portId ++ "_s" ++ toString minSize ++ "_" ++
    toString maxSize

/-! ## Notions used to state the properties -/

section Notions

variable {K : Type} [LinearOrderedField K]

/-- The locator of a bay: the last of the locator anchors whose name declares
the bay (each locator of a bay overwrites the waypoints of the one before). -/
def bayLocator (bay : Int) (locator_mts : List (MatrixTransform K)) :
    Option (MatrixTransform K) :=
  locator_mts.foldl
    (fun acc l => if (locatorFields l.GetName).map LocatorName.bay = some bay then some l else acc)
    none

/-- The port of a port id: the first port with the id, the one the locator
loop and the exit loop of `OnSetupComplete` stop at. -/
def portOfId (ports : List (SPort K)) (portId : Int) : Option (SPort K) :=
  ports.find? (fun q => decide (q.portId = portId))

/-- The approach map of the port of a port id. -/
def approachOf (ports : List (SPort K)) (portId : Int) : Option (TMapBayIDMat K) :=
  (portOfId ports portId).map SPort.m_approach

/-- A port whose approach map has exactly the stages 1 and 2. -/
def goodPort (q : SPort K) : Prop := ∃ a1 a2, q.m_approach = [(1, a1), (2, a2)]

/-- The stages a path has once a locator has written it. -/
def pathShape (dockMethod : DockMethod) (path : PortPath K) : Prop :=
  if dockMethod = DockMethod.SURFACE then ∃ d2, path = ⟨[(2, d2)], []⟩
  else ∃ d2 d3 d4 l1 l2 l3, path = ⟨[(2, d2), (3, d3), (4, d4)], [(1, l1), (2, l2), (3, l3)]⟩

/-- The path that the locator `loc` writes for its bay, given the ports of
the entrance pass. -/
def PathOf (env : MathEnv K) (dockMethod : DockMethod) (exit_mts : List (MatrixTransform K))
    (ports : List (SPort K)) (loc : MatrixTransform K) (path : PortPath K) : Prop :=
  ∃ f a1 a2, locatorFields loc.GetName = some f ∧ 0 < f.bay ∧ 0 < f.portId ∧
    approachOf ports f.portId = some [(1, a1), (2, a2)] ∧
    buildPath env dockMethod exit_mts f.portId loc.GetTransform a1 a2 ⟨[], []⟩ = Except.ok path

/-- The name of an entrance anchor as the entrance loop reads it: the port id
when `sscanf` converts one value, nothing otherwise. -/
def entranceId (name : String) : Option Int :=
  match sscanf name "entrance_port%d" with
  | [Arg.int portId] => some portId
  | _ => none

/-- The values read from the names of the locator anchors, in their order. -/
def locatorNames (locator_mts : List (MatrixTransform K)) : List LocatorName :=
  locator_mts.filterMap (fun l => locatorFields l.GetName)

/-- The values declared by the locator anchors whose port id is `portId`. -/
def declared (locator_mts : List (MatrixTransform K)) (portId : Int) : List LocatorName :=
  (locatorNames locator_mts).filter (fun f => decide (f.portId = portId))

/-- A port after the locators `D` have been added to it, one after the
other. -/
def ownedPort (q0 : SPort K) (D : List LocatorName) : SPort K :=
  { q0 with
      minShipSize := D.foldl (fun acc f => min f.minSize acc) q0.minShipSize
      maxShipSize := D.foldl (fun acc f => max f.maxSize acc) q0.maxShipSize
      bayIDs := q0.bayIDs ++ D.map (fun f => (f.bay - 1, f.padname)) }

/-- The ports after the locator loop: a port that is the first with its id
(its id is not among `ids`, the ids of the ports before it) has the locators
`D` of its id, every other port is as the entrance loop left it. -/
def portsWith (D : Int → List LocatorName) : List Int → List (SPort K) → List (SPort K)
  | _, [] => []
  | ids, q0 :: rest =>
    (if q0.portId ∈ ids then q0 else ownedPort q0 (D q0.portId)) ::
      portsWith D (q0.portId :: ids) rest

/-- The keys of a map, in the order of the map. -/
def mapKeys {V : Type} (m : List (Int × V)) : List Int := m.map Prod.fst

/-- What holds of the station after the locator loop has run over `seen`. -/
def LocInv (env : MathEnv K) (exit_mts : List (MatrixTransform K)) (ports0 : List (SPort K))
    (seen : List (MatrixTransform K)) (st : SpaceStationType K) : Prop :=
  (∀ q ∈ st.m_ports, goodPort q) ∧
  (∀ p, approachOf st.m_ports p = approachOf ports0 p) ∧
  (∀ b, match bayLocator b seen with
    | none => mapFind b st.m_portPaths = none
    | some loc => ∃ path, PathOf env st.dockMethod exit_mts ports0 loc path ∧
        mapFind b st.m_portPaths = some path) ∧
  (seen ≠ [] →
    st.numDockingStages = (if st.dockMethod = DockMethod.SURFACE then 2 else 4) ∧
    st.numUndockStages = (if st.dockMethod = DockMethod.SURFACE then 1 else 3))

/-- What holds of the ports and of the keys of the paths after the locator
loop has run over `seen`. -/
def LocInv2 (ports0 : List (SPort K)) (seen : List (MatrixTransform K))
    (st : SpaceStationType K) : Prop :=
  st.m_ports = portsWith (declared seen) [] ports0 ∧
  (∀ z, (∃ q ∈ st.m_ports, ∃ e ∈ q.bayIDs, e.1 = z) ↔
    ∃ f ∈ locatorNames seen, f.bay - 1 = z) ∧
  List.Pairwise (fun a b => a < b) (mapKeys st.m_portPaths) ∧
  (∀ b, mapFind b st.m_portPaths ≠ none ↔ ∃ f ∈ locatorNames seen, f.bay = b) ∧
  (∀ f ∈ locatorNames seen, 0 < f.bay ∧ 0 < f.portId)

end Notions

/-! ## Two small stations, over the rationals -/

namespace Example

/-- Newton's iteration for the integer square root, from the guess `g`. -/
def sqrtIter : Nat → Nat → Nat → Nat
  | 0, _, g => g
  | fuel + 1, n, g => if (g + n / g) / 2 < g then sqrtIter fuel n ((g + n / g) / 2) else g

/-- Integer square root. -/
def natSqrt (n : Nat) : Nat := if n = 0 then 0 else sqrtIter 64 n n

/-- A square root on the rationals that is exact on squares. -/
def sqrtQ (q : ℚ) : ℚ := (natSqrt (q.num.toNat * q.den) : ℚ) / (q.den : ℚ)

/-- The half turn about the unit axis `v`. -/
def halfTurn {K : Type} [Field K] (v : vector3 K) : matrix3x3 K :=
  ⟨⟨2 * v.x * v.x - 1, 2 * v.x * v.y, 2 * v.x * v.z⟩,
   ⟨2 * v.y * v.x, 2 * v.y * v.y - 1, 2 * v.y * v.z⟩,
   ⟨2 * v.z * v.x, 2 * v.z * v.y, 2 * v.z * v.z - 1⟩⟩

/-- An environment with a given square root; `Rotate` is only ever asked for
the angle of 180 degrees. -/
def envOf {K : Type} [Field K] (sqrt : K → K) : MathEnv K :=
  { sqrt := sqrt
    Rotate := fun _ v => halfTurn v
    DEG2RAD := fun d => d * 355 / (113 * 180)
    uninitialised := ⟨⟨0, 0, 0⟩, ⟨0, 0, 0⟩, ⟨0, 0, 0⟩, ⟨0, 0, 0⟩⟩
    minShipSize0 := 5000
    maxShipSize0 := -1 }

/-- An environment over the rationals. -/
def envQ : MathEnv ℚ := envOf sqrtQ

/-- A frame with the axes of the coordinates at the position `p`. -/
def frameAt {K : Type} [Field K] (p : vector3 K) : matrix4x4 K :=
  ⟨⟨1, 0, 0⟩, ⟨0, 1, 0⟩, ⟨0, 0, 1⟩, p⟩

/-- The state of a surface station with the bay 1, whose docked pose is
`frameAt ⟨0, 0, 3⟩`. -/
def oneBay (K : Type) [Field K] : SpaceStationType K :=
  { model := ⟨[]⟩
    modelName := "oneBay"
    dockMethod := DockMethod.SURFACE
    numDockingPorts := 1
    numDockingStages := 2
    numUndockStages := 1
    shipLaunchStage := 0
    m_ports := []
    m_portPaths := [(1, ⟨[(2, frameAt ⟨0, 0, 3⟩)], []⟩)] }

/-- The entrance of the example stations: axes of the frame, at the origin. -/
def entranceT : matrix4x4 ℚ := ⟨⟨1, 0, 0⟩, ⟨0, 1, 0⟩, ⟨0, 0, 1⟩, ⟨0, 0, 0⟩⟩

/-- The pad of the example stations: a turned frame at `(0, 0, 3)`. -/
def padT : matrix4x4 ℚ :=
  ⟨⟨2 / 3, 2 / 3, -1 / 3⟩, ⟨-1 / 3, 2 / 3, 2 / 3⟩, ⟨2 / 3, -1 / 3, 2 / 3⟩, ⟨0, 0, 3⟩⟩

/-- A model with one entrance, one locator and no exit. -/
def model1 : Model ℚ :=
  ⟨[⟨"entrance_port1", entranceT⟩, ⟨"loc_A001_p1_s0_500_b1", padT⟩]⟩

/-- A model with one entrance and no locator. -/
def model0 : Model ℚ := ⟨[⟨"entrance_port1", entranceT⟩]⟩

/-- A ship with a landing offset of 2. -/
def ship2 : Ship ℚ := ⟨2⟩

/-- A pose of zeros, the content of `outPosOrient` before a call. -/
def pose0 : positionOrient_t ℚ := ⟨⟨0, 0, 0⟩, ⟨0, 0, 0⟩, ⟨0, 0, 0⟩, ⟨0, 0, 0⟩⟩

/-- A model with one entrance and one locator, which declares the bay 7. -/
def model7 (K : Type) [Field K] : Model K :=
  ⟨[⟨"entrance_port1", frameAt ⟨0, 0, 0⟩⟩, ⟨"loc_A001_p1_s0_500_b7", frameAt ⟨0, 0, 3⟩⟩]⟩

/-- The surface station of `model7`. -/
def surface7 {K : Type} [LinearOrderedField K] (env : MathEnv K) : SpaceStationType K :=
  match define_station env DockMethod.SURFACE (model7 K) "surface7" with
  | Except.ok st => st
  | Except.error _ => SpaceStationType.new (model7 K) "surface7" DockMethod.SURFACE

/-- A model with one entrance and three locators: two declare the bay 1, one
declares the bay 2. -/
def model2 : Model ℚ :=
  ⟨[⟨"entrance_port1", entranceT⟩, ⟨"loc_A001_p1_s0_500_b1", padT⟩,
    ⟨"loc_A002_p1_s100_900_b2", frameAt ⟨0, 4, 3⟩⟩,
    ⟨"loc_A003_p1_s50_600_b1", frameAt ⟨4, 0, 3⟩⟩]⟩

/-- The orbital station of `model2`. -/
def orbital2 : SpaceStationType ℚ :=
  match define_station envQ DockMethod.ORBITAL model2 "orbital2" with
  | Except.ok st => st
  | Except.error _ => SpaceStationType.new model2 "orbital2" DockMethod.ORBITAL

/-- A model whose only locator declares the ship sizes 6000 to 7000. -/
def model6000 : Model ℚ :=
  ⟨[⟨"entrance_port1", entranceT⟩, ⟨"loc_A001_p1_s6000_7000_b1", padT⟩]⟩

/-- The surface station of `model6000`. -/
def surface6000 : SpaceStationType ℚ :=
  match define_station envQ DockMethod.SURFACE model6000 "surface6000" with
  | Except.ok st => st
  | Except.error _ => SpaceStationType.new model6000 "surface6000" DockMethod.SURFACE

/-- Two entrance anchors whose names read as the port id 1. -/
def twinEntrances : List (MatrixTransform ℚ) :=
  [⟨"entrance_port1", entranceT⟩, ⟨"entrance_port01", frameAt ⟨0, 0, 50⟩⟩]

/-- The surface station of `model1`. -/
def surface1 : SpaceStationType ℚ :=
  match define_station envQ DockMethod.SURFACE model1 "surface1" with
  | Except.ok st => st
  | Except.error _ => SpaceStationType.new model1 "surface1" DockMethod.SURFACE

/-- The orbital station of `model1`. -/
def orbital1 : SpaceStationType ℚ :=
  match define_station envQ DockMethod.ORBITAL model1 "orbital1" with
  | Except.ok st => st
  | Except.error _ => SpaceStationType.new model1 "orbital1" DockMethod.ORBITAL

end Example

end Pioneer

/-! # Theorems -/

set_option linter.unusedSectionVars false

namespace Pioneer

/-! ## Reading numbers and names -/

theorem digitChar_isdigit :
    ∀ d, d < 10 → isdigit (Nat.digitChar d) = true ∧ (Nat.digitChar d).toNat - 48 = d := by
  decide

/-- Value of a run of digits read after `acc`. -/
theorem scanDigits_append (pre rest : List Char) (hpre : ∀ c ∈ pre, isdigit c = true)
    (hrest : ∀ c cs, rest = c :: cs → isdigit c = false) (acc : Nat) :
    scanDigits acc (pre ++ rest) = (pre.foldl (fun a c => a * 10 + (c.toNat - 48)) acc, rest) := by
  induction pre generalizing acc with
  | nil =>
    cases rest with
    | nil => rfl
    | cons c cs => simp [scanDigits, hrest c cs rfl]
  | cons c cs ih =>
    have hc : isdigit c = true := hpre c (List.mem_cons_self _ _)
    simp only [List.cons_append, scanDigits, hc, if_true, List.foldl_cons]
    exact ih (fun c' hc' => hpre c' (List.mem_cons_of_mem _ hc')) _

theorem toDigitsCore_spec (fuel : Nat) : ∀ n ds, n < fuel →
    ∃ pre, Nat.toDigitsCore 10 fuel n ds = pre ++ ds ∧ pre ≠ [] ∧ (∀ c ∈ pre, isdigit c = true) ∧
      ∀ acc, pre.foldl (fun a c => a * 10 + (c.toNat - 48)) acc = acc * 10 ^ pre.length + n := by
  induction fuel with
  | zero => intro n ds h; omega
  | succ fuel ih =>
    intro n ds h
    have hd := digitChar_isdigit (n % 10) (Nat.mod_lt _ (by decide))
    by_cases h0 : n / 10 = 0
    · refine ⟨[Nat.digitChar (n % 10)], ?_, by simp, ?_, ?_⟩
      · simp [Nat.toDigitsCore, h0]
      · intro c hc
        rw [List.mem_singleton] at hc
        rw [hc]; exact hd.1
      · intro acc
        simp only [List.foldl_cons, List.foldl_nil, hd.2, List.length_singleton, pow_one]
        omega
    · obtain ⟨pre, hpre, _, hdig, hval⟩ := ih (n / 10) (Nat.digitChar (n % 10) :: ds) (by omega)
      refine ⟨pre ++ [Nat.digitChar (n % 10)], ?_, by simp, ?_, ?_⟩
      · simp [Nat.toDigitsCore, h0, hpre]
      · intro c hc
        rw [List.mem_append, List.mem_singleton] at hc
        rcases hc with hc | hc
        · exact hdig c hc
        · rw [hc]; exact hd.1
      · intro acc
        simp only [List.foldl_append, List.foldl_cons, List.foldl_nil, hd.2, hval,
          List.length_append, List.length_singleton, pow_succ]
        have := Nat.div_add_mod n 10
        nlinarith [this]

theorem toDigits_spec (n : Nat) :
    ∃ c cs, Nat.toDigits 10 n = c :: cs ∧ (∀ c' ∈ c :: cs, isdigit c' = true) ∧
      ∀ rest, noDigitHead rest → scanDigits 0 (c :: cs ++ rest) = (n, rest) := by
  obtain ⟨pre, hpre, hne, hdig, hval⟩ := toDigitsCore_spec (n + 1) n [] (Nat.lt_succ_self n)
  rw [List.append_nil] at hpre
  cases pre with
  | nil => exact absurd rfl hne
  | cons c cs =>
    refine ⟨c, cs, hpre, hdig, ?_⟩
    intro rest hrest
    have := scanDigits_append (c :: cs) rest hdig hrest 0
    rw [hval 0] at this
    simpa using this

theorem isdigit_not_space (c : Char) (h : isdigit c = true) :
    isspace c = false ∧ c ≠ '-' ∧ c ≠ '+' := by
  simp only [isdigit, Bool.and_eq_true, decide_eq_true_eq] at h
  refine ⟨?_, ?_, ?_⟩
  · simp only [isspace, Bool.or_eq_false_iff, Bool.and_eq_false_iff, decide_eq_false_iff_not]
    omega
  · intro hc; rw [hc] at h; revert h; decide
  · intro hc; rw [hc] at h; revert h; decide

theorem toInt32_of_isInt {i : Int} (h : isInt i) : toInt32 i = i := by
  obtain ⟨h1, h2⟩ := h
  unfold toInt32
  norm_num at h1 h2 ⊢
  omega

theorem scanInt_toString (i : Int) (hi : isInt i) (rest : List Char) (hrest : noDigitHead rest) :
    scanInt ((toString i).toList ++ rest) = some (i, rest) := by
  have hw := toInt32_of_isInt hi
  cases i with
  | ofNat m =>
    obtain ⟨c, cs, hcs, hdig, hscan⟩ := toDigits_spec m
    have hstr : (toString (Int.ofNat m)).toList = c :: cs := by
      show (Nat.toDigits 10 m).asString.toList = _
      rw [hcs]; rfl
    have hc := isdigit_not_space c (hdig c (List.mem_cons_self _ _))
    have hd := hdig c (List.mem_cons_self _ _)
    rw [hstr]
    have := hscan rest hrest
    simp only [List.cons_append] at this
    have hw' : toInt32 (m : Int) = Int.ofNat m := hw
    simp [scanInt, skipSpace, hc.1, hc.2.1, hc.2.2, hd, this, hw']
  | negSucc m =>
    obtain ⟨c, cs, hcs, hdig, hscan⟩ := toDigits_spec (m + 1)
    have hstr : (toString (Int.negSucc m)).toList = '-' :: c :: cs := by
      show ("-" ++ (Nat.toDigits 10 (m + 1)).asString).toList = _
      rw [hcs]; rfl
    have hd := hdig c (List.mem_cons_self _ _)
    rw [hstr]
    have := hscan rest hrest
    simp only [List.cons_append] at this
    have hsp : isspace '-' = false := by decide
    have e : -(((m + 1 : Nat)) : Int) = Int.negSucc m := rfl
    have hl : ('-' :: c :: cs) ++ rest = '-' :: c :: (cs ++ rest) := rfl
    rw [hl]
    simp only [scanInt, skipSpace, hsp, Bool.false_eq_true, if_false, if_true, hd, this, e, hw]

theorem parseFormat_loc : parseFormat "loc_%4s_p%d_s%d_%d_b%d".toList =
    [Directive.lit 'l', Directive.lit 'o', Directive.lit 'c', Directive.lit '_',
      Directive.str 4, Directive.lit '_', Directive.lit 'p', Directive.int,
      Directive.lit '_', Directive.lit 's', Directive.int, Directive.lit '_', Directive.int,
      Directive.lit '_', Directive.lit 'b', Directive.int] := by
  decide

theorem scanStr_pad (pad rest : List Char) (hlen : pad.length = 4)
    (hns : ∀ c ∈ pad, isspace c = false) : scanStr 4 (pad ++ rest) = some (pad, rest) := by
  match pad, hlen, hns with
  | [a, b, c, d], _, hns =>
    have ha := hns a (by simp)
    have hb := hns b (by simp)
    have hc := hns c (by simp)
    have hd := hns d (by simp)
    simp [scanStr, skipSpace, takeWord, ha, hb, hc, hd]

theorem locatorFields_locatorName (pad : List Char) (portId minSize maxSize bay : Int)
    (hlen : pad.length = 4) (hns : ∀ c ∈ pad, isspace c = false)
    (hp : isInt portId) (hmn : isInt minSize) (hmx : isInt maxSize) (hb : isInt bay) :
    locatorFields (locatorName pad portId minSize maxSize bay) =
      some ⟨pad, portId, minSize, maxSize, bay⟩ := by
  have h1 : (locatorName pad portId minSize maxSize bay).toList =
      'l' :: 'o' :: 'c' :: '_' :: (pad ++ ('_' :: 'p' :: ((toString portId).toList ++
        ('_' :: 's' :: ((toString minSize).toList ++ ('_' :: ((toString maxSize).toList ++
          ('_' :: 'b' :: ((toString bay).toList ++ []))))))))) := by
    simp [locatorName, String.toList]
  have hu : ∀ cs, noDigitHead ('_' :: cs) := by
    intro cs c cs' h
    injection h with h _
    rw [← h]; decide
  have hnil : noDigitHead [] := by intro c cs h; cases h
  unfold locatorFields sscanf
  rw [parseFormat_loc, h1]
  simp only [scanItems, if_true, scanStr_pad pad _ hlen hns, scanInt_toString _ hp _ (hu _),
    scanInt_toString _ hmn _ (hu _), scanInt_toString _ hmx _ (hu _),
    scanInt_toString _ hb _ hnil]

theorem locatorFields_locatorNameNoBay (pad : List Char) (portId minSize maxSize : Int)
    (hlen : pad.length = 4) (hns : ∀ c ∈ pad, isspace c = false)
    (hp : isInt portId) (hmn : isInt minSize) (hmx : isInt maxSize) :
    locatorFields (locatorNameNoBay pad portId minSize maxSize) = none := by
  have h1 : (locatorNameNoBay pad portId minSize maxSize).toList =
      'l' :: 'o' :: 'c' :: '_' :: (pad ++ ('_' :: 'p' :: ((toString portId).toList ++
        ('_' :: 's' :: ((toString minSize).toList ++ ('_' :: ((toString maxSize).toList ++
          []))))))) := by
    simp [locatorNameNoBay, String.toList]
  have hu : ∀ cs, noDigitHead ('_' :: cs) := by
    intro cs c cs' h
    injection h with h _
    rw [← h]; decide
  have hnil : noDigitHead [] := by intro c cs h; cases h
  unfold locatorFields sscanf
  rw [parseFormat_loc, h1]
  simp only [scanItems, if_true, scanStr_pad pad _ hlen hns, scanInt_toString _ hp _ (hu _),
    scanInt_toString _ hmn _ (hu _), scanInt_toString _ hmx _ hnil]

/-! ## Maps -/

section MapLemmas

variable {V : Type}

theorem mapFind_mapAssign (k k' : Int) (v : V) (m : List (Int × V)) :
    mapFind k' (mapAssign k v m) = if k' = k then some v else mapFind k' m := by
  induction m with
  | nil =>
    by_cases h : k = k'
    · subst h; simp [mapAssign, mapFind]
    · simp only [mapAssign, mapFind, if_neg h, if_neg (Ne.symm h)]
  | cons e rest ih =>
    obtain ⟨k0, v0⟩ := e
    unfold mapAssign
    by_cases h1 : k < k0
    · rw [if_pos h1]
      by_cases h : k = k'
      · subst h; simp [mapFind]
      · simp only [mapFind, if_neg h, if_neg (Ne.symm h)]
    · rw [if_neg h1]
      by_cases h2 : k = k0
      · subst h2
        rw [if_pos rfl]
        by_cases h : k = k'
        · subst h; simp [mapFind]
        · simp only [mapFind, if_neg h, if_neg (Ne.symm h)]
      · rw [if_neg h2]
        by_cases h3 : k0 = k'
        · subst h3
          simp only [mapFind, if_true, if_neg (Ne.symm h2)]
        · simp only [mapFind, if_neg h3, ih]

theorem mapIndex_fst (d : V) (k : Int) (m : List (Int × V)) :
    (mapIndex d k m).1 = (mapFind k m).getD d := by
  unfold mapIndex
  cases mapFind k m <;> rfl

theorem mapFind_mapIndex (d : V) (k k' : Int) (m : List (Int × V)) (h : k' ≠ k) :
    mapFind k' (mapIndex d k m).2 = mapFind k' m := by
  unfold mapIndex
  cases hm : mapFind k m with
  | none => simp [mapFind_mapAssign, h]
  | some v => rfl

theorem mapAssign_ne_nil (k : Int) (v : V) (m : List (Int × V)) : mapAssign k v m ≠ [] := by
  cases m with
  | nil => simp [mapAssign]
  | cons e rest =>
    unfold mapAssign
    split
    · simp
    · split <;> simp

theorem mapFind_nil_of_forall {m : List (Int × V)} (h : ∀ k, mapFind k m = none) : m = [] := by
  cases m with
  | nil => rfl
  | cons e rest =>
    have := h e.1
    simp [mapFind] at this

end MapLemmas

/-! ## The two passes of `OnSetupComplete` -/

section SetupLemmas

variable {K : Type} [LinearOrderedField K]

theorem newPort_ok {env : MathEnv K} {dm : DockMethod} {a : MatrixTransform K} {p : SPort K}
    (h : newPort env dm a = Except.ok p) :
    0 < p.portId ∧ (∃ a1, p.m_approach = [(1, a1), (2, a.GetTransform)]) ∧ p.bayIDs = [] := by
  unfold newPort at h
  split at h
  · split at h
    · injection h with h
      subst h
      rename_i portId _ hpos
      refine ⟨hpos, ?_, rfl⟩
      have e : ∀ x y : matrix4x4 K, mapAssign 2 y (mapAssign 1 x []) = [(1, x), (2, y)] := by
        intro x y; simp [mapAssign]
      exact ⟨_, e _ _⟩
    · cases h
  · cases h

theorem addPorts_good {env : MathEnv K} {dm : DockMethod} (es : List (MatrixTransform K)) :
    ∀ {ports ports' : List (SPort K)}, addPorts env dm es ports = Except.ok ports' →
      (∀ q ∈ ports, goodPort q) → ∀ q ∈ ports', goodPort q := by
  induction es with
  | nil =>
    intro ports ports' h hg
    simp only [addPorts] at h
    injection h with h
    subst h; exact hg
  | cons e rest ih =>
    intro ports ports' h hg
    simp only [addPorts] at h
    split at h
    · cases h
    · rename_i np hnp
      refine ih h ?_
      intro q hq
      rw [List.mem_append, List.mem_singleton] at hq
      rcases hq with hq | hq
      · exact hg q hq
      · subst hq
        obtain ⟨_, ⟨a1, ha⟩, _⟩ := newPort_ok hnp
        exact ⟨a1, _, ha⟩

theorem findPort_spec {env : MathEnv K} {portId mn mx bay : Int} {pad : List Char} :
    ∀ {ports ports' : List (SPort K)} {a1 a2 : matrix4x4 K},
      findPort env portId mn mx bay pad ports = some (ports', a1, a2) →
      (∀ q ∈ ports, goodPort q) →
      (∀ q ∈ ports', goodPort q) ∧ (∀ p, approachOf ports' p = approachOf ports p) ∧
        approachOf ports portId = some [(1, a1), (2, a2)] := by
  intro ports
  induction ports with
  | nil => intro ports' a1 a2 h; simp [findPort] at h
  | cons q rest ih =>
    intro ports' a1 a2 h hg
    unfold findPort at h
    obtain ⟨b1, b2, hq⟩ := hg q (List.mem_cons_self _ _)
    by_cases hid : q.portId = portId
    · rw [if_pos hid] at h
      simp only [hq, mapIndex, mapFind, if_true, Option.some.injEq, Prod.mk.injEq] at h
      norm_num at h
      obtain ⟨h1, h2, h3⟩ := h
      subst h1 h2 h3
      refine ⟨?_, ?_, ?_⟩
      · intro q' hq'
        rw [List.mem_cons] at hq'
        rcases hq' with hq' | hq'
        · subst hq'; exact ⟨_, _, rfl⟩
        · exact hg q' (List.mem_cons_of_mem _ hq')
      · intro p
        simp only [approachOf, portOfId, List.find?_cons]
        by_cases hp : q.portId = p
        · simp [hp, hq]
        · simp [hp]
      · simp [approachOf, portOfId, List.find?_cons, hid, hq]
    · rw [if_neg hid] at h
      split at h
      · cases h
      · rename_i r hr
        injection h with h
        obtain ⟨r1, r2, r3⟩ := r
        simp only [Prod.mk.injEq] at h
        obtain ⟨h1, h2, h3⟩ := h
        subst h1 h2 h3
        obtain ⟨ig, ia, ip⟩ := ih hr (fun q' hq' => hg q' (List.mem_cons_of_mem _ hq'))
        refine ⟨?_, ?_, ?_⟩
        · intro q' hq'
          rw [List.mem_cons] at hq'
          rcases hq' with hq' | hq'
          · subst hq'; exact ⟨_, _, hq⟩
          · exact ig q' hq'
        · intro p
          have := ia p
          simp only [approachOf, portOfId, List.find?_cons] at this ⊢
          by_cases hp : q.portId = p
          · simp [hp]
          · simp [hp, this]
        · simp only [approachOf, portOfId, List.find?_cons] at ip ⊢
          simp [hid, ip]

theorem buildPath_surface (env : MathEnv K) (exit_mts : List (MatrixTransform K)) (p : Int)
    (T a1 a2 : matrix4x4 K) :
    buildPath env DockMethod.SURFACE exit_mts p T a1 a2 ⟨[], []⟩ = Except.ok ⟨[(2, T)], []⟩ := by
  simp [buildPath, mapAssign]

theorem buildPath_orbital {env : MathEnv K} {exit_mts : List (MatrixTransform K)} {p : Int}
    {T a1 a2 : matrix4x4 K} {np : PortPath K}
    (h : buildPath env DockMethod.ORBITAL exit_mts p T a1 a2 ⟨[], []⟩ = Except.ok np) :
    ∃ r, leavingOrient env exit_mts p T a2 = Except.ok r ∧
      np = ⟨[(2, a2.SetRotationOnly (matrix4x4.ofOrient T.GetOrient)),
              (3, T.SetTranslate (intersectionPos env T a1 a2)), (4, T)],
            [(1, T), (2, r.1.SetTranslate (intersectionPos env T a1 a2)), (3, r.2)]⟩ := by
  unfold buildPath at h
  rw [if_neg (by decide)] at h
  simp only at h
  split at h
  · cases h
  · rename_i r hr
    injection h with h
    refine ⟨r, hr, ?_⟩
    rw [← h]
    simp [mapAssign]

theorem buildPath_shape {env : MathEnv K} {dm : DockMethod}
    {exit_mts : List (MatrixTransform K)} {p : Int} {T a1 a2 : matrix4x4 K} {np : PortPath K}
    (h : buildPath env dm exit_mts p T a1 a2 ⟨[], []⟩ = Except.ok np) : pathShape dm np := by
  cases dm with
  | SURFACE =>
    rw [buildPath_surface] at h
    injection h with h
    exact ⟨_, h.symm⟩
  | ORBITAL =>
    obtain ⟨r, _, hnp⟩ := buildPath_orbital h
    exact ⟨_, _, _, _, _, _, hnp⟩

theorem buildPath_rebuild (env : MathEnv K) (dm : DockMethod)
    (exit_mts : List (MatrixTransform K)) (p : Int) (T a1 a2 : matrix4x4 K) {path : PortPath K}
    (h : path = ⟨[], []⟩ ∨ pathShape dm path) :
    buildPath env dm exit_mts p T a1 a2 path = buildPath env dm exit_mts p T a1 a2 ⟨[], []⟩ := by
  rcases h with h | h
  · rw [h]
  · cases dm with
    | SURFACE =>
      obtain ⟨d2, hd⟩ := h
      subst hd
      simp [buildPath, mapAssign]
    | ORBITAL =>
      obtain ⟨d2, d3, d4, l1, l2, l3, hd⟩ := h
      subst hd
      simp [buildPath, mapAssign]

theorem bayLocator_append (b : Int) (seen : List (MatrixTransform K)) (l : MatrixTransform K) :
    bayLocator b (seen ++ [l]) =
      if (locatorFields l.GetName).map LocatorName.bay = some b then some l
      else bayLocator b seen := by
  simp [bayLocator, List.foldl_append]

theorem addLocator_inv {env : MathEnv K} {exit_mts : List (MatrixTransform K)}
    {ports0 : List (SPort K)} {seen : List (MatrixTransform K)} {st st' : SpaceStationType K}
    {l : MatrixTransform K} (hinv : LocInv env exit_mts ports0 seen st)
    (h : addLocator env exit_mts st l = Except.ok st') :
    LocInv env exit_mts ports0 (seen ++ [l]) st' ∧ st'.dockMethod = st.dockMethod ∧
      st'.shipLaunchStage = st.shipLaunchStage ∧ st'.model = st.model := by
  obtain ⟨hgood, happ, hpaths, _⟩ := hinv
  unfold addLocator at h
  split at h
  · rename_i f hf
    split at h
    · rename_i hpos
      split at h
      · cases h
      · rename_i ports' a1 a2 hfind
        obtain ⟨hg', ha', hap⟩ := findPort_spec hfind hgood
        simp only at h
        have hold : (mapIndex (⟨[], []⟩ : PortPath K) f.bay st.m_portPaths).1 = ⟨[], []⟩ ∨
            pathShape st.dockMethod (mapIndex (⟨[], []⟩ : PortPath K) f.bay st.m_portPaths).1 := by
          rw [mapIndex_fst]
          have hb := hpaths f.bay
          split at hb
          · rw [hb]; exact Or.inl rfl
          · obtain ⟨path, ⟨_, _, _, _, _, _, _, hbp⟩, hmf⟩ := hb
            rw [hmf]; exact Or.inr (buildPath_shape hbp)
        rw [buildPath_rebuild env st.dockMethod exit_mts f.portId l.GetTransform a1 a2 hold] at h
        split at h
        · cases h
        · rename_i newPath hbuild
          injection h with h
          subst h
          refine ⟨⟨hg', ?_, ?_, ?_⟩, rfl, rfl, rfl⟩
          · intro p; rw [ha' p, happ p]
          · intro b
            rw [bayLocator_append]
            by_cases hb : f.bay = b
            · subst hb
              simp only [hf, Option.map_some', if_true]
              refine ⟨newPath, ⟨f, a1, a2, hf, hpos.1, hpos.2, ?_, hbuild⟩, ?_⟩
              · rw [← happ]; exact hap
              · simp [mapFind_mapAssign]
            · have hb' : ¬ (some f.bay = some b) := fun e => hb (Option.some.inj e)
              simp only [hf, Option.map_some', if_neg hb']
              have hmf : mapFind b (mapAssign f.bay newPath
                  (mapIndex (⟨[], []⟩ : PortPath K) f.bay st.m_portPaths).2) =
                  mapFind b st.m_portPaths := by
                rw [mapFind_mapAssign, if_neg (Ne.symm hb), mapFind_mapIndex _ _ _ _ (Ne.symm hb)]
              simp only [hmf]
              exact hpaths b
          · intro _
            exact ⟨rfl, rfl⟩
    · cases h
  · cases h

theorem addLocators_inv {env : MathEnv K} {exit_mts : List (MatrixTransform K)}
    {ports0 : List (SPort K)} (rest : List (MatrixTransform K)) :
    ∀ {seen : List (MatrixTransform K)} {st st' : SpaceStationType K},
      LocInv env exit_mts ports0 seen st → addLocators env exit_mts rest st = Except.ok st' →
      LocInv env exit_mts ports0 (seen ++ rest) st' ∧ st'.dockMethod = st.dockMethod ∧
        st'.shipLaunchStage = st.shipLaunchStage ∧ st'.model = st.model := by
  induction rest with
  | nil =>
    intro seen st st' hinv h
    simp only [addLocators] at h
    injection h with h
    subst h
    rw [List.append_nil]
    exact ⟨hinv, rfl, rfl, rfl⟩
  | cons l rest ih =>
    intro seen st st' hinv h
    simp only [addLocators] at h
    split at h
    · cases h
    · rename_i st1 h1
      obtain ⟨i1, d1, s1, m1⟩ := addLocator_inv hinv h1
      obtain ⟨i2, d2, s2, m2⟩ := ih i1 h
      rw [List.append_assoc] at i2
      exact ⟨i2, d2.trans d1, s2.trans s1, m2.trans m1⟩

/-- What a station that `define_station` returns is made of: the ports of
the entrance pass, the state the locator loop leaves, and the values the
closing checks ask for. -/
theorem define_station_spec {env : MathEnv K} {dm : DockMethod} {model : Model K}
    {modelName : String} {st : SpaceStationType K}
    (h : define_station env dm model modelName = Except.ok st) :
    ∃ ports0, addPorts env dm (model.FindTagsByStartOfName "entrance_") [] = Except.ok ports0 ∧
      LocInv env (model.FindTagsByStartOfName "exit_") ports0
        (model.FindTagsByStartOfName "loc_") st ∧
      st.dockMethod = dm ∧ st.shipLaunchStage = (if dm = DockMethod.SURFACE then 0 else 3) ∧
      st.m_portPaths ≠ [] ∧ model.FindTagsByStartOfName "loc_" ≠ [] ∧
      st.numDockingStages = (if dm = DockMethod.SURFACE then 2 else 4) ∧
      st.numUndockStages = (if dm = DockMethod.SURFACE then 1 else 3) ∧
      st.numDockingPorts = st.m_portPaths.length := by
  unfold define_station OnSetupComplete at h
  split at h
  · cases h
  · rename_i st3 hbuild
    split at h
    · cases h
    · rename_i hne
      split at h
      · cases h
      · split at h
        · cases h
        · split at h
          · cases h
          · injection h with h
            subst h
            unfold build at hbuild
            simp only [SpaceStationType.new] at hbuild
            split at hbuild
            · cases hbuild
            · rename_i ports0 hports
              split at hbuild
              · cases hbuild
              · rename_i st2 hlocs
                injection hbuild with hbuild
                subst hbuild
                have hinit : LocInv env (model.FindTagsByStartOfName "exit_") ports0 []
                    ({ model := model, modelName := modelName, dockMethod := dm,
                       numDockingPorts := 0, numDockingStages := 0, numUndockStages := 0,
                       shipLaunchStage := if DockMethod.SURFACE = dm then 0 else 3,
                       m_ports := ports0, m_portPaths := [] } : SpaceStationType K) := by
                  refine ⟨addPorts_good _ hports (by simp), fun _ => rfl, ?_, fun hh => absurd rfl hh⟩
                  intro b
                  simp [bayLocator, mapFind]
                obtain ⟨inv, hd, hs, _⟩ := addLocators_inv _ hinit hlocs
                rw [List.nil_append] at inv
                simp only at hd hs
                have hlne : model.FindTagsByStartOfName "loc_" ≠ [] := by
                  intro hnil
                  rw [hnil] at hlocs
                  simp only [addLocators] at hlocs
                  injection hlocs with hlocs
                  apply hne
                  rw [← hlocs]
                have hnum := inv.2.2.2 hlne
                rw [hd] at hnum
                refine ⟨ports0, hports, inv, hd, ?_, hne, hlne, hnum.1, hnum.2, rfl⟩
                show st2.shipLaunchStage = _
                rw [hs]
                cases dm <;> rfl

end SetupLemmas


/-! ## Stations that `OnSetupComplete` returns -/

section Finalized

variable {K : Type} [LinearOrderedField K]

/-- Every bay of a finalized station holds the path that the locator of the
bay writes into an empty path. -/
theorem finalized_path {env : MathEnv K} {dm : DockMethod} {model : Model K}
    {modelName : String} {st : SpaceStationType K}
    (h : define_station env dm model modelName = Except.ok st) {bay : Int} {path : PortPath K}
    (hpath : mapFind bay st.m_portPaths = some path) :
    ∃ loc f a1 a2, bayLocator bay (model.FindTagsByStartOfName "loc_") = some loc ∧
      locatorFields loc.GetName = some f ∧ 0 < f.bay ∧ 0 < f.portId ∧
      approachOf st.m_ports f.portId = some [(1, a1), (2, a2)] ∧
      buildPath env dm (model.FindTagsByStartOfName "exit_") f.portId loc.GetTransform a1 a2
        ⟨[], []⟩ = Except.ok path := by
  obtain ⟨ports0, _, ⟨_, happ, hpaths, _⟩, hd, _⟩ := define_station_spec h
  have hb := hpaths bay
  split at hb
  · rw [hb] at hpath; cases hpath
  · rename_i loc hloc
    obtain ⟨path', ⟨f, a1, a2, hf, hb1, hp1, ha, hbuild⟩, hmf⟩ := hb
    rw [hmf] at hpath
    injection hpath with hpath
    subst hpath
    rw [hd] at hbuild
    exact ⟨loc, f, a1, a2, hloc, hf, hb1, hp1, (happ _).trans ha, hbuild⟩

/-- The docking map of a bay of a finalized station has the stages from 2 to
`numDockingStages`, and not the stage 1. -/
theorem finalized_docking {env : MathEnv K} {dm : DockMethod} {model : Model K}
    {modelName : String} {st : SpaceStationType K}
    (h : define_station env dm model modelName = Except.ok st) {bay : Int} {path : PortPath K}
    (hpath : mapFind bay st.m_portPaths = some path) :
    mapFind 1 path.m_docking = none ∧
      ∀ k, 2 ≤ k → k ≤ st.numDockingStages → ∃ M, mapFind k path.m_docking = some M := by
  obtain ⟨loc, f, a1, a2, _, _, _, _, _, hbuild⟩ := finalized_path h hpath
  obtain ⟨_, _, _, _, _, _, _, hnum, _⟩ := define_station_spec h
  cases dm with
  | SURFACE =>
    rw [buildPath_surface] at hbuild
    injection hbuild with hbuild
    subst hbuild
    refine ⟨by simp [mapFind], ?_⟩
    intro k h1 h2
    rw [hnum] at h2
    simp only [if_true] at h2
    have : k = 2 := by omega
    subst this
    simp [mapFind]
  | ORBITAL =>
    obtain ⟨r, _, hnp⟩ := buildPath_orbital hbuild
    subst hnp
    refine ⟨by simp [mapFind], ?_⟩
    intro k h1 h2
    rw [hnum] at h2
    rw [if_neg (by decide)] at h2
    have : k = 2 ∨ k = 3 ∨ k = 4 := by omega
    rcases this with e | e | e <;> subst e <;> simp [mapFind]

/-- The leaving map of a bay of a finalized station has the stages from 1 to
`shipLaunchStage`. -/
theorem finalized_leaving {env : MathEnv K} {dm : DockMethod} {model : Model K}
    {modelName : String} {st : SpaceStationType K}
    (h : define_station env dm model modelName = Except.ok st) {bay : Int} {path : PortPath K}
    (hpath : mapFind bay st.m_portPaths = some path) :
    ∀ k, 1 ≤ k → k ≤ st.shipLaunchStage → ∃ M, mapFind k path.m_leaving = some M := by
  obtain ⟨loc, f, a1, a2, _, _, _, _, _, hbuild⟩ := finalized_path h hpath
  obtain ⟨_, _, _, _, hsls, _⟩ := define_station_spec h
  cases dm with
  | SURFACE =>
    intro k h1 h2
    rw [hsls] at h2
    simp only [if_true] at h2
    omega
  | ORBITAL =>
    obtain ⟨r, _, hnp⟩ := buildPath_orbital hbuild
    subst hnp
    intro k h1 h2
    rw [hsls] at h2
    rw [if_neg (by decide)] at h2
    have : k = 1 ∨ k = 2 ∨ k = 3 := by omega
    rcases this with e | e | e <;> subst e <;> simp [mapFind]

/-- The stage counts of a finalized station. -/
theorem finalized_counts {env : MathEnv K} {dm : DockMethod} {model : Model K}
    {modelName : String} {st : SpaceStationType K}
    (h : define_station env dm model modelName = Except.ok st) :
    2 ≤ st.numDockingStages ∧ 0 ≤ st.shipLaunchStage := by
  obtain ⟨_, _, _, _, hsls, _, _, hnum, _⟩ := define_station_spec h
  rw [hsls, hnum]
  cases dm <;> simp

end Finalized


/-! ## Ports, bays and the keys of the paths -/

section PortsAndBays

variable {K : Type} [LinearOrderedField K]

theorem hasBay_iff (z : Int) (l : List (Int × List Char)) :
    hasBay z l = true ↔ ∃ e ∈ l, e.1 = z := by
  induction l with
  | nil => simp [hasBay]
  | cons e rest ih =>
    unfold hasBay
    by_cases h : e.1 = z
    · simp [h]
    · simp [h, ih]

theorem findPortByBay_some {z : Int} (ports : List (SPort K)) {port : SPort K}
    (h : findPortByBay z ports = some port) :
    ∃ pre post, ports = pre ++ port :: post ∧ hasBay z port.bayIDs = true ∧
      ∀ q ∈ pre, hasBay z q.bayIDs = false := by
  induction ports with
  | nil => simp [findPortByBay] at h
  | cons q rest ih =>
    unfold findPortByBay at h
    by_cases hq : hasBay z q.bayIDs = true
    · rw [if_pos hq] at h
      injection h with h
      subst h
      exact ⟨[], rest, rfl, hq, by simp⟩
    · rw [if_neg hq] at h
      obtain ⟨pre, post, hl, hb, hpre⟩ := ih h
      refine ⟨q :: pre, post, by rw [hl]; rfl, hb, ?_⟩
      intro r hr
      rw [List.mem_cons] at hr
      rcases hr with hr | hr
      · subst hr; simpa using hq
      · exact hpre r hr

theorem findPortByBay_none (z : Int) (ports : List (SPort K)) :
    findPortByBay z ports = none ↔ ∀ q ∈ ports, hasBay z q.bayIDs = false := by
  induction ports with
  | nil => simp [findPortByBay]
  | cons q rest ih =>
    unfold findPortByBay
    by_cases hq : hasBay z q.bayIDs = true
    · simp [hq]
    · simp [hq, ih]

theorem newPort_entranceId {env : MathEnv K} {dm : DockMethod} {a : MatrixTransform K}
    {p : SPort K} (h : newPort env dm a = Except.ok p) :
    entranceId a.GetName = some p.portId ∧ 0 < p.portId := by
  unfold newPort at h
  unfold entranceId
  split at h
  · rename_i portId heq
    split at h
    · injection h with h
      subst h
      rename_i hpos
      exact ⟨rfl, hpos⟩
    · cases h
  · cases h

theorem newPort_of_entranceId (env : MathEnv K) (dm : DockMethod) {a : MatrixTransform K}
    {n : Int} (h : entranceId a.GetName = some n) (hn : 0 < n) :
    ∃ p, newPort env dm a = Except.ok p := by
  unfold entranceId at h
  unfold newPort
  split at h
  · rename_i portId heq
    injection h with h
    subst h
    simp [hn]
  · cases h

theorem addPorts_forall₂ {env : MathEnv K} {dm : DockMethod} (es : List (MatrixTransform K)) :
    ∀ {ports ports' : List (SPort K)}, addPorts env dm es ports = Except.ok ports' →
      ∃ new, ports' = ports ++ new ∧
        List.Forall₂ (fun a q => newPort env dm a = Except.ok q) es new := by
  induction es with
  | nil =>
    intro ports ports' h
    simp only [addPorts] at h
    injection h with h
    exact ⟨[], by simp [h], List.Forall₂.nil⟩
  | cons e rest ih =>
    intro ports ports' h
    simp only [addPorts] at h
    split at h
    · cases h
    · rename_i np hnp
      obtain ⟨new, hnew, hf⟩ := ih h
      exact ⟨np :: new, by rw [hnew]; simp, List.Forall₂.cons hnp hf⟩

theorem addPorts_succeeds (env : MathEnv K) (dm : DockMethod) (es : List (MatrixTransform K)) :
    ∀ ports : List (SPort K), (∀ a ∈ es, ∃ n, entranceId a.GetName = some n ∧ 0 < n) →
      ∃ ports', addPorts env dm es ports = Except.ok ports' := by
  induction es with
  | nil => intro ports _; exact ⟨ports, rfl⟩
  | cons e rest ih =>
    intro ports hall
    obtain ⟨n, hn, hpos⟩ := hall e (List.mem_cons_self _ _)
    obtain ⟨p, hp⟩ := newPort_of_entranceId env dm hn hpos
    simp only [addPorts, hp]
    exact ih _ (fun a ha => hall a (List.mem_cons_of_mem _ ha))

theorem forall₂_portIds {env : MathEnv K} {dm : DockMethod} {es : List (MatrixTransform K)}
    {ports : List (SPort K)}
    (h : List.Forall₂ (fun a q => newPort env dm a = Except.ok q) es ports) :
    ports.map SPort.portId = es.filterMap (fun a => entranceId a.GetName) ∧
      ports.length = es.length ∧ ∀ q ∈ ports, 0 < q.portId := by
  induction h with
  | nil => simp
  | cons hq _ ih =>
    obtain ⟨hid, hpos⟩ := newPort_entranceId hq
    obtain ⟨i1, i2, i3⟩ := ih
    refine ⟨by simp [List.filterMap_cons, hid, i1], by simp [i2], ?_⟩
    intro q hq'
    rw [List.mem_cons] at hq'
    rcases hq' with hq' | hq'
    · subst hq'; exact hpos
    · exact i3 q hq'

theorem findPortByBay_mem {z : Int} (ports : List (SPort K)) {port : SPort K}
    (h : findPortByBay z ports = some port) : port ∈ ports := by
  induction ports with
  | nil => simp [findPortByBay] at h
  | cons q rest ih =>
    unfold findPortByBay at h
    by_cases hq : hasBay z q.bayIDs = true
    · rw [if_pos hq] at h
      injection h with h
      subst h
      exact List.mem_cons_self _ _
    · rw [if_neg hq] at h
      exact List.mem_cons_of_mem _ (ih h)

theorem goodPort_entry {q : SPort K} (hq : goodPort q) (stage : Int) :
    (∃ mt, mapFind stage q.m_approach = some mt) ↔ stage = 1 ∨ stage = 2 := by
  obtain ⟨a1, a2, ha⟩ := hq
  rw [ha]
  constructor
  · rintro ⟨mt, hmt⟩
    by_cases h1 : stage = 1
    · exact Or.inl h1
    · by_cases h2 : stage = 2
      · exact Or.inr h2
      · simp [mapFind, Ne.symm h1, Ne.symm h2] at hmt
  · rintro (h | h) <;> subst h <;> simp [mapFind]

end PortsAndBays

section MapLemmas2
variable {V : Type}

theorem mem_mapKeys_iff (k : Int) (m : List (Int × V)) :
    k ∈ mapKeys m ↔ mapFind k m ≠ none := by
  induction m with
  | nil => simp [mapKeys, mapFind]
  | cons e rest ih =>
    obtain ⟨k0, v0⟩ := e
    by_cases h : k0 = k
    · subst h; simp [mapKeys, mapFind]
    · have h' : ¬ k = k0 := fun e => h e.symm
      have ih' : k ∈ List.map Prod.fst rest ↔ mapFind k rest ≠ none := ih
      simp only [mapKeys, List.map_cons, List.mem_cons, mapFind, if_neg h, h', false_or]
      exact ih'

theorem mem_mapKeys_mapAssign (k k' : Int) (v : V) (m : List (Int × V)) :
    k' ∈ mapKeys (mapAssign k v m) ↔ k' = k ∨ k' ∈ mapKeys m := by
  rw [mem_mapKeys_iff, mem_mapKeys_iff, mapFind_mapAssign]
  by_cases h : k' = k
  · simp [h]
  · simp [h]

theorem pairwise_mapAssign (k : Int) (v : V) (m : List (Int × V))
    (h : List.Pairwise (fun a b => a < b) (mapKeys m)) :
    List.Pairwise (fun a b => a < b) (mapKeys (mapAssign k v m)) := by
  induction m with
  | nil => simp [mapAssign, mapKeys]
  | cons e rest ih =>
    obtain ⟨k0, v0⟩ := e
    have h0 : List.Pairwise (fun a b => a < b) (k0 :: mapKeys rest) := h
    rw [List.pairwise_cons] at h0
    obtain ⟨hlt, hrest⟩ := h0
    unfold mapAssign
    by_cases h1 : k < k0
    · rw [if_pos h1]
      show List.Pairwise (fun a b => a < b) (k :: k0 :: mapKeys rest)
      rw [List.pairwise_cons]
      refine ⟨?_, h⟩
      intro a ha
      rw [List.mem_cons] at ha
      rcases ha with ha | ha
      · rw [ha]; exact h1
      · exact lt_trans h1 (hlt a ha)
    · rw [if_neg h1]
      by_cases h2 : k = k0
      · rw [if_pos h2]
        show List.Pairwise (fun a b => a < b) (k :: mapKeys rest)
        rw [h2]
        exact h
      · rw [if_neg h2]
        show List.Pairwise (fun a b => a < b) (k0 :: mapKeys (mapAssign k v rest))
        rw [List.pairwise_cons]
        refine ⟨?_, ih hrest⟩
        intro a ha
        rw [mem_mapKeys_mapAssign] at ha
        rcases ha with ha | ha
        · rw [ha]; omega
        · exact hlt a ha

theorem pairwise_mapIndex (d : V) (k : Int) (m : List (Int × V))
    (h : List.Pairwise (fun a b => a < b) (mapKeys m)) :
    List.Pairwise (fun a b => a < b) (mapKeys (mapIndex d k m).2) := by
  unfold mapIndex
  cases mapFind k m with
  | none => exact pairwise_mapAssign k d m h
  | some v => exact h

theorem mapFind_of_mem {m : List (Int × V)}
    (h : List.Pairwise (fun a b => a < b) (mapKeys m)) {k : Int} {v : V} (hm : (k, v) ∈ m) :
    mapFind k m = some v := by
  induction m with
  | nil => cases hm
  | cons e rest ih =>
    obtain ⟨k0, v0⟩ := e
    have h0 : List.Pairwise (fun a b => a < b) (k0 :: mapKeys rest) := h
    rw [List.pairwise_cons] at h0
    obtain ⟨hlt, hrest⟩ := h0
    rw [List.mem_cons] at hm
    rcases hm with hm | hm
    · injection hm with e1 e2
      subst e1 e2
      simp [mapFind]
    · have hk : k ∈ mapKeys rest := List.mem_map_of_mem Prod.fst hm
      have := hlt k hk
      have hne : ¬ k0 = k := by omega
      simp only [mapFind, if_neg hne]
      exact ih hrest hm

end MapLemmas2

section PortLemmas
variable {K : Type} [LinearOrderedField K]

theorem portsWith_congr {D D' : Int → List LocatorName} (ports : List (SPort K)) :
    ∀ ids : List Int, (∀ p, p ∉ ids → D p = D' p) →
      portsWith D ids ports = portsWith D' ids ports := by
  induction ports with
  | nil => intro ids _; rfl
  | cons q0 rest ih =>
    intro ids h
    unfold portsWith
    have htail := ih (q0.portId :: ids) (fun p hp => h p (fun hmem => hp (List.mem_cons_of_mem _ hmem)))
    rw [htail]
    by_cases hq : q0.portId ∈ ids
    · simp only [if_pos hq]
    · simp only [if_neg hq, h _ hq]

theorem findPort_portsWith {env : MathEnv K} (f : LocatorName) (D : Int → List LocatorName)
    (ports0 : List (SPort K)) :
    ∀ (ids : List Int) {ports' : List (SPort K)} {a1 a2 : matrix4x4 K},
      (∀ q ∈ ports0, goodPort q) → f.portId ∉ ids →
      findPort env f.portId f.minSize f.maxSize f.bay f.padname (portsWith D ids ports0) =
        some (ports', a1, a2) →
      ports' = portsWith (Function.update D f.portId (D f.portId ++ [f])) ids ports0 := by
  induction ports0 with
  | nil => intro ids ports' a1 a2 _ _ h; simp [portsWith, findPort] at h
  | cons q0 rest ih =>
    intro ids ports' a1 a2 hg hid h
    obtain ⟨b1, b2, hq⟩ := hg q0 (List.mem_cons_self _ _)
    unfold portsWith at h ⊢
    by_cases hp : q0.portId = f.portId
    · have hq0 : q0.portId ∉ ids := by rw [hp]; exact hid
      rw [if_neg hq0] at h ⊢
      unfold findPort at h
      have e1 : (ownedPort q0 (D q0.portId)).portId = f.portId := hp
      have e2 : (ownedPort q0 (D q0.portId)).m_approach = [(1, b1), (2, b2)] := hq
      rw [if_pos e1] at h
      simp only [e2, mapIndex, mapFind, if_true, Option.some.injEq, Prod.mk.injEq] at h
      norm_num at h
      obtain ⟨h1, _, _⟩ := h
      rw [← h1]
      have htail : portsWith D (q0.portId :: ids) rest =
          portsWith (Function.update D f.portId (D f.portId ++ [f])) (q0.portId :: ids) rest := by
        apply portsWith_congr
        intro p hpm
        have hne : p ≠ f.portId := by
          intro e
          apply hpm
          rw [e, hp]
          exact List.mem_cons_self _ _
        rw [Function.update_noteq hne]
      rw [htail, hp, Function.update_same]
      congr 1
      simp only [ownedPort, List.foldl_append, List.foldl_cons, List.foldl_nil, List.map_append,
        List.map_cons, List.map_nil, List.append_assoc, hq]
    · unfold findPort at h
      have e1 : ¬ (if q0.portId ∈ ids then q0 else ownedPort q0 (D q0.portId)).portId =
          f.portId := by
        by_cases hq0 : q0.portId ∈ ids
        · rw [if_pos hq0]; exact hp
        · rw [if_neg hq0]; exact hp
      rw [if_neg e1] at h
      split at h
      · cases h
      · rename_i r hr
        injection h with h
        obtain ⟨r1, r2, r3⟩ := r
        simp only [Prod.mk.injEq] at h
        obtain ⟨h1, h2, h3⟩ := h
        subst h1 h2 h3
        have hid' : f.portId ∉ q0.portId :: ids := by
          intro hmem
          rw [List.mem_cons] at hmem
          rcases hmem with hmem | hmem
          · exact hp hmem.symm
          · exact hid hmem
        have := ih (q0.portId :: ids) (fun q hq' => hg q (List.mem_cons_of_mem _ hq')) hid' hr
        rw [this, Function.update_noteq hp]

theorem findPort_bays {env : MathEnv K} {portId mn mx bay : Int} {pad : List Char} :
    ∀ {ports ports' : List (SPort K)} {a1 a2 : matrix4x4 K},
      findPort env portId mn mx bay pad ports = some (ports', a1, a2) →
      ∀ z, (∃ q ∈ ports', ∃ e ∈ q.bayIDs, e.1 = z) ↔
        (z = bay - 1 ∨ ∃ q ∈ ports, ∃ e ∈ q.bayIDs, e.1 = z) := by
  intro ports
  induction ports with
  | nil => intro ports' a1 a2 h; simp [findPort] at h
  | cons q rest ih =>
    intro ports' a1 a2 h z
    unfold findPort at h
    by_cases hid : q.portId = portId
    · rw [if_pos hid] at h
      injection h with h
      simp only [Prod.mk.injEq] at h
      obtain ⟨h1, _, _⟩ := h
      rw [← h1]
      constructor
      · rintro ⟨p, hp, e, he, hz⟩
        rw [List.mem_cons] at hp
        rcases hp with hp | hp
        · subst hp
          have he' : e ∈ q.bayIDs ++ [(bay - 1, pad)] := he
          rw [List.mem_append, List.mem_singleton] at he'
          rcases he' with he' | he'
          · exact Or.inr ⟨q, List.mem_cons_self _ _, e, he', hz⟩
          · rw [he'] at hz; exact Or.inl hz.symm
        · exact Or.inr ⟨p, List.mem_cons_of_mem _ hp, e, he, hz⟩
      · rintro (hz | ⟨p, hp, e, he, hz⟩)
        · refine ⟨_, List.mem_cons_self _ _, (bay - 1, pad), ?_, hz.symm⟩
          show (bay - 1, pad) ∈ q.bayIDs ++ [(bay - 1, pad)]
          simp
        · rw [List.mem_cons] at hp
          rcases hp with hp | hp
          · subst hp
            refine ⟨_, List.mem_cons_self _ _, e, ?_, hz⟩
            show e ∈ p.bayIDs ++ [(bay - 1, pad)]
            exact List.mem_append_left _ he
          · exact ⟨p, List.mem_cons_of_mem _ hp, e, he, hz⟩
    · rw [if_neg hid] at h
      split at h
      · cases h
      · rename_i r hr
        injection h with h
        obtain ⟨r1, r2, r3⟩ := r
        simp only [Prod.mk.injEq] at h
        obtain ⟨h1, _, _⟩ := h
        rw [← h1]
        have hi := ih hr z
        constructor
        · rintro ⟨p, hp, e, he, hz⟩
          rw [List.mem_cons] at hp
          rcases hp with hp | hp
          · subst hp
            exact Or.inr ⟨p, List.mem_cons_self _ _, e, he, hz⟩
          · rcases hi.mp ⟨p, hp, e, he, hz⟩ with hz' | ⟨p', hp', e', he', hz'⟩
            · exact Or.inl hz'
            · exact Or.inr ⟨p', List.mem_cons_of_mem _ hp', e', he', hz'⟩
        · rintro (hz | ⟨p, hp, e, he, hz⟩)
          · obtain ⟨p', hp', hr'⟩ := hi.mpr (Or.inl hz)
            exact ⟨p', List.mem_cons_of_mem _ hp', hr'⟩
          · rw [List.mem_cons] at hp
            rcases hp with hp | hp
            · subst hp
              exact ⟨p, List.mem_cons_self _ _, e, he, hz⟩
            · obtain ⟨p', hp', hr'⟩ := hi.mpr (Or.inr ⟨p, hp, e, he, hz⟩)
              exact ⟨p', List.mem_cons_of_mem _ hp', hr'⟩

end PortLemmas

section Loop2
variable {K : Type} [LinearOrderedField K]

theorem locatorNames_append (seen : List (MatrixTransform K)) {l : MatrixTransform K}
    {f : LocatorName} (hf : locatorFields l.GetName = some f) :
    locatorNames (seen ++ [l]) = locatorNames seen ++ [f] := by
  simp [locatorNames, List.filterMap_append, hf]

theorem declared_append (seen : List (MatrixTransform K)) {l : MatrixTransform K}
    {f : LocatorName} (hf : locatorFields l.GetName = some f) :
    declared (seen ++ [l]) =
      Function.update (declared seen) f.portId (declared seen f.portId ++ [f]) := by
  funext p
  unfold declared
  rw [locatorNames_append seen hf, List.filter_append]
  by_cases hp : p = f.portId
  · subst hp
    rw [Function.update_same]
    simp [List.filter]
  · rw [Function.update_noteq hp]
    have : ¬ f.portId = p := fun e => hp e.symm
    simp [List.filter, this]

theorem addLocator_inv2 {env : MathEnv K} {exit_mts : List (MatrixTransform K)}
    {ports0 : List (SPort K)} {seen : List (MatrixTransform K)} {st st' : SpaceStationType K}
    {l : MatrixTransform K} (hg : ∀ q ∈ ports0, goodPort q) (hinv : LocInv2 ports0 seen st)
    (h : addLocator env exit_mts st l = Except.ok st') : LocInv2 ports0 (seen ++ [l]) st' := by
  obtain ⟨hports, hbays, hsorted, hkeys, hposi⟩ := hinv
  unfold addLocator at h
  split at h
  · rename_i f hf
    split at h
    · rename_i hpos
      split at h
      · cases h
      · rename_i ports' a1 a2 hfind
        simp only at h
        split at h
        · cases h
        · rename_i newPath hbuild
          injection h with h
          subst h
          have hnames := locatorNames_append seen hf
          refine ⟨?_, ?_, ?_, ?_, ?_⟩
          · show ports' = _
            rw [declared_append seen hf]
            rw [hports] at hfind
            exact findPort_portsWith f (declared seen) ports0 [] hg (by simp) hfind
          · intro z
            show (∃ q ∈ ports', ∃ e ∈ q.bayIDs, e.1 = z) ↔ _
            rw [findPort_bays hfind z, hbays z, hnames]
            constructor
            · rintro (hz | ⟨f', hf', hz⟩)
              · exact ⟨f, by simp, hz.symm⟩
              · exact ⟨f', List.mem_append_left _ hf', hz⟩
            · rintro ⟨f', hf', hz⟩
              rw [List.mem_append, List.mem_singleton] at hf'
              rcases hf' with hf' | hf'
              · exact Or.inr ⟨f', hf', hz⟩
              · rw [hf'] at hz; exact Or.inl hz.symm
          · exact pairwise_mapAssign _ _ _ (pairwise_mapIndex _ _ _ hsorted)
          · intro b
            show mapFind b (mapAssign f.bay newPath
              (mapIndex (⟨[], []⟩ : PortPath K) f.bay st.m_portPaths).2) ≠ none ↔ _
            rw [mapFind_mapAssign, hnames]
            by_cases hb : b = f.bay
            · rw [if_pos hb]
              simp only [ne_eq, not_false_eq_true, true_iff, reduceCtorEq]
              exact ⟨f, by simp, hb.symm⟩
            · rw [if_neg hb, mapFind_mapIndex _ _ _ _ hb, hkeys b]
              constructor
              · rintro ⟨f', hf', hz⟩
                exact ⟨f', List.mem_append_left _ hf', hz⟩
              · rintro ⟨f', hf', hz⟩
                rw [List.mem_append, List.mem_singleton] at hf'
                rcases hf' with hf' | hf'
                · exact ⟨f', hf', hz⟩
                · rw [hf'] at hz; exact absurd hz.symm hb
          · intro f' hf'
            rw [hnames, List.mem_append, List.mem_singleton] at hf'
            rcases hf' with hf' | hf'
            · exact hposi f' hf'
            · rw [hf']; exact hpos
    · cases h
  · cases h

theorem addLocators_inv2 {env : MathEnv K} {exit_mts : List (MatrixTransform K)}
    {ports0 : List (SPort K)} (hg : ∀ q ∈ ports0, goodPort q)
    (rest : List (MatrixTransform K)) :
    ∀ {seen : List (MatrixTransform K)} {st st' : SpaceStationType K},
      LocInv2 ports0 seen st → addLocators env exit_mts rest st = Except.ok st' →
      LocInv2 ports0 (seen ++ rest) st' := by
  induction rest with
  | nil =>
    intro seen st st' hinv h
    simp only [addLocators] at h
    injection h with h
    subst h
    rw [List.append_nil]
    exact hinv
  | cons l rest ih =>
    intro seen st st' hinv h
    simp only [addLocators] at h
    split at h
    · cases h
    · rename_i st1 h1
      have i2 := ih (addLocator_inv2 hg hinv h1) h
      rw [List.append_assoc] at i2
      exact i2

end Loop2


/-! ## The state after the two passes -/

section AfterPasses

variable {K : Type} [LinearOrderedField K]

theorem newPort_fields {env : MathEnv K} {dm : DockMethod} {a : MatrixTransform K}
    {p : SPort K} (h : newPort env dm a = Except.ok p) :
    p.bayIDs = [] ∧ p.minShipSize = env.minShipSize0 ∧ p.maxShipSize = env.maxShipSize0 ∧
      p.name = a.GetName ∧
      p.m_approach =
        [(1, if dm = DockMethod.SURFACE then
              a.GetTransform.SetTranslate (a.GetTransform.GetTranslate.add
                ((a.GetTransform.Up.Normalized env.sqrt).scale 500))
            else
              a.GetTransform.SetTranslate (a.GetTransform.GetTranslate.add
                ((a.GetTransform.Back.Normalized env.sqrt).neg.scale 1500))),
         (2, a.GetTransform)] := by
  unfold newPort at h
  split at h
  · split at h
    · injection h with h
      subst h
      refine ⟨rfl, rfl, rfl, rfl, ?_⟩
      have e : ∀ x y : matrix4x4 K, mapAssign 2 y (mapAssign 1 x []) = [(1, x), (2, y)] := by
        intro x y; simp [mapAssign]
      exact e _ _
    · cases h
  · cases h

theorem build_of_OnSetupComplete {env : MathEnv K} {st0 st : SpaceStationType K}
    (h : OnSetupComplete env st0 = Except.ok st) : build env st0 = Except.ok st := by
  unfold OnSetupComplete at h
  split at h
  · cases h
  · rename_i st3 hbuild
    split at h
    · cases h
    · split at h
      · cases h
      · split at h
        · cases h
        · split at h
          · cases h
          · injection h with h
            rw [← h]
            exact hbuild

theorem forall₂_mem_right {A B : Type} {R : A → B → Prop} {l1 : List A} {l2 : List B}
    (h : List.Forall₂ R l1 l2) {q : B} (hq : q ∈ l2) : ∃ a ∈ l1, R a q := by
  induction h with
  | nil => cases hq
  | cons hr _ ih =>
    rw [List.mem_cons] at hq
    rcases hq with hq | hq
    · subst hq
      exact ⟨_, List.mem_cons_self _ _, hr⟩
    · obtain ⟨a, ha, hra⟩ := ih hq
      exact ⟨a, List.mem_cons_of_mem _ ha, hra⟩

theorem portsWith_nil (ports : List (SPort K)) :
    ∀ ids, portsWith (fun _ => ([] : List LocatorName)) ids ports = ports := by
  induction ports with
  | nil => intro ids; rfl
  | cons q rest ih =>
    intro ids
    simp only [portsWith, ih]
    split
    · rfl
    · cases q
      simp [ownedPort]

/-- What the state is made of after the two passes and before the closing
checks. -/
theorem build_spec {env : MathEnv K} {dm : DockMethod} {model : Model K}
    {modelName : String} {st : SpaceStationType K}
    (h : build env (SpaceStationType.new model modelName dm) = Except.ok st) :
    ∃ ports0, List.Forall₂ (fun a q => newPort env dm a = Except.ok q)
        (model.FindTagsByStartOfName "entrance_") ports0 ∧
      LocInv env (model.FindTagsByStartOfName "exit_") ports0
        (model.FindTagsByStartOfName "loc_") st ∧
      LocInv2 ports0 (model.FindTagsByStartOfName "loc_") st ∧
      st.dockMethod = dm ∧ st.numDockingPorts = st.m_portPaths.length ∧
      (model.FindTagsByStartOfName "loc_" = [] → st.m_portPaths = []) := by
  unfold build at h
  simp only [SpaceStationType.new] at h
  split at h
  · cases h
  · rename_i ports0 hports
    split at h
    · cases h
    · rename_i st2 hlocs
      injection h with h
      subst h
      have hg : ∀ q ∈ ports0, goodPort q := addPorts_good _ hports (by simp)
      have hinit : LocInv env (model.FindTagsByStartOfName "exit_") ports0 []
          ({ model := model, modelName := modelName, dockMethod := dm,
             numDockingPorts := 0, numDockingStages := 0, numUndockStages := 0,
             shipLaunchStage := if DockMethod.SURFACE = dm then 0 else 3,
             m_ports := ports0, m_portPaths := [] } : SpaceStationType K) := by
        refine ⟨hg, fun _ => rfl, ?_, fun hh => absurd rfl hh⟩
        intro b
        simp [bayLocator, mapFind]
      have hinit2 : LocInv2 ports0 []
          ({ model := model, modelName := modelName, dockMethod := dm,
             numDockingPorts := 0, numDockingStages := 0, numUndockStages := 0,
             shipLaunchStage := if DockMethod.SURFACE = dm then 0 else 3,
             m_ports := ports0, m_portPaths := [] } : SpaceStationType K) := by
        obtain ⟨new, hnew, hf⟩ := addPorts_forall₂ _ hports
        rw [List.nil_append] at hnew
        subst hnew
        have hb : ∀ q ∈ ports0, q.bayIDs = [] := by
          intro q hq
          obtain ⟨a, _, ha⟩ := forall₂_mem_right hf hq
          exact (newPort_fields ha).1
        refine ⟨?_, ?_, ?_, ?_, ?_⟩
        · show ports0 = _
          have e : declared ([] : List (MatrixTransform K)) = fun _ => [] := by
            funext p; rfl
          rw [e, portsWith_nil]
        · intro z
          constructor
          · rintro ⟨q, hq, e, he, _⟩
            have hq' : q ∈ ports0 := hq
            rw [hb q hq'] at he
            cases he
          · rintro ⟨f, hf', _⟩
            cases hf'
        · exact List.Pairwise.nil
        · intro b
          constructor
          · intro hne; exact absurd rfl hne
          · rintro ⟨f, hf', _⟩
            cases hf'
        · intro f hf'
          cases hf'
      obtain ⟨inv, hd, _, _⟩ := addLocators_inv _ hinit hlocs
      have inv2 := addLocators_inv2 hg _ hinit2 hlocs
      rw [List.nil_append] at inv inv2
      simp only at hd
      obtain ⟨new, hnew, hf⟩ := addPorts_forall₂ _ hports
      rw [List.nil_append] at hnew
      subst hnew
      refine ⟨ports0, hf, inv, inv2, hd, rfl, ?_⟩
      intro hnil
      rw [hnil] at hlocs
      simp only [addLocators] at hlocs
      injection hlocs with hlocs
      show st2.m_portPaths = []
      rw [← hlocs]

theorem portsWith_mem (D : Int → List LocatorName) (ports : List (SPort K)) :
    ∀ ids (q : SPort K), q ∈ portsWith D ids ports →
      q ∈ ports ∨ ∃ q0 ∈ ports, q = ownedPort q0 (D q0.portId) := by
  induction ports with
  | nil => intro ids q hq; cases hq
  | cons q0 rest ih =>
    intro ids q hq
    simp only [portsWith] at hq
    rw [List.mem_cons] at hq
    rcases hq with hq | hq
    · split at hq
      · exact Or.inl (by rw [hq]; exact List.mem_cons_self _ _)
      · exact Or.inr ⟨q0, List.mem_cons_self _ _, hq⟩
    · rcases ih _ q hq with h | ⟨q1, h1, h2⟩
      · exact Or.inl (List.mem_cons_of_mem _ h)
      · exact Or.inr ⟨q1, List.mem_cons_of_mem _ h1, h2⟩

theorem forall₂_portsWith {A : Type} {R : A → SPort K → Prop} (D : Int → List LocatorName)
    (hR : ∀ a q L, R a q → R a (ownedPort q L)) {es : List A} {ports : List (SPort K)}
    (h : List.Forall₂ R es ports) : ∀ ids, List.Forall₂ R es (portsWith D ids ports) := by
  induction h with
  | nil => intro ids; exact List.Forall₂.nil
  | cons hr _ ih =>
    intro ids
    simp only [portsWith]
    refine List.Forall₂.cons ?_ (ih _)
    split
    · exact hr
    · exact hR _ _ _ hr

theorem foldl_min_spec (D : List LocatorName) :
    ∀ i : Int, D.foldl (fun acc f => min f.minSize acc) i ≤ i ∧
      (∀ f ∈ D, D.foldl (fun acc f => min f.minSize acc) i ≤ f.minSize) ∧
      (D.foldl (fun acc f => min f.minSize acc) i = i ∨
        ∃ f ∈ D, D.foldl (fun acc f => min f.minSize acc) i = f.minSize) := by
  induction D with
  | nil => intro i; simp
  | cons g rest ih =>
    intro i
    simp only [List.foldl_cons]
    obtain ⟨h1, h2, h3⟩ := ih (min g.minSize i)
    refine ⟨le_trans h1 (min_le_right _ _), ?_, ?_⟩
    · intro f hf
      rw [List.mem_cons] at hf
      rcases hf with hf | hf
      · rw [hf]; exact le_trans h1 (min_le_left _ _)
      · exact h2 f hf
    · rcases h3 with h3 | ⟨f, hf, h3⟩
      · rcases min_choice g.minSize i with hm | hm
        · exact Or.inr ⟨g, List.mem_cons_self _ _, by rw [h3, hm]⟩
        · exact Or.inl (by rw [h3, hm])
      · exact Or.inr ⟨f, List.mem_cons_of_mem _ hf, h3⟩

theorem foldl_max_spec (D : List LocatorName) :
    ∀ i : Int, i ≤ D.foldl (fun acc f => max f.maxSize acc) i ∧
      (∀ f ∈ D, f.maxSize ≤ D.foldl (fun acc f => max f.maxSize acc) i) ∧
      (D.foldl (fun acc f => max f.maxSize acc) i = i ∨
        ∃ f ∈ D, D.foldl (fun acc f => max f.maxSize acc) i = f.maxSize) := by
  induction D with
  | nil => intro i; simp
  | cons g rest ih =>
    intro i
    simp only [List.foldl_cons]
    obtain ⟨h1, h2, h3⟩ := ih (max g.maxSize i)
    refine ⟨le_trans (le_max_right _ _) h1, ?_, ?_⟩
    · intro f hf
      rw [List.mem_cons] at hf
      rcases hf with hf | hf
      · rw [hf]; exact le_trans (le_max_left _ _) h1
      · exact h2 f hf
    · rcases h3 with h3 | ⟨f, hf, h3⟩
      · rcases max_choice g.maxSize i with hm | hm
        · exact Or.inr ⟨g, List.mem_cons_self _ _, by rw [h3, hm]⟩
        · exact Or.inl (by rw [h3, hm])
      · exact Or.inr ⟨f, List.mem_cons_of_mem _ hf, h3⟩

/-- The ports of a station after the two passes: a port with a bay is a port
of the entrance pass with the sizes and the bays of the locators that name its
port id folded in. -/
theorem build_port_with_bay {env : MathEnv K} {dm : DockMethod} {model : Model K}
    {modelName : String} {st : SpaceStationType K}
    (h : build env (SpaceStationType.new model modelName dm) = Except.ok st)
    {port : SPort K} (hport : port ∈ st.m_ports) (hbay : port.bayIDs ≠ []) :
    port.minShipSize =
        (declared (model.FindTagsByStartOfName "loc_") port.portId).foldl
          (fun acc f => min f.minSize acc) env.minShipSize0 ∧
      port.maxShipSize =
        (declared (model.FindTagsByStartOfName "loc_") port.portId).foldl
          (fun acc f => max f.maxSize acc) env.maxShipSize0 ∧
      port.bayIDs = (declared (model.FindTagsByStartOfName "loc_") port.portId).map
        (fun f => (f.bay - 1, f.padname)) := by
  obtain ⟨ports0, hf, _, ⟨hports, _⟩, _⟩ := build_spec h
  rw [hports] at hport
  have hfresh : ∀ q ∈ ports0, q.bayIDs = [] ∧ q.minShipSize = env.minShipSize0 ∧
      q.maxShipSize = env.maxShipSize0 := by
    intro q hq
    obtain ⟨a, _, ha⟩ := forall₂_mem_right hf hq
    obtain ⟨f1, f2, f3, _⟩ := newPort_fields ha
    exact ⟨f1, f2, f3⟩
  rcases portsWith_mem _ _ _ _ hport with hq | ⟨q0, hq0, hq⟩
  · exact absurd (hfresh port hq).1 hbay
  · obtain ⟨f1, f2, f3⟩ := hfresh q0 hq0
    subst hq
    refine ⟨?_, ?_, ?_⟩
    · show List.foldl _ q0.minShipSize _ = _
      rw [f2]; rfl
    · show List.foldl _ q0.maxShipSize _ = _
      rw [f3]; rfl
    · show q0.bayIDs ++ _ = _
      rw [f1]; rfl

theorem FindPortByBay_some_iff (st : SpaceStationType K) (z : Int) :
    (∃ port, FindPortByBay st z = some port) ↔ ∃ q ∈ st.m_ports, ∃ e ∈ q.bayIDs, e.1 = z := by
  unfold FindPortByBay
  constructor
  · rintro ⟨port, hp⟩
    obtain ⟨pre, post, hl, hb, _⟩ := findPortByBay_some st.m_ports hp
    refine ⟨port, ?_, (hasBay_iff z _).mp hb⟩
    rw [hl]
    exact List.mem_append_right _ (List.mem_cons_self _ _)
  · rintro ⟨q, hq, he⟩
    cases hr : findPortByBay z st.m_ports with
    | some port => exact ⟨port, rfl⟩
    | none =>
      have hn := (findPortByBay_none z st.m_ports).mp hr q hq
      rw [(hasBay_iff z _).mpr he] at hn
      cases hn

theorem GetPosOrient_ne_out_of_range (env : MathEnv K) (bayMap : TMapBayIDMat K) (stage : Int)
    (t : K) (from_ : vector3 K) (outPosOrient : positionOrient_t K) :
    GetPosOrient env bayMap stage t from_ outPosOrient ≠ Except.error Fatal.out_of_range := by
  unfold GetPosOrient
  cases mapFind stage bayMap with
  | none => simp
  | some mt => simp

theorem insanity_ok_nil (nds nus : Int) (m : PortPathMap K)
    (h : ∀ e ∈ m, checkDocking nds e.2 = none ∧ checkLeaving nus e.2 = none) :
    insanity nds nus m = Except.ok [] := by
  induction m with
  | nil => rfl
  | cons e rest ih =>
    obtain ⟨h1, h2⟩ := h e (List.mem_cons_self _ _)
    have ih2 := ih (fun e he => h e (List.mem_cons_of_mem _ he))
    simp only [insanity, h1, h2, ih2]
    rfl

/-- The paths of a station after the two passes have the stages of their dock
method. -/
theorem build_pathShape {env : MathEnv K} {dm : DockMethod} {model : Model K}
    {modelName : String} {st : SpaceStationType K}
    (h : build env (SpaceStationType.new model modelName dm) = Except.ok st) :
    ∀ e ∈ st.m_portPaths, pathShape dm e.2 ∧
      st.numDockingStages = (if dm = DockMethod.SURFACE then 2 else 4) ∧
      st.numUndockStages = (if dm = DockMethod.SURFACE then 1 else 3) := by
  obtain ⟨ports0, _, ⟨_, _, hpaths, hstages⟩, ⟨_, _, hsorted, _, _⟩, hd, _, hnil⟩ := build_spec h
  intro e he
  have hfind : mapFind e.1 st.m_portPaths = some e.2 := mapFind_of_mem hsorted he
  have hne : model.FindTagsByStartOfName "loc_" ≠ [] := by
    intro hh
    rw [hnil hh] at he
    cases he
  have hs := hstages hne
  rw [hd] at hs
  refine ⟨?_, hs.1, hs.2⟩
  have hb := hpaths e.1
  split at hb
  · rw [hb] at hfind; cases hfind
  · obtain ⟨path, ⟨f, a1, a2, _, _, _, _, hbuild⟩, hmf⟩ := hb
    rw [hmf] at hfind
    injection hfind with hfind
    rw [← hfind, ← hd]
    exact buildPath_shape hbuild

end AfterPasses


/-! ## The loop that checks the stages -/

section Checks

variable {K : Type} [LinearOrderedField K]

end Checks


/-! ## The claims -/

section Claims

variable {K : Type} [LinearOrderedField K]

/-- C1: on every station that `OnSetupComplete` sets up without a fatal
error, a SURFACE station has `numDockingStages = 2`, `numUndockStages = 1`,
`shipLaunchStage = 0`, and for every bay of `m_portPaths` the docking entry at
index `numDockingStages` is exactly the transform of the locator anchor of the
bay; an ORBITAL station has `numDockingStages = 4`, `numUndockStages = 3` and
`shipLaunchStage = 3`. -/
theorem OnSetupComplete_stage_counts {env : MathEnv K} {dm : DockMethod} {model : Model K}
    {modelName : String} {st : SpaceStationType K}
    (h : OnSetupComplete env (SpaceStationType.new model modelName dm) = Except.ok st) :
    (st.dockMethod = DockMethod.SURFACE →
      st.numDockingStages = 2 ∧ st.numUndockStages = 1 ∧ st.shipLaunchStage = 0 ∧
      ∀ bay path, mapFind bay st.m_portPaths = some path →
        ∃ loc, bayLocator bay (model.FindTagsByStartOfName "loc_") = some loc ∧
          mapFind st.numDockingStages path.m_docking = some loc.GetTransform) ∧
    (st.dockMethod = DockMethod.ORBITAL →
      st.numDockingStages = 4 ∧ st.numUndockStages = 3 ∧ st.shipLaunchStage = 3) := by
  obtain ⟨_, _, _, hd, hsls, _, _, hnum, hund, _⟩ := define_station_spec h
  constructor
  · intro hs
    rw [hd] at hs
    subst hs
    refine ⟨hnum, hund, hsls, ?_⟩
    intro bay path hpath
    obtain ⟨loc, f, a1, a2, hloc, _, _, _, _, hbuild⟩ := finalized_path h hpath
    rw [buildPath_surface] at hbuild
    injection hbuild with hbuild
    subst hbuild
    refine ⟨loc, hloc, ?_⟩
    rw [hnum]
    simp [mapFind]
  · intro hs
    rw [hd] at hs
    subst hs
    exact ⟨hnum, hund, hsls⟩

/-- Witness of C1: the surface station and the orbital station of the
example model. -/
theorem OnSetupComplete_stage_counts_witness :
    (OnSetupComplete Example.envQ
        (SpaceStationType.new Example.model1 "surface1" DockMethod.SURFACE) =
          Except.ok Example.surface1 ∧
      Example.surface1.numDockingStages = 2 ∧ Example.surface1.numUndockStages = 1 ∧
      Example.surface1.shipLaunchStage = 0 ∧
      ∀ bay path, mapFind bay Example.surface1.m_portPaths = some path →
        ∃ loc, bayLocator bay (Example.model1.FindTagsByStartOfName "loc_") = some loc ∧
          mapFind Example.surface1.numDockingStages path.m_docking = some loc.GetTransform) ∧
    (OnSetupComplete Example.envQ
        (SpaceStationType.new Example.model1 "orbital1" DockMethod.ORBITAL) =
          Except.ok Example.orbital1 ∧
      Example.orbital1.numDockingStages = 4 ∧ Example.orbital1.numUndockStages = 3 ∧
      Example.orbital1.shipLaunchStage = 3) :=
  ⟨⟨by rfl, (OnSetupComplete_stage_counts
      (show OnSetupComplete Example.envQ
        (SpaceStationType.new Example.model1 "surface1" DockMethod.SURFACE) =
          Except.ok Example.surface1 by rfl)).1 (by rfl)⟩,
   ⟨by rfl, (OnSetupComplete_stage_counts
      (show OnSetupComplete Example.envQ
        (SpaceStationType.new Example.model1 "orbital1" DockMethod.ORBITAL) =
          Except.ok Example.orbital1 by rfl)).2 (by rfl)⟩⟩

/-- The result of `GetDockAnimPositionOrient` depends on the stage and on
`t` through `clampStage` only. -/
theorem GetDockAnimPositionOrient_congr (env : MathEnv K) (st : SpaceStationType K) (port : Nat)
    {stage stage' : Int} {t t' : K} (hc : clampStage st stage t = clampStage st stage' t')
    (from_ : vector3 K) (out : positionOrient_t K) (ship : Option (Ship K)) :
    GetDockAnimPositionOrient env st port stage t from_ out ship =
      GetDockAnimPositionOrient env st port stage' t' from_ out ship := by
  simp only [GetDockAnimPositionOrient, hc]

/-- The clamped stage lies in the range of the stages and is not 0. -/
theorem clampStage_range (st : SpaceStationType K) (hn : 2 ≤ st.numDockingStages)
    (hl : 0 ≤ st.shipLaunchStage) (stage : Int) (t : K) :
    -st.shipLaunchStage ≤ (clampStage st stage t).1 ∧
      (clampStage st stage t).1 ≤ st.numDockingStages ∧ (clampStage st stage t).1 ≠ 0 ∧
      (stage ≠ 1 → (clampStage st stage t).1 ≠ 1) := by
  unfold clampStage
  by_cases h1 : stage < -st.shipLaunchStage
  · simp only [if_pos h1]
    by_cases h2 : -st.shipLaunchStage > st.numDockingStages ∨ -st.shipLaunchStage = 0
    · simp only [if_pos h2]
      refine ⟨by omega, le_refl _, by omega, fun _ => by omega⟩
    · simp only [if_neg h2]
      refine ⟨le_refl _, by omega, by omega, fun _ => by omega⟩
  · simp only [if_neg h1]
    by_cases h2 : stage > st.numDockingStages ∨ stage = 0
    · simp only [if_pos h2]
      refine ⟨by omega, le_refl _, by omega, fun _ => by omega⟩
    · simp only [if_neg h2]
      refine ⟨by omega, by omega, by omega, fun h => h⟩

/-- C3: stage clamping of `GetDockAnimPositionOrient` on a finalized station.
A call with `stage > numDockingStages` or `stage = 0` returns what the call
with `stage = numDockingStages` and `t = 1` returns; a call with
`stage < -shipLaunchStage` returns what the call with `stage = -shipLaunchStage`
and `t = 1` returns, which on a SURFACE station is the call at the docked
stage `numDockingStages`; a stage inside `[-shipLaunchStage, numDockingStages]`
that is not 0 is left as it is, together with `t`. -/
theorem GetDockAnimPositionOrient_clamping {env : MathEnv K} {dm : DockMethod}
    {model : Model K} {modelName : String} {st : SpaceStationType K}
    (h : OnSetupComplete env (SpaceStationType.new model modelName dm) = Except.ok st)
    (port : Nat) (stage : Int) (t : K) (from_ : vector3 K) (out : positionOrient_t K)
    (ship : Option (Ship K)) :
    (st.numDockingStages < stage ∨ stage = 0 →
      GetDockAnimPositionOrient env st port stage t from_ out ship =
        GetDockAnimPositionOrient env st port st.numDockingStages 1 from_ out ship) ∧
    (stage < -st.shipLaunchStage →
      GetDockAnimPositionOrient env st port stage t from_ out ship =
        GetDockAnimPositionOrient env st port (-st.shipLaunchStage) 1 from_ out ship) ∧
    (st.dockMethod = DockMethod.SURFACE →
      GetDockAnimPositionOrient env st port (-st.shipLaunchStage) 1 from_ out ship =
        GetDockAnimPositionOrient env st port st.numDockingStages 1 from_ out ship) ∧
    (-st.shipLaunchStage ≤ stage → stage ≤ st.numDockingStages → stage ≠ 0 →
      clampStage st stage t = (stage, t)) := by
  obtain ⟨hn, hl⟩ := finalized_counts h
  obtain ⟨_, _, _, hd, hsls, _⟩ := define_station_spec h
  refine ⟨?_, ?_, ?_, ?_⟩
  · intro hs
    apply GetDockAnimPositionOrient_congr
    unfold clampStage
    have e1 : ¬ stage < -st.shipLaunchStage := by omega
    have e2 : ¬ st.numDockingStages < -st.shipLaunchStage := by omega
    have e3 : ¬ (st.numDockingStages > st.numDockingStages ∨ st.numDockingStages = 0) := by
      omega
    simp only [if_neg e1, if_neg e2, if_pos (show stage > st.numDockingStages ∨ stage = 0 from hs),
      if_neg e3]
  · intro hs
    apply GetDockAnimPositionOrient_congr
    unfold clampStage
    simp only [if_pos hs, if_neg (lt_irrefl _)]
  · intro hs
    rw [hd] at hs
    subst hs
    apply GetDockAnimPositionOrient_congr
    unfold clampStage
    have e0 : st.shipLaunchStage = 0 := hsls
    have e2 : ¬ st.numDockingStages < -st.shipLaunchStage := by omega
    have e3 : ¬ (st.numDockingStages > st.numDockingStages ∨ st.numDockingStages = 0) := by
      omega
    have e4 : -st.shipLaunchStage > st.numDockingStages ∨ -st.shipLaunchStage = 0 := by omega
    simp only [if_neg (lt_irrefl _), if_neg e2, if_neg e3, if_pos e4]
  · intro h1 h2 h3
    unfold clampStage
    have e1 : ¬ stage < -st.shipLaunchStage := by omega
    have e2 : ¬ (stage > st.numDockingStages ∨ stage = 0) := by omega
    simp only [if_neg e1, if_neg e2]

/-- Witness of C3: the orbital example station at the stages 9, -7 and 2, the
surface example station at the stage -0. -/
theorem GetDockAnimPositionOrient_clamping_witness :
    OnSetupComplete Example.envQ
        (SpaceStationType.new Example.model1 "orbital1" DockMethod.ORBITAL) =
          Except.ok Example.orbital1 ∧
    GetDockAnimPositionOrient Example.envQ Example.orbital1 0 9 0 ⟨1, 1, 1⟩ Example.pose0
        (some Example.ship2) =
      GetDockAnimPositionOrient Example.envQ Example.orbital1 0
        Example.orbital1.numDockingStages 1 ⟨1, 1, 1⟩ Example.pose0 (some Example.ship2) ∧
    GetDockAnimPositionOrient Example.envQ Example.orbital1 0 (-7) 0 ⟨1, 1, 1⟩ Example.pose0
        (some Example.ship2) =
      GetDockAnimPositionOrient Example.envQ Example.orbital1 0
        (-Example.orbital1.shipLaunchStage) 1 ⟨1, 1, 1⟩ Example.pose0 (some Example.ship2) ∧
    clampStage Example.orbital1 2 (0 : ℚ) = (2, 0) ∧
    GetDockAnimPositionOrient Example.envQ Example.surface1 0
        (-Example.surface1.shipLaunchStage) 1 ⟨1, 1, 1⟩ Example.pose0 (some Example.ship2) =
      GetDockAnimPositionOrient Example.envQ Example.surface1 0
        Example.surface1.numDockingStages 1 ⟨1, 1, 1⟩ Example.pose0 (some Example.ship2) :=
  have ho : OnSetupComplete Example.envQ
      (SpaceStationType.new Example.model1 "orbital1" DockMethod.ORBITAL) =
        Except.ok Example.orbital1 := by rfl
  have hs : OnSetupComplete Example.envQ
      (SpaceStationType.new Example.model1 "surface1" DockMethod.SURFACE) =
        Except.ok Example.surface1 := by rfl
  ⟨ho,
   (GetDockAnimPositionOrient_clamping ho 0 9 0 ⟨1, 1, 1⟩ Example.pose0
      (some Example.ship2)).1 (Or.inl (by decide)),
   (GetDockAnimPositionOrient_clamping ho 0 (-7) 0 ⟨1, 1, 1⟩ Example.pose0
      (some Example.ship2)).2.1 (by decide),
   (GetDockAnimPositionOrient_clamping ho 0 2 0 ⟨1, 1, 1⟩ Example.pose0
      (some Example.ship2)).2.2.2 (by decide) (by decide) (by decide),
   (GetDockAnimPositionOrient_clamping hs 0 0 0 ⟨1, 1, 1⟩ Example.pose0
      (some Example.ship2)).2.2.1 (by rfl)⟩

/-- C10: `OnSetupComplete` ends with a fatal error on every station whose
model has no locator anchor, and when it returns a station, the station has
at least one port and one path, and its two stage counts are positive. -/
theorem OnSetupComplete_nonempty (env : MathEnv K) (dm : DockMethod) (model : Model K)
    (modelName : String) :
    (model.FindTagsByStartOfName "loc_" = [] →
      ∃ e, OnSetupComplete env (SpaceStationType.new model modelName dm) = Except.error e) ∧
    (∀ st, OnSetupComplete env (SpaceStationType.new model modelName dm) = Except.ok st →
      st.m_ports ≠ [] ∧ st.m_portPaths ≠ [] ∧ 0 < st.numDockingStages ∧
        0 < st.numUndockStages) := by
  constructor
  · intro hnil
    cases hr : OnSetupComplete env (SpaceStationType.new model modelName dm) with
    | error e => exact ⟨e, rfl⟩
    | ok st =>
      obtain ⟨_, _, _, _, _, _, hne, _⟩ := define_station_spec hr
      exact absurd hnil hne
  · intro st h
    obtain ⟨_, _, _, _, _, hpp, _, hnum, hund, _⟩ := define_station_spec h
    refine ⟨?_, hpp, ?_, ?_⟩
    · intro hports
      have hex : ∃ bay, mapFind bay st.m_portPaths ≠ none := by
        by_contra hcon
        push_neg at hcon
        exact hpp (mapFind_nil_of_forall hcon)
      obtain ⟨bay, hbay⟩ := hex
      cases hp : mapFind bay st.m_portPaths with
      | none => exact hbay hp
      | some path =>
        obtain ⟨_, f, _, _, _, _, _, _, happ, _⟩ := finalized_path h hp
        rw [hports] at happ
        simp [approachOf, portOfId] at happ
    · rw [hnum]; cases dm <;> simp
    · rw [hund]; cases dm <;> simp

/-- Witness of C10: the example model without a locator fails, the surface
example station has a port and a path. -/
theorem OnSetupComplete_nonempty_witness :
    (Example.model0.FindTagsByStartOfName "loc_" = [] ∧
      ∃ e, OnSetupComplete Example.envQ
        (SpaceStationType.new Example.model0 "surface0" DockMethod.SURFACE) = Except.error e) ∧
    (OnSetupComplete Example.envQ
        (SpaceStationType.new Example.model1 "surface1" DockMethod.SURFACE) =
          Except.ok Example.surface1 ∧
      Example.surface1.m_ports ≠ [] ∧ Example.surface1.m_portPaths ≠ [] ∧
      0 < Example.surface1.numDockingStages ∧ 0 < Example.surface1.numUndockStages) :=
  ⟨⟨by rfl, (OnSetupComplete_nonempty Example.envQ DockMethod.SURFACE Example.model0
      "surface0").1 (by rfl)⟩,
   ⟨by rfl, (OnSetupComplete_nonempty Example.envQ DockMethod.SURFACE Example.model1
      "surface1").2 Example.surface1 (by rfl)⟩⟩

/-- The pose `GetDockAnimPositionOrient` returns at a stage in range that is
not 0, when the path of the bay has the entry `M` for the stage. -/
theorem GetDockAnimPositionOrient_entry (env : MathEnv K) (st : SpaceStationType K)
    (port : Nat) (path : PortPath K) (hport : port ≤ st.m_portPaths.length)
    (hpath : mapFind (((port + 1) % 2 ^ 32 : Nat) : Int) st.m_portPaths = some path)
    (c : Int × K) (M : matrix4x4 K)
    (hM : (0 < c.1 ∧ mapFind c.1 path.m_docking = some M) ∨
      (c.1 < 0 ∧ mapFind (-1 * c.1) path.m_leaving = some M))
    (stage : Int) (t : K) (hc : clampStage st stage t = c)
    (from_ : vector3 K) (out : positionOrient_t K) (ship : Ship K) :
    GetDockAnimPositionOrient env st port stage t from_ out (some ship) =
      Except.ok (true, landed env ship (poseOf env M (mix from_ M.GetTranslate c.2))) := by
  unfold GetDockAnimPositionOrient
  simp only [hc, not_not.mpr hport, if_false, hpath]
  rcases hM with ⟨hpos, hM⟩ | ⟨hneg, hM⟩
  · have hn : ¬ c.1 < 0 := by omega
    simp only [if_neg hn, if_pos hpos, GetPosOrient, hM]
  · simp only [if_pos hneg, GetPosOrient, hM]

/-- C2, as amended: on a finalized station, for every bay index that passes
the assertion `port <= m_portPaths.size ()` and whose bay `port + 1` is in
`m_portPaths`, and for every requested stage other than 1, the clamped stage
is not 0 and has an entry in the docking map (positive stage) or in the
leaving map (negative stage, at its absolute value), and
`GetDockAnimPositionOrient` yields a pose. The docking map of a bay has no
entry for the stage 1. -/
theorem GetDockAnimPositionOrient_yields_pose {env : MathEnv K} {dm : DockMethod}
    {model : Model K} {modelName : String} {st : SpaceStationType K}
    (h : OnSetupComplete env (SpaceStationType.new model modelName dm) = Except.ok st)
    (port : Nat) (path : PortPath K) (hport : port ≤ st.m_portPaths.length)
    (hpath : mapFind (((port + 1) % 2 ^ 32 : Nat) : Int) st.m_portPaths = some path)
    (stage : Int) (hstage : stage ≠ 1) (t : K) (from_ : vector3 K) (out : positionOrient_t K)
    (ship : Ship K) :
    (clampStage st stage t).1 ≠ 0 ∧
    (∃ M, (0 < (clampStage st stage t).1 ∧
          mapFind (clampStage st stage t).1 path.m_docking = some M) ∨
        ((clampStage st stage t).1 < 0 ∧
          mapFind (-1 * (clampStage st stage t).1) path.m_leaving = some M)) ∧
    (∃ pose, GetDockAnimPositionOrient env st port stage t from_ out (some ship) =
      Except.ok (true, pose)) ∧
    mapFind 1 path.m_docking = none := by
  obtain ⟨hn, hl⟩ := finalized_counts h
  obtain ⟨hlo, hhi, hne, hne1⟩ := clampStage_range st hn hl stage t
  have hne1 := hne1 hstage
  obtain ⟨hno1, hdock⟩ := finalized_docking h hpath
  have hleave := finalized_leaving h hpath
  have hM : ∃ M, (0 < (clampStage st stage t).1 ∧
          mapFind (clampStage st stage t).1 path.m_docking = some M) ∨
        ((clampStage st stage t).1 < 0 ∧
          mapFind (-1 * (clampStage st stage t).1) path.m_leaving = some M) := by
    by_cases hpos : 0 < (clampStage st stage t).1
    · obtain ⟨M, hM⟩ := hdock _ (by omega) hhi
      exact ⟨M, Or.inl ⟨hpos, hM⟩⟩
    · obtain ⟨M, hM⟩ := hleave (-1 * (clampStage st stage t).1) (by omega) (by omega)
      exact ⟨M, Or.inr ⟨by omega, hM⟩⟩
  refine ⟨hne, hM, ?_, hno1⟩
  obtain ⟨M, hM⟩ := hM
  exact ⟨_, GetDockAnimPositionOrient_entry env st port path hport hpath _ M hM stage t rfl
    from_ out ship⟩

/-- Witness of C2 as amended: the orbital example station, bay 1, at the
stage 3. -/
theorem GetDockAnimPositionOrient_yields_pose_witness :
    OnSetupComplete Example.envQ
        (SpaceStationType.new Example.model1 "orbital1" DockMethod.ORBITAL) =
          Except.ok Example.orbital1 ∧
    (∃ pose, GetDockAnimPositionOrient Example.envQ Example.orbital1 0 3 0 ⟨1, 1, 1⟩
      Example.pose0 (some Example.ship2) = Except.ok (true, pose)) :=
  have ho : OnSetupComplete Example.envQ
      (SpaceStationType.new Example.model1 "orbital1" DockMethod.ORBITAL) =
        Except.ok Example.orbital1 := by rfl
  match hp : mapFind (((0 + 1) % 2 ^ 32 : Nat) : Int) Example.orbital1.m_portPaths with
  | some path =>
    ⟨ho, (GetDockAnimPositionOrient_yields_pose ho 0 path (by decide) hp 3 (by decide) 0
      ⟨1, 1, 1⟩ Example.pose0 Example.ship2).2.2.1⟩
  | none => absurd hp (by decide)

/-- C2, counterexample: on the surface and on the orbital example station, the
request for the stage 1 of bay 1, which is in `m_portPaths`, reaches the
assertion of `GetPosOrient`; and on the surface station whose only bay is the
bay 7, the request for the docked stage 2 of that bay (index 6) ends at the
assertion `port <= m_portPaths.size ()`. No pose is returned. -/
theorem GetDockAnimPositionOrient_stage_one :
    OnSetupComplete Example.envQ
        (SpaceStationType.new Example.model1 "surface1" DockMethod.SURFACE) =
          Except.ok Example.surface1 ∧
    (mapFind 1 Example.surface1.m_portPaths).isSome = true ∧
    GetDockAnimPositionOrient Example.envQ Example.surface1 0 1 0 ⟨1, 1, 1⟩ Example.pose0
      (some Example.ship2) = Except.error (Fatal.assertion "bHasStageData") ∧
    OnSetupComplete Example.envQ
        (SpaceStationType.new Example.model1 "orbital1" DockMethod.ORBITAL) =
          Except.ok Example.orbital1 ∧
    (mapFind 1 Example.orbital1.m_portPaths).isSome = true ∧
    GetDockAnimPositionOrient Example.envQ Example.orbital1 0 1 0 ⟨1, 1, 1⟩ Example.pose0
      (some Example.ship2) = Except.error (Fatal.assertion "bHasStageData") ∧
    OnSetupComplete Example.envQ
        (SpaceStationType.new (Example.model7 ℚ) "surface7" DockMethod.SURFACE) =
          Except.ok (Example.surface7 Example.envQ) ∧
    (mapFind 7 (Example.surface7 Example.envQ).m_portPaths).isSome = true ∧
    GetDockAnimPositionOrient Example.envQ (Example.surface7 Example.envQ) 6 2 0 ⟨1, 1, 1⟩
      Example.pose0 (some Example.ship2) =
        Except.error (Fatal.assertion "port<=m_portPaths.size()") :=
  ⟨by rfl, by rfl, by rfl, by rfl, by rfl, by rfl, by rfl, by rfl, by rfl⟩

/-- A stage in range that is not 0 passes the clamping tests unchanged. -/
theorem clampStage_inside (st : SpaceStationType K) (stage : Int) (t : K)
    (hlo : -st.shipLaunchStage ≤ stage) (hhi : stage ≤ st.numDockingStages) (h0 : stage ≠ 0) :
    clampStage st stage t = (stage, t) := by
  unfold clampStage
  have e1 : ¬ stage < -st.shipLaunchStage := by omega
  have e2 : ¬ (stage > st.numDockingStages ∨ stage = 0) := by omega
  simp only [if_neg e1, if_neg e2]

theorem mix_one (a b : vector3 K) : mix a b 1 = b := by
  simp [mix, vector3.add, vector3.scale]

/-- Over the reals, normalizing a normalized vector changes nothing. -/
theorem Normalized_Normalized (v : vector3 ℝ) :
    (v.Normalized Real.sqrt).Normalized Real.sqrt = v.Normalized Real.sqrt := by
  have hL : 0 ≤ v.LengthSqr := by
    unfold vector3.LengthSqr
    nlinarith [mul_self_nonneg v.x, mul_self_nonneg v.y, mul_self_nonneg v.z]
  by_cases h0 : v.LengthSqr = 0
  · simp [vector3.Normalized, vector3.Length, vector3.scale, h0]
  · have hpos : 0 < v.LengthSqr := lt_of_le_of_ne hL (Ne.symm h0)
    have hs : 0 < Real.sqrt v.LengthSqr := Real.sqrt_pos.mpr hpos
    have hsq : Real.sqrt v.LengthSqr * Real.sqrt v.LengthSqr = v.LengthSqr :=
      Real.mul_self_sqrt hL
    have hone : (v.Normalized Real.sqrt).LengthSqr = 1 := by
      have hs' : Real.sqrt v.LengthSqr ≠ 0 := ne_of_gt hs
      have hx : v.x * v.x + v.y * v.y + v.z * v.z = v.LengthSqr := rfl
      have e : (v.Normalized Real.sqrt).LengthSqr =
          (v.x * v.x + v.y * v.y + v.z * v.z) /
            (Real.sqrt v.LengthSqr * Real.sqrt v.LengthSqr) := by
        simp only [vector3.Normalized, vector3.Length, vector3.scale]
        generalize Real.sqrt v.LengthSqr = s at hs'
        simp only [vector3.LengthSqr]
        field_simp
      rw [e, hx, hsq]
      exact div_self h0
    have h1 : vector3.Length Real.sqrt (v.Normalized Real.sqrt) = 1 := by
      unfold vector3.Length
      rw [hone, Real.sqrt_one]
    show (v.Normalized Real.sqrt).scale (1 / vector3.Length Real.sqrt (v.Normalized Real.sqrt)) = _
    rw [h1]
    simp [vector3.scale]

/-- C5, as amended: for a station, a bay index that passes the assertion
`port <= m_portPaths.size ()` and whose bay is in `m_portPaths`, and a stage
inside `[-shipLaunchStage, numDockingStages]` that is not 0 and whose stage map
(docking for a positive stage, leaving at `-stage` for a negative one) has the
entry `M`, with coordinates in the reals: `GetDockAnimPositionOrient` returns
the pose whose axes are the normalized X, Y and Z axes of `M`, whatever `t` and
`from` are, and whose position is `mix (from, translation (M), t)` minus the
landing offset of the ship times the normalized Y axis of `M`; with `t = 1`
the position is the translation of `M` minus that offset. -/
theorem GetDockAnimPositionOrient_pose (env : MathEnv ℝ) (hsqrt : env.sqrt = Real.sqrt)
    (st : SpaceStationType ℝ) (port : Nat) (path : PortPath ℝ)
    (hport : port ≤ st.m_portPaths.length)
    (hpath : mapFind (((port + 1) % 2 ^ 32 : Nat) : Int) st.m_portPaths = some path)
    (stage : Int) (hlo : -st.shipLaunchStage ≤ stage) (hhi : stage ≤ st.numDockingStages)
    (h0 : stage ≠ 0) (M : matrix4x4 ℝ)
    (hM : (0 < stage ∧ mapFind stage path.m_docking = some M) ∨
      (stage < 0 ∧ mapFind (-stage) path.m_leaving = some M))
    (t : ℝ) (from_ : vector3 ℝ) (out : positionOrient_t ℝ) (ship : Ship ℝ) :
    GetDockAnimPositionOrient env st port stage t from_ out (some ship) =
      Except.ok (true,
        { pos := (mix from_ M.GetTranslate t).sub
            ((M.GetOrient.VectorY.Normalized Real.sqrt).scale ship.GetLandingPosOffset)
          xaxis := M.GetOrient.VectorX.Normalized Real.sqrt
          yaxis := M.GetOrient.VectorY.Normalized Real.sqrt
          zaxis := M.GetOrient.VectorZ.Normalized Real.sqrt }) ∧
    GetDockAnimPositionOrient env st port stage 1 from_ out (some ship) =
      Except.ok (true,
        { pos := M.GetTranslate.sub
            ((M.GetOrient.VectorY.Normalized Real.sqrt).scale ship.GetLandingPosOffset)
          xaxis := M.GetOrient.VectorX.Normalized Real.sqrt
          yaxis := M.GetOrient.VectorY.Normalized Real.sqrt
          zaxis := M.GetOrient.VectorZ.Normalized Real.sqrt }) := by
  have key : ∀ t' : ℝ, GetDockAnimPositionOrient env st port stage t' from_ out (some ship) =
      Except.ok (true,
        { pos := (mix from_ M.GetTranslate t').sub
            ((M.GetOrient.VectorY.Normalized Real.sqrt).scale ship.GetLandingPosOffset)
          xaxis := M.GetOrient.VectorX.Normalized Real.sqrt
          yaxis := M.GetOrient.VectorY.Normalized Real.sqrt
          zaxis := M.GetOrient.VectorZ.Normalized Real.sqrt }) := by
    intro t'
    have hc := clampStage_inside st stage t' hlo hhi h0
    have hM' : (0 < (stage, t').1 ∧ mapFind (stage, t').1 path.m_docking = some M) ∨
        ((stage, t').1 < 0 ∧ mapFind (-1 * (stage, t').1) path.m_leaving = some M) := by
      rcases hM with ⟨a, b⟩ | ⟨a, b⟩
      · exact Or.inl ⟨a, b⟩
      · exact Or.inr ⟨a, by rw [neg_one_mul]; exact b⟩
    rw [GetDockAnimPositionOrient_entry env st port path hport hpath _ M hM' stage t' hc
      from_ out ship]
    simp only [landed, poseOf, hsqrt, Normalized_Normalized]
  refine ⟨key t, ?_⟩
  rw [key 1, mix_one]

/-- Witness of C5 as amended: the state of a surface station with one bay, over the
reals, at the docked stage 2. -/
theorem GetDockAnimPositionOrient_pose_witness :
    GetDockAnimPositionOrient (Example.envOf Real.sqrt) (Example.oneBay ℝ) 0 2 (1 / 2)
        ⟨1, 1, 1⟩ ⟨⟨0, 0, 0⟩, ⟨0, 0, 0⟩, ⟨0, 0, 0⟩, ⟨0, 0, 0⟩⟩ (some ⟨2⟩) =
      Except.ok (true,
        { pos := (mix ⟨1, 1, 1⟩ (Example.frameAt (⟨0, 0, 3⟩ : vector3 ℝ)).GetTranslate
              (1 / 2)).sub
            (((Example.frameAt (⟨0, 0, 3⟩ : vector3 ℝ)).GetOrient.VectorY.Normalized
              Real.sqrt).scale (Ship.GetLandingPosOffset ⟨2⟩))
          xaxis := (Example.frameAt (⟨0, 0, 3⟩ : vector3 ℝ)).GetOrient.VectorX.Normalized
            Real.sqrt
          yaxis := (Example.frameAt (⟨0, 0, 3⟩ : vector3 ℝ)).GetOrient.VectorY.Normalized
            Real.sqrt
          zaxis := (Example.frameAt (⟨0, 0, 3⟩ : vector3 ℝ)).GetOrient.VectorZ.Normalized
            Real.sqrt }) :=
  (GetDockAnimPositionOrient_pose (Example.envOf Real.sqrt) rfl (Example.oneBay ℝ) 0
    ⟨[(2, Example.frameAt ⟨0, 0, 3⟩)], []⟩ (Nat.zero_le _) (by rfl) 2 (by decide) (by decide)
    (by decide) (Example.frameAt ⟨0, 0, 3⟩) (Or.inl ⟨by decide, by rfl⟩) (1 / 2) ⟨1, 1, 1⟩
    ⟨⟨0, 0, 0⟩, ⟨0, 0, 0⟩, ⟨0, 0, 0⟩, ⟨0, 0, 0⟩⟩ ⟨2⟩).1

/-- The exit loop stops at the first exit anchor whose name reads as the port
id of the locator. -/
theorem findExit_spec {p : Int} (exits : List (MatrixTransform K)) :
    ∀ {e0 : Int} {E0 : matrix4x4 K} {r : Int × matrix4x4 K},
      findExit p exits e0 E0 = Except.ok r →
      ∀ ex, exits.find? (fun e => decide (exitId e.GetName = some p)) = some ex →
        r = (p, ex.GetTransform) := by
  induction exits with
  | nil => intro e0 E0 r _ ex hex; simp at hex
  | cons e rest ih =>
    intro e0 E0 r h ex hex
    unfold findExit at h
    split at h
    · rename_i v hv
      by_cases hvp : v = p
      · rw [if_pos hvp] at h
        injection h with h
        rw [List.find?_cons, hv, hvp] at hex
        simp only [decide_True] at hex
        injection hex with hex
        rw [← h, ← hex, hvp]
      · rw [if_neg hvp] at h
        have hne : ¬ (some v = some p) := fun e' => hvp (Option.some.inj e')
        rw [List.find?_cons, hv] at hex
        simp only [hne, decide_False] at hex
        exact ih h ex hex
    · cases h

/-- The end of the leaving path of a locator on an orbital station. -/
theorem leavingOrient_spec {env : MathEnv K} {exits : List (MatrixTransform K)} {p : Int}
    {T a2 : matrix4x4 K} {r : matrix4x4 K × matrix4x4 K} (hp : 0 < p)
    (h : leavingOrient env exits p T a2 = Except.ok r) :
    (∀ ex, exits.find? (fun e => decide (exitId e.GetName = some p)) = some ex →
      r.2 = ex.GetTransform) ∧
    (exits = [] →
      r.2 = a2.SetRotationOnly ((matrix4x4.ofOrient T.GetOrient).mul
        (matrix4x4.ofOrient (env.Rotate (env.DEG2RAD 180) (matrix4x4.ofOrient T.GetOrient).Back)))) := by
  unfold leavingOrient at h
  by_cases hnil : exits = []
  · rw [if_pos hnil] at h
    injection h with h
    constructor
    · intro ex hex
      rw [hnil] at hex
      simp at hex
    · intro _
      rw [← h]
      rfl
  · rw [if_neg hnil] at h
    simp only at h
    split at h
    · cases h
    · rename_i r' hr'
      injection h with h
      constructor
      · intro ex hex
        have := findExit_spec exits hr' ex hex
        rw [← h, this]
        have hp0 : ¬ p = 0 := by omega
        simp only [if_neg hp0]
      · intro hh
        exact absurd hh hnil

/-- The port of a port id whose approach map is known. -/
theorem portOfId_of_approachOf {ports : List (SPort K)} {p : Int} {m : TMapBayIDMat K}
    (h : approachOf ports p = some m) : ∃ port, portOfId ports p = some port ∧ port.m_approach = m := by
  unfold approachOf at h
  cases hq : portOfId ports p with
  | none => rw [hq] at h; cases h
  | some port =>
    rw [hq] at h
    injection h with h
    exact ⟨port, rfl, h⟩

/-- C7, as amended: on a finalized ORBITAL station, for every bay, with `p` the
port id that the name of the locator of the bay declares: if an exit anchor
reads as `exit_port<p>`, the leaving stage 3 is the transform of the first
such anchor, verbatim; if the model has no exit anchor at all, the leaving
stage 3 is the approach stage 2 of the port with its rotation replaced by the
orientation of the locator times the rotation by 180 degrees about the back
axis of that orientation, the position of the approach stage 2 being kept. -/
theorem leaving_stage_three {env : MathEnv K} {dm : DockMethod} {model : Model K}
    {modelName : String} {st : SpaceStationType K}
    (h : OnSetupComplete env (SpaceStationType.new model modelName dm) = Except.ok st)
    (hdm : st.dockMethod = DockMethod.ORBITAL) (bay : Int) (path : PortPath K)
    (hpath : mapFind bay st.m_portPaths = some path) :
    ∃ loc f port a2, bayLocator bay (model.FindTagsByStartOfName "loc_") = some loc ∧
      locatorFields loc.GetName = some f ∧ portOfId st.m_ports f.portId = some port ∧
      mapFind 2 port.m_approach = some a2 ∧
      (∀ ex, (model.FindTagsByStartOfName "exit_").find?
          (fun e => decide (exitId e.GetName = some f.portId)) = some ex →
        mapFind 3 path.m_leaving = some ex.GetTransform) ∧
      (model.FindTagsByStartOfName "exit_" = [] →
        mapFind 3 path.m_leaving = some (a2.SetRotationOnly
          ((matrix4x4.ofOrient loc.GetTransform.GetOrient).mul
            (matrix4x4.ofOrient (env.Rotate (env.DEG2RAD 180)
              (matrix4x4.ofOrient loc.GetTransform.GetOrient).Back))))) := by
  obtain ⟨_, _, _, hd, _⟩ := define_station_spec h
  rw [hd] at hdm
  subst hdm
  obtain ⟨loc, f, a1, a2, hloc, hf, _, hp, happ, hbuild⟩ := finalized_path h hpath
  obtain ⟨port, hport, hm⟩ := portOfId_of_approachOf happ
  obtain ⟨r, hr, hnp⟩ := buildPath_orbital hbuild
  obtain ⟨hex, hno⟩ := leavingOrient_spec hp hr
  refine ⟨loc, f, port, a2, hloc, hf, hport, by rw [hm]; simp [mapFind], ?_, ?_⟩
  · intro ex hfind
    rw [hnp, ← hex ex hfind]
    simp [mapFind]
  · intro hnil
    rw [hnp, ← hno hnil]
    simp [mapFind]

/-- Witness of C7 as amended: the orbital example station, which has no exit
anchor, at the bay 1. -/
theorem leaving_stage_three_witness :
    OnSetupComplete Example.envQ
        (SpaceStationType.new Example.model1 "orbital1" DockMethod.ORBITAL) =
          Except.ok Example.orbital1 ∧
    Example.orbital1.dockMethod = DockMethod.ORBITAL ∧
    ∃ path, mapFind 1 Example.orbital1.m_portPaths = some path ∧ ∃ loc f port a2,
      bayLocator 1 (Example.model1.FindTagsByStartOfName "loc_") = some loc ∧
      locatorFields loc.GetName = some f ∧
      portOfId Example.orbital1.m_ports f.portId = some port ∧
      mapFind 2 port.m_approach = some a2 ∧
      (∀ ex, (Example.model1.FindTagsByStartOfName "exit_").find?
          (fun e => decide (exitId e.GetName = some f.portId)) = some ex →
        mapFind 3 path.m_leaving = some ex.GetTransform) ∧
      (Example.model1.FindTagsByStartOfName "exit_" = [] →
        mapFind 3 path.m_leaving = some (a2.SetRotationOnly
          ((matrix4x4.ofOrient loc.GetTransform.GetOrient).mul
            (matrix4x4.ofOrient (Example.envQ.Rotate (Example.envQ.DEG2RAD 180)
              (matrix4x4.ofOrient loc.GetTransform.GetOrient).Back))))) :=
  have ho : OnSetupComplete Example.envQ
      (SpaceStationType.new Example.model1 "orbital1" DockMethod.ORBITAL) =
        Except.ok Example.orbital1 := by rfl
  match hp : mapFind 1 Example.orbital1.m_portPaths with
  | some path => ⟨ho, by rfl, path, rfl, leaving_stage_three ho (by rfl) 1 path hp⟩
  | none => absurd hp (by decide)

/-- C7, counterexample: on the orbital example station, whose model has no
exit anchor, the leaving stage 3 of the bay 1 (port id 1) differs from the
approach stage 2 of the port 1: its rotation is the turned orientation of the
locator. -/
theorem leaving_stage_three_not_approach :
    OnSetupComplete Example.envQ
        (SpaceStationType.new Example.model1 "orbital1" DockMethod.ORBITAL) =
          Except.ok Example.orbital1 ∧
    Example.model1.FindTagsByStartOfName "exit_" = [] ∧
    (bayLocator 1 (Example.model1.FindTagsByStartOfName "loc_")).bind
        (fun l => locatorFields l.GetName) = some ⟨['A', '0', '0', '1'], 1, 0, 500, 1⟩ ∧
    (portOfId Example.orbital1.m_ports 1).bind (fun q => mapFind 2 q.m_approach) =
      some ⟨⟨1, 0, 0⟩, ⟨0, 1, 0⟩, ⟨0, 0, 1⟩, ⟨0, 0, 0⟩⟩ ∧
    (mapFind 1 Example.orbital1.m_portPaths).bind (fun p => mapFind 3 p.m_leaving) =
      some ⟨⟨2 / 3, -2 / 3, 1 / 3⟩, ⟨-1 / 3, -2 / 3, -2 / 3⟩, ⟨2 / 3, 1 / 3, -2 / 3⟩,
        ⟨0, 0, 0⟩⟩ ∧
    (⟨⟨2 / 3, -2 / 3, 1 / 3⟩, ⟨-1 / 3, -2 / 3, -2 / 3⟩, ⟨2 / 3, 1 / 3, -2 / 3⟩,
        ⟨0, 0, 0⟩⟩ : matrix4x4 ℚ) ≠ ⟨⟨1, 0, 0⟩, ⟨0, 1, 0⟩, ⟨0, 0, 1⟩, ⟨0, 0, 0⟩⟩ :=
  ⟨by rfl, by rfl, by rfl, by rfl, by with_unfolding_all rfl, by with_unfolding_all decide⟩

/-- The position above the pad is one of the three candidates and no
candidate is nearer to the position of the locator. -/
theorem intersectionPos_nearest (env : MathEnv K) (T a1 a2 : matrix4x4 K) :
    (intersectionPos env T a1 a2 = (intersectionCandidates env T a1 a2).1 ∨
      intersectionPos env T a1 a2 = (intersectionCandidates env T a1 a2).2.1 ∨
      intersectionPos env T a1 a2 = (intersectionCandidates env T a1 a2).2.2) ∧
    ((intersectionPos env T a1 a2).sub T.GetTranslate).LengthSqr ≤
      (((intersectionCandidates env T a1 a2).1).sub T.GetTranslate).LengthSqr ∧
    ((intersectionPos env T a1 a2).sub T.GetTranslate).LengthSqr ≤
      (((intersectionCandidates env T a1 a2).2.1).sub T.GetTranslate).LengthSqr ∧
    ((intersectionPos env T a1 a2).sub T.GetTranslate).LengthSqr ≤
      (((intersectionCandidates env T a1 a2).2.2).sub T.GetTranslate).LengthSqr := by
  unfold intersectionPos
  generalize intersectionCandidates env T a1 a2 = c
  dsimp only
  by_cases h1 : ((c.1.sub T.GetTranslate).LengthSqr > (c.2.1.sub T.GetTranslate).LengthSqr)
  · rw [if_pos h1]
    by_cases h2 : ((c.2.1.sub T.GetTranslate).LengthSqr > (c.2.2.sub T.GetTranslate).LengthSqr)
    · rw [if_pos h2]
      exact ⟨Or.inr (Or.inr rfl), le_of_lt (lt_trans h2 h1), le_of_lt h2, le_refl _⟩
    · rw [if_neg h2]
      exact ⟨Or.inr (Or.inl rfl), le_of_lt h1, le_refl _, not_lt.mp h2⟩
  · rw [if_neg h1]
    by_cases h2 : ((c.1.sub T.GetTranslate).LengthSqr > (c.2.2.sub T.GetTranslate).LengthSqr)
    · rw [if_pos h2]
      exact ⟨Or.inr (Or.inr rfl), le_of_lt h2, le_trans (le_of_lt h2) (not_lt.mp h1), le_refl _⟩
    · rw [if_neg h2]
      exact ⟨Or.inl rfl, le_refl _, not_lt.mp h1, not_lt.mp h2⟩

/-- C8: on a finalized ORBITAL station, for every bay, the docking stage 3 and
the leaving stage 2 have the same position; it is one of the three candidate
intersections (planes of the back, right and up normals of the locator, ray
from the approach stage 1 towards the approach stage 2 of the port), and its
squared distance to the position of the locator is at most that of each of
the three candidates. The coordinates are in any linearly ordered field, the
reals among them. -/
theorem above_pad_nearest {env : MathEnv K} {dm : DockMethod} {model : Model K}
    {modelName : String} {st : SpaceStationType K}
    (h : OnSetupComplete env (SpaceStationType.new model modelName dm) = Except.ok st)
    (hdm : st.dockMethod = DockMethod.ORBITAL) (bay : Int) (path : PortPath K)
    (hpath : mapFind bay st.m_portPaths = some path) :
    ∃ loc f port a1 a2 pos, bayLocator bay (model.FindTagsByStartOfName "loc_") = some loc ∧
      locatorFields loc.GetName = some f ∧ portOfId st.m_ports f.portId = some port ∧
      mapFind 1 port.m_approach = some a1 ∧ mapFind 2 port.m_approach = some a2 ∧
      (mapFind 3 path.m_docking).map matrix4x4.GetTranslate = some pos ∧
      (mapFind 2 path.m_leaving).map matrix4x4.GetTranslate = some pos ∧
      (pos = (intersectionCandidates env loc.GetTransform a1 a2).1 ∨
        pos = (intersectionCandidates env loc.GetTransform a1 a2).2.1 ∨
        pos = (intersectionCandidates env loc.GetTransform a1 a2).2.2) ∧
      (pos.sub loc.GetTransform.GetTranslate).LengthSqr ≤
        (((intersectionCandidates env loc.GetTransform a1 a2).1).sub
          loc.GetTransform.GetTranslate).LengthSqr ∧
      (pos.sub loc.GetTransform.GetTranslate).LengthSqr ≤
        (((intersectionCandidates env loc.GetTransform a1 a2).2.1).sub
          loc.GetTransform.GetTranslate).LengthSqr ∧
      (pos.sub loc.GetTransform.GetTranslate).LengthSqr ≤
        (((intersectionCandidates env loc.GetTransform a1 a2).2.2).sub
          loc.GetTransform.GetTranslate).LengthSqr := by
  obtain ⟨_, _, _, hd, _⟩ := define_station_spec h
  rw [hd] at hdm
  subst hdm
  obtain ⟨loc, f, a1, a2, hloc, hf, _, hp, happ, hbuild⟩ := finalized_path h hpath
  obtain ⟨port, hport, hm⟩ := portOfId_of_approachOf happ
  obtain ⟨r, hr, hnp⟩ := buildPath_orbital hbuild
  obtain ⟨hmem, hle1, hle2, hle3⟩ := intersectionPos_nearest env loc.GetTransform a1 a2
  refine ⟨loc, f, port, a1, a2, intersectionPos env loc.GetTransform a1 a2, hloc, hf, hport,
    by rw [hm]; simp [mapFind], by rw [hm]; simp [mapFind], ?_, ?_, hmem, hle1, hle2, hle3⟩
  · rw [hnp]
    simp [mapFind, matrix4x4.GetTranslate, matrix4x4.SetTranslate]
  · rw [hnp]
    simp [mapFind, matrix4x4.GetTranslate, matrix4x4.SetTranslate]

/-- Witness of C8: the orbital example station at the bay 1, where the three
candidates are `(0, 0, 9/2)`, `(0, 0, -9)` and `(0, 0, 9/2)`, the locator is at
`(0, 0, 3)` and the position above the pad is `(0, 0, 9/2)`. -/
theorem above_pad_nearest_witness :
    OnSetupComplete Example.envQ
        (SpaceStationType.new Example.model1 "orbital1" DockMethod.ORBITAL) =
          Except.ok Example.orbital1 ∧
    Example.orbital1.dockMethod = DockMethod.ORBITAL ∧
    ∃ path, mapFind 1 Example.orbital1.m_portPaths = some path ∧
      ∃ loc f port a1 a2 pos,
        bayLocator 1 (Example.model1.FindTagsByStartOfName "loc_") = some loc ∧
        locatorFields loc.GetName = some f ∧
        portOfId Example.orbital1.m_ports f.portId = some port ∧
        mapFind 1 port.m_approach = some a1 ∧ mapFind 2 port.m_approach = some a2 ∧
        (mapFind 3 path.m_docking).map matrix4x4.GetTranslate = some pos ∧
        (mapFind 2 path.m_leaving).map matrix4x4.GetTranslate = some pos ∧
        (pos = (intersectionCandidates Example.envQ loc.GetTransform a1 a2).1 ∨
          pos = (intersectionCandidates Example.envQ loc.GetTransform a1 a2).2.1 ∨
          pos = (intersectionCandidates Example.envQ loc.GetTransform a1 a2).2.2) ∧
        (pos.sub loc.GetTransform.GetTranslate).LengthSqr ≤
          (((intersectionCandidates Example.envQ loc.GetTransform a1 a2).1).sub
            loc.GetTransform.GetTranslate).LengthSqr ∧
        (pos.sub loc.GetTransform.GetTranslate).LengthSqr ≤
          (((intersectionCandidates Example.envQ loc.GetTransform a1 a2).2.1).sub
            loc.GetTransform.GetTranslate).LengthSqr ∧
        (pos.sub loc.GetTransform.GetTranslate).LengthSqr ≤
          (((intersectionCandidates Example.envQ loc.GetTransform a1 a2).2.2).sub
            loc.GetTransform.GetTranslate).LengthSqr :=
  have ho : OnSetupComplete Example.envQ
      (SpaceStationType.new Example.model1 "orbital1" DockMethod.ORBITAL) =
        Except.ok Example.orbital1 := by rfl
  match hp : mapFind 1 Example.orbital1.m_portPaths with
  | some path => ⟨ho, by rfl, path, rfl, above_pad_nearest ho (by rfl) 1 path hp⟩
  | none => absurd hp (by decide)

/-- A locator anchor whose name does not read as five values ends the locator
loop with a fatal error. -/
theorem addLocators_malformed {env : MathEnv K} {exits : List (MatrixTransform K)}
    {l : MatrixTransform K} (hl : locatorFields l.GetName = none)
    (locs : List (MatrixTransform K)) :
    ∀ st : SpaceStationType K, l ∈ locs → ∃ e, addLocators env exits locs st = Except.error e := by
  induction locs with
  | nil => intro st hmem; cases hmem
  | cons l' rest ih =>
    intro st hmem
    unfold addLocators
    cases hr : addLocator env exits st l' with
    | error e => exact ⟨e, rfl⟩
    | ok st1 =>
      rw [List.mem_cons] at hmem
      rcases hmem with hmem | hmem
      · subst hmem
        simp [addLocator, hl] at hr
      · exact ih st1 hmem

/-- A model with a malformed locator anchor makes `OnSetupComplete` end with a
fatal error. -/
theorem OnSetupComplete_malformed {env : MathEnv K} {st : SpaceStationType K}
    {l : MatrixTransform K} (hl : locatorFields l.GetName = none)
    (hmem : l ∈ st.model.FindTagsByStartOfName "loc_") :
    ∃ e, OnSetupComplete env st = Except.error e := by
  unfold OnSetupComplete build
  simp only
  cases hp : addPorts env st.dockMethod (st.model.FindTagsByStartOfName "entrance_")
      st.m_ports with
  | error e => exact ⟨e, rfl⟩
  | ok ports =>
    obtain ⟨e, he⟩ := @addLocators_malformed K _ env
      (st.model.FindTagsByStartOfName "exit_") l hl _
      { st with shipLaunchStage := if DockMethod.SURFACE = st.dockMethod then 0 else 3,
                m_ports := ports } hmem
    simp only [he]
    exact ⟨e, rfl⟩

/-- C9: the round trip of a locator name. For a pad name of exactly 4
characters, none of them white space, and values `portId`, `min`, `max` and
`bay` of an `int` (positive or not), reading the name
`loc_<pad>_p<portId>_s<min>_<max>_b<bay>` as `OnSetupComplete` does gives exactly
`pad`, `portId`, `min`, `max` and `bay`;
the name without its `_b<bay>` part does not give five values, and
`OnSetupComplete` ends with a fatal error on every station whose model has an
anchor of that name. -/
theorem locator_name_round_trip (pad : List Char) (portId minSize maxSize bay : Int)
    (hlen : pad.length = 4) (hns : ∀ c ∈ pad, isspace c = false)
    (hp : isInt portId) (hmn : isInt minSize) (hmx : isInt maxSize) (hb : isInt bay) :
    locatorFields (locatorName pad portId minSize maxSize bay) =
      some ⟨pad, portId, minSize, maxSize, bay⟩ ∧
    locatorFields (locatorNameNoBay pad portId minSize maxSize) = none ∧
    ∀ (F : Type) [LinearOrderedField F] (env : MathEnv F) (st : SpaceStationType F)
      (T : matrix4x4 F), ⟨locatorNameNoBay pad portId minSize maxSize, T⟩ ∈ st.model.tags →
      ∃ e, OnSetupComplete env st = Except.error e := by
  refine ⟨locatorFields_locatorName pad portId minSize maxSize bay hlen hns hp hmn hmx hb,
    locatorFields_locatorNameNoBay pad portId minSize maxSize hlen hns hp hmn hmx, ?_⟩
  intro F _ env st T hmem
  apply OnSetupComplete_malformed (l := ⟨locatorNameNoBay pad portId minSize maxSize, T⟩)
    (locatorFields_locatorNameNoBay pad portId minSize maxSize hlen hns hp hmn hmx)
  unfold Model.FindTagsByStartOfName
  rw [List.mem_filter]
  refine ⟨hmem, ?_⟩
  have h1 : (locatorNameNoBay pad portId minSize maxSize).toList =
      'l' :: 'o' :: 'c' :: '_' :: (pad ++ ('_' :: 'p' :: ((toString portId).toList ++
        ('_' :: 's' :: ((toString minSize).toList ++ ('_' :: ((toString maxSize).toList ++
          []))))))) := by
    simp [locatorNameNoBay, String.toList]
  show List.isPrefixOf ['l', 'o', 'c', '_']
    (locatorNameNoBay pad portId minSize maxSize).toList = true
  rw [h1]
  simp [List.isPrefixOf]

/-- Witness of C9: the name `loc_A001_p1_s0_500_b1` gives `A001`, 1, 0, 500
and 1, and `loc_A001_p1_s0_500` is refused. -/
theorem locator_name_round_trip_witness :
    locatorName ['A', '0', '0', '1'] 1 0 500 1 = "loc_A001_p1_s0_500_b1" ∧
    locatorNameNoBay ['A', '0', '0', '1'] 1 0 500 = "loc_A001_p1_s0_500" ∧
    locatorFields (locatorName ['A', '0', '0', '1'] 1 0 500 1) =
      some ⟨['A', '0', '0', '1'], 1, 0, 500, 1⟩ ∧
    locatorFields (locatorNameNoBay ['A', '0', '0', '1'] 1 0 500) = none ∧
    ∀ (F : Type) [LinearOrderedField F] (env : MathEnv F) (st : SpaceStationType F)
      (T : matrix4x4 F), ⟨locatorNameNoBay ['A', '0', '0', '1'] 1 0 500, T⟩ ∈ st.model.tags →
      ∃ e, OnSetupComplete env st = Except.error e :=
  ⟨by decide, by decide,
    locator_name_round_trip ['A', '0', '0', '1'] 1 0 500 1 (by decide) (by decide) (by decide)
      (by decide) (by decide) (by decide)⟩

/-- C5, counterexample: the surface station of a model whose only locator
declares the bay 7, with coordinates in the reals. The bay 7 is in
`m_portPaths` and its docking map has the entry `frameAt (0, 0, 3)` for the
stage 2, which is in range; the call for this bay (index 6) ends at the
assertion `port <= m_portPaths.size ()` and returns no pose. -/
theorem GetDockAnimPositionOrient_sparse_bay :
    OnSetupComplete (Example.envOf Real.sqrt)
        (SpaceStationType.new (Example.model7 ℝ) "surface7" DockMethod.SURFACE) =
      Except.ok (Example.surface7 (Example.envOf Real.sqrt)) ∧
    (Example.surface7 (Example.envOf Real.sqrt)).numDockingStages = 2 ∧
    (Example.surface7 (Example.envOf Real.sqrt)).shipLaunchStage = 0 ∧
    (Example.surface7 (Example.envOf Real.sqrt)).m_portPaths.length = 1 ∧
    (mapFind 7 (Example.surface7 (Example.envOf Real.sqrt)).m_portPaths).bind
        (fun p => mapFind 2 p.m_docking) = some (Example.frameAt ⟨0, 0, 3⟩) ∧
    GetDockAnimPositionOrient (Example.envOf Real.sqrt)
        (Example.surface7 (Example.envOf Real.sqrt)) 6 2 1 ⟨1, 1, 1⟩
        ⟨⟨0, 0, 0⟩, ⟨0, 0, 0⟩, ⟨0, 0, 0⟩, ⟨0, 0, 0⟩⟩ (some ⟨2⟩) =
      Except.error (Fatal.assertion "port<=m_portPaths.size()") :=
  ⟨by rfl, by rfl, by rfl, by rfl, by rfl, by rfl⟩

/-- C12: on a finalized station `GetShipApproachWaypoints (port, stage)` never
fails. Its flag is true exactly when `FindPortByBay (port)` finds a port whose
approach map has an entry for `stage`, which is the case exactly for the
stages 1 and 2; then the pose has the position of that approach transform and
the normalized X, Y and Z axes of its orientation; otherwise the flag is false
and `outPosOrient` is left as it was. -/
theorem GetShipApproachWaypoints_match {env : MathEnv K} {dm : DockMethod} {model : Model K}
    {modelName : String} {st : SpaceStationType K}
    (h : OnSetupComplete env (SpaceStationType.new model modelName dm) = Except.ok st)
    (port : Nat) (stage : Int) (out : positionOrient_t K) :
    (∃ r, GetShipApproachWaypoints env st port stage out = Except.ok r ∧
      (r.1 = true ↔ ∃ pPort mt, FindPortByBay st (toInt port) = some pPort ∧
        mapFind stage pPort.m_approach = some mt)) ∧
    (∀ pPort, FindPortByBay st (toInt port) = some pPort →
      ((∃ mt, mapFind stage pPort.m_approach = some mt) ↔ stage = 1 ∨ stage = 2)) ∧
    (∀ pPort mt, FindPortByBay st (toInt port) = some pPort →
      mapFind stage pPort.m_approach = some mt →
      GetShipApproachWaypoints env st port stage out =
        Except.ok (true,
          { pos := mt.GetTranslate
            xaxis := mt.GetOrient.VectorX.Normalized env.sqrt
            yaxis := mt.GetOrient.VectorY.Normalized env.sqrt
            zaxis := mt.GetOrient.VectorZ.Normalized env.sqrt })) ∧
    ((¬ ∃ pPort mt, FindPortByBay st (toInt port) = some pPort ∧
        mapFind stage pPort.m_approach = some mt) →
      GetShipApproachWaypoints env st port stage out = Except.ok (false, out)) := by
  obtain ⟨_, _, ⟨hgood, _⟩, _⟩ := define_station_spec h
  have hentry : ∀ pPort, FindPortByBay st (toInt port) = some pPort →
      ((∃ mt, mapFind stage pPort.m_approach = some mt) ↔ stage = 1 ∨ stage = 2) := by
    intro pPort hp
    exact goodPort_entry (hgood pPort (findPortByBay_mem st.m_ports hp)) stage
  have hfound : ∀ pPort mt, FindPortByBay st (toInt port) = some pPort →
      mapFind stage pPort.m_approach = some mt →
      GetShipApproachWaypoints env st port stage out =
        Except.ok (true, poseOf env mt mt.GetTranslate) := by
    intro pPort mt hp hmt
    have hpos : stage > 0 := by
      rcases (hentry pPort hp).mp ⟨mt, hmt⟩ with e | e <;> omega
    simp only [GetShipApproachWaypoints, hp, if_pos hpos, hmt]
  have hnot : (¬ ∃ pPort mt, FindPortByBay st (toInt port) = some pPort ∧
        mapFind stage pPort.m_approach = some mt) →
      GetShipApproachWaypoints env st port stage out = Except.ok (false, out) := by
    intro hno
    cases hp : FindPortByBay st (toInt port) with
    | none => simp only [GetShipApproachWaypoints, hp]
    | some pPort =>
      cases hmt : mapFind stage pPort.m_approach with
      | none =>
        simp only [GetShipApproachWaypoints, hp, hmt]
        split <;> rfl
      | some mt => exact absurd ⟨pPort, mt, hp, hmt⟩ hno
  refine ⟨?_, hentry, hfound, hnot⟩
  by_cases hex : ∃ pPort mt, FindPortByBay st (toInt port) = some pPort ∧
      mapFind stage pPort.m_approach = some mt
  · obtain ⟨pPort, mt, hp, hmt⟩ := hex
    exact ⟨_, hfound pPort mt hp hmt, by simp; exact ⟨pPort, hp, mt, hmt⟩⟩
  · refine ⟨_, hnot hex, ?_⟩
    constructor
    · intro hc; cases hc
    · intro hc; exact absurd hc hex

/-- Witness of C12: the orbital station with two bays, asked for the approach
stage 2 of the bay index 1. -/
theorem GetShipApproachWaypoints_match_witness :
    OnSetupComplete Example.envQ
        (SpaceStationType.new Example.model2 "orbital2" DockMethod.ORBITAL) =
          Except.ok Example.orbital2 ∧
    ∃ pPort mt, FindPortByBay Example.orbital2 (toInt 1) = some pPort ∧
      mapFind 2 pPort.m_approach = some mt ∧
      GetShipApproachWaypoints Example.envQ Example.orbital2 1 2 Example.pose0 =
        Except.ok (true,
          { pos := mt.GetTranslate
            xaxis := mt.GetOrient.VectorX.Normalized Example.envQ.sqrt
            yaxis := mt.GetOrient.VectorY.Normalized Example.envQ.sqrt
            zaxis := mt.GetOrient.VectorZ.Normalized Example.envQ.sqrt }) := by
  have ho : OnSetupComplete Example.envQ
      (SpaceStationType.new Example.model2 "orbital2" DockMethod.ORBITAL) =
        Except.ok Example.orbital2 := by rfl
  cases hp : FindPortByBay Example.orbital2 (toInt 1) with
  | none => exact absurd hp (by decide)
  | some pPort =>
    obtain ⟨mt, hmt⟩ := ((GetShipApproachWaypoints_match ho 1 2 Example.pose0).2.1 pPort
      hp).mpr (Or.inr rfl)
    exact ⟨ho, pPort, mt, rfl, hmt,
      (GetShipApproachWaypoints_match ho 1 2 Example.pose0).2.2.1 pPort mt hp hmt⟩

/-- C13: `FindPortByBay (b)` is total. When it returns a port, the port is the
first of `m_ports`, in the order the ports were added, whose bay list has an
entry with the zero-based index `b`; it returns no port exactly when no bay
list of a port has the index `b`. The result is a value, never an error. -/
theorem FindPortByBay_first (st : SpaceStationType K) (b : Int) :
    (∀ port, FindPortByBay st b = some port →
      ∃ pre post, st.m_ports = pre ++ port :: post ∧ (∃ e ∈ port.bayIDs, e.1 = b) ∧
        ∀ q ∈ pre, ∀ e ∈ q.bayIDs, e.1 ≠ b) ∧
    (FindPortByBay st b = none ↔ ∀ q ∈ st.m_ports, ∀ e ∈ q.bayIDs, e.1 ≠ b) ∧
    ((∃ q ∈ st.m_ports, ∃ e ∈ q.bayIDs, e.1 = b) → ∃ port, FindPortByBay st b = some port) := by
  have hfalse : ∀ q : SPort K, hasBay b q.bayIDs = false ↔ ∀ e ∈ q.bayIDs, e.1 ≠ b := by
    intro q
    rw [← Bool.not_eq_true, hasBay_iff]
    push_neg
    rfl
  have hnone : FindPortByBay st b = none ↔ ∀ q ∈ st.m_ports, ∀ e ∈ q.bayIDs, e.1 ≠ b := by
    unfold FindPortByBay
    rw [findPortByBay_none]
    constructor
    · intro h q hq; exact (hfalse q).mp (h q hq)
    · intro h q hq; exact (hfalse q).mpr (h q hq)
  refine ⟨?_, hnone, ?_⟩
  · intro port h
    obtain ⟨pre, post, hl, hb, hpre⟩ := findPortByBay_some st.m_ports h
    exact ⟨pre, post, hl, (hasBay_iff b _).mp hb, fun q hq => (hfalse q).mp (hpre q hq)⟩
  · rintro ⟨q, hq, e, he, heb⟩
    cases hr : FindPortByBay st b with
    | some port => exact ⟨port, rfl⟩
    | none => exact absurd heb (hnone.mp hr q hq e he)

/-- Witness of C13: the orbital station with two bays, asked for the index 1
and for the index 5. -/
theorem FindPortByBay_first_witness :
    (∃ port pre post, FindPortByBay Example.orbital2 1 = some port ∧
      Example.orbital2.m_ports = pre ++ port :: post ∧ (∃ e ∈ port.bayIDs, e.1 = 1) ∧
        ∀ q ∈ pre, ∀ e ∈ q.bayIDs, e.1 ≠ 1) ∧
    FindPortByBay Example.orbital2 5 = none ∧
    ∀ q ∈ Example.orbital2.m_ports, ∀ e ∈ q.bayIDs, e.1 ≠ 5 :=
  ⟨match hp : FindPortByBay Example.orbital2 1 with
    | some port =>
      let r := (FindPortByBay_first Example.orbital2 1).1 port hp
      ⟨port, r.choose, r.choose_spec.choose, rfl, r.choose_spec.choose_spec⟩
    | none => absurd hp (by decide),
   by rfl, (FindPortByBay_first Example.orbital2 5).2.1.mp (by rfl)⟩

/-- C14: the stage durations. `GetDockAnimStageDuration` is 300 at the stage 0
for either dock method, and at every other stage 0 for SURFACE and 3 for
ORBITAL; `GetUndockAnimStageDuration` is 0 for SURFACE and 5 for ORBITAL at
every stage. -/
theorem stage_durations (st : SpaceStationType K) (stage : Int) :
    GetDockAnimStageDuration st 0 = 300 ∧
    (stage ≠ 0 → st.dockMethod = DockMethod.SURFACE → GetDockAnimStageDuration st stage = 0) ∧
    (stage ≠ 0 → st.dockMethod = DockMethod.ORBITAL → GetDockAnimStageDuration st stage = 3) ∧
    (st.dockMethod = DockMethod.SURFACE → GetUndockAnimStageDuration st stage = 0) ∧
    (st.dockMethod = DockMethod.ORBITAL → GetUndockAnimStageDuration st stage = 5) := by
  refine ⟨by simp [GetDockAnimStageDuration], ?_, ?_, ?_, ?_⟩
  · intro h0 hs
    simp [GetDockAnimStageDuration, h0, hs]
  · intro h0 hs
    simp [GetDockAnimStageDuration, h0, hs]
  · intro hs
    simp [GetUndockAnimStageDuration, hs]
  · intro hs
    simp [GetUndockAnimStageDuration, hs]

/-- Witness of C14: the surface and the orbital example station at the stage
2. -/
theorem stage_durations_witness :
    GetDockAnimStageDuration Example.surface1 2 = 0 ∧
    GetDockAnimStageDuration Example.orbital1 2 = 3 ∧
    GetUndockAnimStageDuration Example.surface1 2 = 0 ∧
    GetUndockAnimStageDuration Example.orbital1 2 = 5 :=
  ⟨(stage_durations Example.surface1 2).2.1 (by decide) (by rfl),
   (stage_durations Example.orbital1 2).2.2.1 (by decide) (by rfl),
   (stage_durations Example.surface1 2).2.2.2.1 (by rfl),
   (stage_durations Example.orbital1 2).2.2.2.2 (by rfl)⟩

/-- C16, the code at failing inputs: with the unit normal `(1, 0, 0)`, the
plane position `(0, 1, 0)` and the line from the origin to `(1, 0, 0)`,
`IntersectLine` returns `(1, 0, 0)`, for which `Dot (n, r - p0) = 1`; and on
the orbital example station the three candidates of the bay 1, computed from
the locator at `(0, 0, 3)` and the approach stages of its port, are
`(0, 0, 9/2)`, `(0, 0, -9)` and `(0, 0, 9/2)`, for which `Dot (n, r - p0)` is
1, 4 and 1 with the back, right and up normals. -/
theorem IntersectLine_off_plane :
    IntersectLine Example.envQ ⟨1, 0, 0⟩ ⟨0, 1, 0⟩ ⟨0, 0, 0⟩ ⟨1, 0, 0⟩ = ⟨1, 0, 0⟩ ∧
    vector3.Dot (⟨1, 0, 0⟩ : vector3 ℚ) ((⟨1, 0, 0⟩ : vector3 ℚ).sub ⟨0, 1, 0⟩) = 1 ∧
    OnSetupComplete Example.envQ
        (SpaceStationType.new Example.model1 "orbital1" DockMethod.ORBITAL) =
          Except.ok Example.orbital1 ∧
    (bayLocator 1 (Example.model1.FindTagsByStartOfName "loc_")).map
        MatrixTransform.GetTransform = some Example.padT ∧
    (portOfId Example.orbital1.m_ports 1).map SPort.m_approach =
      some [(1, Example.frameAt ⟨0, 0, -1500⟩), (2, Example.entranceT)] ∧
    intersectionCandidates Example.envQ Example.padT (Example.frameAt ⟨0, 0, -1500⟩)
        Example.entranceT = (⟨0, 0, 9 / 2⟩, ⟨0, 0, -9⟩, ⟨0, 0, 9 / 2⟩) ∧
    vector3.Dot (Example.padT.Back.Normalized Example.envQ.sqrt)
      ((⟨0, 0, 9 / 2⟩ : vector3 ℚ).sub Example.padT.GetTranslate) = 1 ∧
    vector3.Dot (Example.padT.Right.Normalized Example.envQ.sqrt)
      ((⟨0, 0, -9⟩ : vector3 ℚ).sub Example.padT.GetTranslate) = 4 ∧
    vector3.Dot (Example.padT.Up.Normalized Example.envQ.sqrt)
      ((⟨0, 0, 9 / 2⟩ : vector3 ℚ).sub Example.padT.GetTranslate) = 1 :=
  ⟨by with_unfolding_all rfl, by with_unfolding_all rfl, by rfl, by rfl,
   by with_unfolding_all rfl, by with_unfolding_all rfl, by with_unfolding_all rfl,
   by with_unfolding_all rfl, by with_unfolding_all rfl⟩

/-- C17, as amended: on a finalized ORBITAL station, for every bay, the
docking entry at the index 2, the start of the docking path, is the approach
stage 2 of the port with its rotation replaced by the rotation of the locator
(its position is that of the approach stage 2); the docked pose, the docking
entry at the index `numDockingStages`, is the transform of the locator
itself. -/
theorem docking_start_and_docked {env : MathEnv K} {dm : DockMethod} {model : Model K}
    {modelName : String} {st : SpaceStationType K}
    (h : OnSetupComplete env (SpaceStationType.new model modelName dm) = Except.ok st)
    (hdm : st.dockMethod = DockMethod.ORBITAL) (bay : Int) (path : PortPath K)
    (hpath : mapFind bay st.m_portPaths = some path) :
    ∃ loc f port a2 d2, bayLocator bay (model.FindTagsByStartOfName "loc_") = some loc ∧
      locatorFields loc.GetName = some f ∧ portOfId st.m_ports f.portId = some port ∧
      mapFind 2 port.m_approach = some a2 ∧
      mapFind 2 path.m_docking = some d2 ∧
      d2.GetTranslate = a2.GetTranslate ∧ d2.GetOrient = loc.GetTransform.GetOrient ∧
      mapFind st.numDockingStages path.m_docking = some loc.GetTransform := by
  obtain ⟨_, _, _, hd, _, _, _, hnum, _⟩ := define_station_spec h
  rw [hd] at hdm
  subst hdm
  obtain ⟨loc, f, a1, a2, hloc, hf, _, hp, happ, hbuild⟩ := finalized_path h hpath
  obtain ⟨port, hport, hm⟩ := portOfId_of_approachOf happ
  obtain ⟨r, hr, hnp⟩ := buildPath_orbital hbuild
  refine ⟨loc, f, port, a2, a2.SetRotationOnly (matrix4x4.ofOrient loc.GetTransform.GetOrient),
    hloc, hf, hport, by rw [hm]; simp [mapFind], ?_, rfl, rfl, ?_⟩
  · rw [hnp]; simp [mapFind]
  · rw [hnp, hnum]; simp [mapFind]

/-- Witness of C17 as amended: the orbital example station at the bay 1. -/
theorem docking_start_and_docked_witness :
    OnSetupComplete Example.envQ
        (SpaceStationType.new Example.model1 "orbital1" DockMethod.ORBITAL) =
          Except.ok Example.orbital1 ∧
    Example.orbital1.dockMethod = DockMethod.ORBITAL ∧
    ∃ path, mapFind 1 Example.orbital1.m_portPaths = some path ∧ ∃ loc f port a2 d2,
      bayLocator 1 (Example.model1.FindTagsByStartOfName "loc_") = some loc ∧
      locatorFields loc.GetName = some f ∧
      portOfId Example.orbital1.m_ports f.portId = some port ∧
      mapFind 2 port.m_approach = some a2 ∧
      mapFind 2 path.m_docking = some d2 ∧
      d2.GetTranslate = a2.GetTranslate ∧ d2.GetOrient = loc.GetTransform.GetOrient ∧
      mapFind Example.orbital1.numDockingStages path.m_docking = some loc.GetTransform :=
  have ho : OnSetupComplete Example.envQ
      (SpaceStationType.new Example.model1 "orbital1" DockMethod.ORBITAL) =
        Except.ok Example.orbital1 := by rfl
  match hp : mapFind 1 Example.orbital1.m_portPaths with
  | some path => ⟨ho, by rfl, path, rfl, docking_start_and_docked ho (by rfl) 1 path hp⟩
  | none => absurd hp (by decide)

/-- C17, counterexample: on the orbital example station the docking entry of
the bay 1 at the index `numDockingStages = 4` is at the position `(0, 0, 3)` of
the locator, and the approach stage 2 of its port is at `(0, 0, 0)`. -/
theorem docked_pose_not_at_approach :
    OnSetupComplete Example.envQ
        (SpaceStationType.new Example.model1 "orbital1" DockMethod.ORBITAL) =
          Except.ok Example.orbital1 ∧
    Example.orbital1.numDockingStages = 4 ∧
    ((mapFind 1 Example.orbital1.m_portPaths).bind
        (fun p => mapFind Example.orbital1.numDockingStages p.m_docking)).map
          matrix4x4.GetTranslate = some ⟨0, 0, 3⟩ ∧
    ((portOfId Example.orbital1.m_ports 1).bind (fun q => mapFind 2 q.m_approach)).map
        matrix4x4.GetTranslate = some ⟨0, 0, 0⟩ ∧
    (⟨0, 0, 3⟩ : vector3 ℚ) ≠ ⟨0, 0, 0⟩ :=
  ⟨by rfl, by rfl, by rfl, by rfl, by with_unfolding_all decide⟩

/-- C18, as amended: the entrance pass, run over entrance anchors whose names
read as positive port ids, returns ports; the ports it returns are one per
entrance anchor, in the order of the anchors, each with the positive port id
its anchor reads as. No two ports share a port id exactly when no two
entrance anchors read as the same port id. -/
theorem addPorts_one_port_per_anchor (env : MathEnv K) (dm : DockMethod)
    (es : List (MatrixTransform K)) :
    ((∀ a ∈ es, ∃ n, entranceId a.GetName = some n ∧ 0 < n) →
      ∃ ports, addPorts env dm es [] = Except.ok ports) ∧
    (∀ ports, addPorts env dm es [] = Except.ok ports →
      ports.map SPort.portId = es.filterMap (fun a => entranceId a.GetName) ∧
      ports.length = es.length ∧ (∀ q ∈ ports, 0 < q.portId) ∧
      ((ports.map SPort.portId).Nodup ↔
        (es.filterMap (fun a => entranceId a.GetName)).Nodup)) := by
  refine ⟨addPorts_succeeds env dm es [], ?_⟩
  intro ports h
  obtain ⟨new, hnew, hf⟩ := addPorts_forall₂ es h
  rw [List.nil_append] at hnew
  subst hnew
  obtain ⟨i1, i2, i3⟩ := forall₂_portIds hf
  exact ⟨i1, i2, i3, by rw [i1]⟩

/-- Witness of C18 as amended: the entrance anchor of the example model. -/
theorem addPorts_one_port_per_anchor_witness :
    (∀ a ∈ Example.model1.FindTagsByStartOfName "entrance_",
      ∃ n, entranceId a.GetName = some n ∧ 0 < n) ∧
    ∃ ports, addPorts Example.envQ DockMethod.ORBITAL
        (Example.model1.FindTagsByStartOfName "entrance_") [] = Except.ok ports ∧
      ports.map SPort.portId =
        (Example.model1.FindTagsByStartOfName "entrance_").filterMap
          (fun a => entranceId a.GetName) ∧
      ports.length = (Example.model1.FindTagsByStartOfName "entrance_").length ∧
      (∀ q ∈ ports, 0 < q.portId) ∧
      ((ports.map SPort.portId).Nodup ↔
        ((Example.model1.FindTagsByStartOfName "entrance_").filterMap
          (fun a => entranceId a.GetName)).Nodup) := by
  have hall : ∀ a ∈ Example.model1.FindTagsByStartOfName "entrance_",
      ∃ n, entranceId a.GetName = some n ∧ 0 < n := by decide
  obtain ⟨ports, hp⟩ := (addPorts_one_port_per_anchor Example.envQ DockMethod.ORBITAL
    (Example.model1.FindTagsByStartOfName "entrance_")).1 hall
  exact ⟨hall, ports, hp, (addPorts_one_port_per_anchor Example.envQ DockMethod.ORBITAL
    (Example.model1.FindTagsByStartOfName "entrance_")).2 ports hp⟩

/-- C18, counterexample: two entrance anchors, `entrance_port1` and
`entrance_port01`, whose names both read as the port id 1, give two ports with
the port id 1. -/
theorem addPorts_twins :
    Example.twinEntrances.map (fun a => entranceId a.GetName) = [some 1, some 1] ∧
    (addPorts Example.envQ DockMethod.SURFACE Example.twinEntrances []).toOption.map
        (fun ports => ports.map SPort.portId) = some [1, 1] ∧
    ¬ ([1, 1] : List Int).Nodup :=
  ⟨by rfl, by rfl, by decide⟩

/-- C11, as amended: on a finalized station, for every port that owns at least
one bay, locator anchors name its port id; `minShipSize` is the least of the
min size a port is constructed with and the min sizes declared by the locator
anchors whose parsed port id is that of the port, and `maxShipSize` is the
greatest of the max size a port is constructed with and the max sizes those
anchors declare. -/
theorem port_size_range {env : MathEnv K} {dm : DockMethod} {model : Model K}
    {modelName : String} {st : SpaceStationType K}
    (h : OnSetupComplete env (SpaceStationType.new model modelName dm) = Except.ok st)
    (port : SPort K) (hport : port ∈ st.m_ports) (hbay : port.bayIDs ≠ []) :
    declared (model.FindTagsByStartOfName "loc_") port.portId ≠ [] ∧
    (port.minShipSize ≤ env.minShipSize0 ∧
      (∀ f ∈ declared (model.FindTagsByStartOfName "loc_") port.portId,
        port.minShipSize ≤ f.minSize) ∧
      (port.minShipSize = env.minShipSize0 ∨
        ∃ f ∈ declared (model.FindTagsByStartOfName "loc_") port.portId,
          port.minShipSize = f.minSize)) ∧
    (env.maxShipSize0 ≤ port.maxShipSize ∧
      (∀ f ∈ declared (model.FindTagsByStartOfName "loc_") port.portId,
        f.maxSize ≤ port.maxShipSize) ∧
      (port.maxShipSize = env.maxShipSize0 ∨
        ∃ f ∈ declared (model.FindTagsByStartOfName "loc_") port.portId,
          port.maxShipSize = f.maxSize)) := by
  obtain ⟨h1, h2, h3⟩ := build_port_with_bay (build_of_OnSetupComplete h) hport hbay
  refine ⟨?_, ?_, ?_⟩
  · intro hnil
    rw [hnil] at h3
    exact hbay h3
  · rw [h1]; exact foldl_min_spec _ _
  · rw [h2]; exact foldl_max_spec _ _

/-- Witness of C11: the port of the orbital station with two bays, whose three
locators declare the sizes 0 to 500, 100 to 900 and 50 to 600. -/
theorem port_size_range_witness :
    OnSetupComplete Example.envQ
        (SpaceStationType.new Example.model2 "orbital2" DockMethod.ORBITAL) =
          Except.ok Example.orbital2 ∧
    ∃ port ∈ Example.orbital2.m_ports, port.bayIDs ≠ [] ∧
      port.minShipSize = 0 ∧ port.maxShipSize = 900 ∧
      port.minShipSize ≤ Example.envQ.minShipSize0 ∧
      ∀ f ∈ declared (Example.model2.FindTagsByStartOfName "loc_") port.portId,
        port.minShipSize ≤ f.minSize ∧ f.maxSize ≤ port.maxShipSize := by
  have ho : OnSetupComplete Example.envQ
      (SpaceStationType.new Example.model2 "orbital2" DockMethod.ORBITAL) =
        Except.ok Example.orbital2 := by rfl
  have e : Example.orbital2.m_ports.map
      (fun q => (q.bayIDs.length, q.minShipSize, q.maxShipSize)) = [(3, 0, 900)] := by decide
  cases hq : Example.orbital2.m_ports with
  | nil => rw [hq] at e; cases e
  | cons port rest =>
    rw [hq] at e
    simp only [List.map_cons, List.cons.injEq, Prod.mk.injEq] at e
    obtain ⟨⟨e1, e2, e3⟩, _⟩ := e
    have hmem : port ∈ Example.orbital2.m_ports := by rw [hq]; exact List.mem_cons_self _ _
    have hbay : port.bayIDs ≠ [] := by
      intro hnil; rw [hnil] at e1; cases e1
    have r := port_size_range ho port hmem hbay
    exact ⟨ho, port, List.mem_cons_self _ _, hbay, e2, e3, r.2.1.1,
      fun f hf => ⟨r.2.1.2.1 f hf, r.2.2.2.1 f hf⟩⟩

/-- C11, the claim as it was stated, at a station where it fails: the surface
station whose only locator is `loc_A001_p1_s6000_7000_b1`, set up with ports
constructed with the min size 5000 and the max size -1. Its port owns the bay,
the only min size declared for its port id is 6000, and its `minShipSize` is
5000. -/
theorem port_size_not_hull :
    OnSetupComplete Example.envQ
        (SpaceStationType.new Example.model6000 "surface6000" DockMethod.SURFACE) =
          Except.ok Example.surface6000 ∧
    ∃ port ∈ Example.surface6000.m_ports, port.bayIDs ≠ [] ∧
      (declared (Example.model6000.FindTagsByStartOfName "loc_") port.portId).map
        (fun f => (f.minSize, f.maxSize)) = [(6000, 7000)] ∧
      port.minShipSize = 5000 ∧ port.maxShipSize = 7000 := by
  have e : Example.surface6000.m_ports.map
      (fun q => (q.portId, q.bayIDs.length, q.minShipSize, q.maxShipSize)) =
        [(1, 1, 5000, 7000)] := by decide
  cases hq : Example.surface6000.m_ports with
  | nil => rw [hq] at e; cases e
  | cons port rest =>
    rw [hq] at e
    simp only [List.map_cons, List.cons.injEq, Prod.mk.injEq] at e
    obtain ⟨⟨e0, e1, e2, e3⟩, _⟩ := e
    have hbay : port.bayIDs ≠ [] := by
      intro hnil; rw [hnil] at e1; cases e1
    refine ⟨by rfl, port, List.mem_cons_self _ _, hbay, ?_, e2, e3⟩
    rw [e0]
    decide

/-- C15: on a finalized station the ports are one per entrance anchor, in the
order of the anchors; with `T` the transform of the anchor, the approach stage
2 of its port is `T`, and the approach stage 1 has the rotation of `T` and the
translation of `T` plus 500 times the normalized local up axis of `T` for
SURFACE, plus 1500 times the negated normalized local back axis of `T` for
ORBITAL. -/
theorem approach_stages {env : MathEnv K} {dm : DockMethod} {model : Model K}
    {modelName : String} {st : SpaceStationType K}
    (h : OnSetupComplete env (SpaceStationType.new model modelName dm) = Except.ok st) :
    List.Forall₂
      (fun a q => q.name = a.GetName ∧
        mapFind 2 q.m_approach = some a.GetTransform ∧
        ∃ a1, mapFind 1 q.m_approach = some a1 ∧
          a1.GetOrient = a.GetTransform.GetOrient ∧
          (dm = DockMethod.SURFACE →
            a1.GetTranslate = a.GetTransform.GetTranslate.add
              ((a.GetTransform.Up.Normalized env.sqrt).scale 500)) ∧
          (dm = DockMethod.ORBITAL →
            a1.GetTranslate = a.GetTransform.GetTranslate.add
              ((a.GetTransform.Back.Normalized env.sqrt).neg.scale 1500)))
      (model.FindTagsByStartOfName "entrance_") st.m_ports := by
  obtain ⟨ports0, hf, _, ⟨hports, _⟩, _⟩ := build_spec (build_of_OnSetupComplete h)
  rw [hports]
  refine forall₂_portsWith _ (fun a q L hr => hr) (List.Forall₂.imp ?_ hf) []
  intro a q hq
  obtain ⟨_, _, _, hname, happ⟩ := newPort_fields hq
  rw [happ]
  refine ⟨hname, by simp [mapFind], ?_⟩
  cases dm
  · exact ⟨a.GetTransform.SetTranslate (a.GetTransform.GetTranslate.add
        ((a.GetTransform.Back.Normalized env.sqrt).neg.scale 1500)),
      by simp [mapFind], rfl, fun hh => (by cases hh), fun _ => rfl⟩
  · exact ⟨a.GetTransform.SetTranslate (a.GetTransform.GetTranslate.add
        ((a.GetTransform.Up.Normalized env.sqrt).scale 500)),
      by simp [mapFind], rfl, fun _ => rfl, fun hh => (by cases hh)⟩

/-- Witness of C15: the orbital example station, whose entrance is the frame
of the coordinates at the origin. -/
theorem approach_stages_witness :
    OnSetupComplete Example.envQ
        (SpaceStationType.new Example.model1 "orbital1" DockMethod.ORBITAL) =
          Except.ok Example.orbital1 ∧
    List.Forall₂
      (fun a q => q.name = a.GetName ∧
        mapFind 2 q.m_approach = some a.GetTransform ∧
        ∃ a1, mapFind 1 q.m_approach = some a1 ∧
          a1.GetOrient = a.GetTransform.GetOrient ∧
          (DockMethod.ORBITAL = DockMethod.SURFACE →
            a1.GetTranslate = a.GetTransform.GetTranslate.add
              ((a.GetTransform.Up.Normalized Example.envQ.sqrt).scale 500)) ∧
          (DockMethod.ORBITAL = DockMethod.ORBITAL →
            a1.GetTranslate = a.GetTransform.GetTranslate.add
              ((a.GetTransform.Back.Normalized Example.envQ.sqrt).neg.scale 1500)))
      (Example.model1.FindTagsByStartOfName "entrance_") Example.orbital1.m_ports := by
  have ho : OnSetupComplete Example.envQ
      (SpaceStationType.new Example.model1 "orbital1" DockMethod.ORBITAL) =
        Except.ok Example.orbital1 := by rfl
  exact ⟨ho, approach_stages ho⟩

/-- C20: after the two passes of `OnSetupComplete`, every bay of `m_portPaths`
has a docking map with `numDockingStages - 1` entries, whose keys are 2 for
SURFACE and 2, 3, 4 for ORBITAL, and a leaving map that is empty for SURFACE
and has the keys 1, 2, 3, which are `numUndockStages` entries, for ORBITAL;
and the loop that checks the stages ends with no error and no warning. -/
theorem stage_map_shapes {env : MathEnv K} {dm : DockMethod} {model : Model K}
    {modelName : String} {st : SpaceStationType K}
    (h : build env (SpaceStationType.new model modelName dm) = Except.ok st) :
    (∀ e ∈ st.m_portPaths,
      (e.2.m_docking.length : Int) = st.numDockingStages - 1 ∧
      (dm = DockMethod.SURFACE → mapKeys e.2.m_docking = [2] ∧ e.2.m_leaving = []) ∧
      (dm = DockMethod.ORBITAL → mapKeys e.2.m_docking = [2, 3, 4] ∧
        mapKeys e.2.m_leaving = [1, 2, 3] ∧
        (e.2.m_leaving.length : Int) = st.numUndockStages)) ∧
    insanity st.numDockingStages st.numUndockStages st.m_portPaths = Except.ok [] := by
  have hs := build_pathShape h
  constructor
  · intro e he
    obtain ⟨hshape, hd, hu⟩ := hs e he
    rw [hd, hu]
    unfold pathShape at hshape
    cases dm
    · rw [if_neg (by decide)] at hshape
      obtain ⟨d2, d3, d4, l1, l2, l3, hp⟩ := hshape
      rw [hp]
      refine ⟨by simp, fun hh => (by cases hh), fun _ => ⟨rfl, rfl, by simp⟩⟩
    · rw [if_pos rfl] at hshape
      obtain ⟨d2, hp⟩ := hshape
      rw [hp]
      refine ⟨by simp, fun _ => ⟨rfl, rfl⟩, fun hh => (by cases hh)⟩
  · apply insanity_ok_nil
    intro e he
    obtain ⟨hshape, hd, hu⟩ := hs e he
    rw [hd, hu]
    unfold pathShape at hshape
    cases dm
    · rw [if_neg (by decide)] at hshape
      obtain ⟨d2, d3, d4, l1, l2, l3, hp⟩ := hshape
      rw [hp]
      exact ⟨by rfl, by rfl⟩
    · rw [if_pos rfl] at hshape
      obtain ⟨d2, hp⟩ := hshape
      rw [hp]
      exact ⟨by rfl, by rfl⟩

/-- Witness of C20: the orbital station with two bays, whose bay 1 is declared
by two locators. -/
theorem stage_map_shapes_witness :
    build Example.envQ (SpaceStationType.new Example.model2 "orbital2" DockMethod.ORBITAL) =
      Except.ok Example.orbital2 ∧
    (∀ e ∈ Example.orbital2.m_portPaths,
      mapKeys e.2.m_docking = [2, 3, 4] ∧ mapKeys e.2.m_leaving = [1, 2, 3]) ∧
    insanity Example.orbital2.numDockingStages Example.orbital2.numUndockStages
      Example.orbital2.m_portPaths = Except.ok [] := by
  have hb : build Example.envQ
      (SpaceStationType.new Example.model2 "orbital2" DockMethod.ORBITAL) =
        Except.ok Example.orbital2 := by rfl
  exact ⟨hb,
    fun e he => ⟨(((stage_map_shapes hb).1 e he).2.2 rfl).1,
      (((stage_map_shapes hb).1 e he).2.2 rfl).2.1⟩,
    (stage_map_shapes hb).2⟩

/-- C19: on a finalized station, for every integer `z`, `FindPortByBay (z)`
finds a port exactly when `m_portPaths` has an entry with the key `z + 1`; for
every bay index `port` at which `FindPortByBay` finds a port, `m_portPaths`
has an entry at the key `port + 1` that `GetDockAnimPositionOrient` looks up,
and no call of `GetDockAnimPositionOrient` for the bay ends with
`out_of_range`; `numDockingPorts` is the number of distinct bay numbers that
the locator anchors declare. -/
theorem bay_keys {env : MathEnv K} {dm : DockMethod} {model : Model K}
    {modelName : String} {st : SpaceStationType K}
    (h : OnSetupComplete env (SpaceStationType.new model modelName dm) = Except.ok st) :
    (∀ z : Int, (∃ port, FindPortByBay st z = some port) ↔
      ∃ path, mapFind (z + 1) st.m_portPaths = some path) ∧
    (∀ (port : Nat) (pPort : SPort K), FindPortByBay st (toInt port) = some pPort →
      (∃ path, mapFind (((port + 1) % 2 ^ 32 : Nat) : Int) st.m_portPaths = some path) ∧
      ∀ stage t from_ outPosOrient ship,
        GetDockAnimPositionOrient env st port stage t from_ outPosOrient ship ≠
          Except.error Fatal.out_of_range) ∧
    st.numDockingPorts =
      ((locatorNames (model.FindTagsByStartOfName "loc_")).map LocatorName.bay).toFinset.card := by
  obtain ⟨ports0, _, _, ⟨_, hbays, hsorted, hkeys, hpos⟩, _, hnum, _⟩ :=
    build_spec (build_of_OnSetupComplete h)
  have hsome : ∀ k, (∃ path, mapFind k st.m_portPaths = some path) ↔
      mapFind k st.m_portPaths ≠ none := by
    intro k
    cases mapFind k st.m_portPaths with
    | none => simp
    | some p => simp
  have h1 : ∀ z : Int, (∃ port, FindPortByBay st z = some port) ↔
      ∃ path, mapFind (z + 1) st.m_portPaths = some path := by
    intro z
    rw [FindPortByBay_some_iff, hbays z, hsome, hkeys]
    constructor
    · rintro ⟨f, hf, hz⟩; exact ⟨f, hf, by omega⟩
    · rintro ⟨f, hf, hz⟩; exact ⟨f, hf, by omega⟩
  refine ⟨h1, ?_, ?_⟩
  · intro port pPort hp
    have hz : 0 ≤ toInt port := by
      obtain ⟨f, hf, hz⟩ := (hbays _).mp ((FindPortByBay_some_iff st _).mp ⟨pPort, hp⟩)
      have := (hpos f hf).1
      omega
    have hkey : (((port + 1) % 2 ^ 32 : Nat) : Int) = toInt port + 1 := by
      unfold toInt at hz ⊢
      split at hz
      · rename_i hlt
        rw [if_pos hlt]
        omega
      · omega
    obtain ⟨path, hpath⟩ := (h1 (toInt port)).mp ⟨pPort, hp⟩
    rw [← hkey] at hpath
    refine ⟨⟨path, hpath⟩, ?_⟩
    intro stage t from_ outPosOrient ship
    cases ship with
    | none => simp [GetDockAnimPositionOrient]
    | some ship =>
      simp only [GetDockAnimPositionOrient, hpath]
      split
      · simp
      · split
        · split
          · rename_i e heq
            intro hc
            injection hc with hc
            rw [hc] at heq
            exact GetPosOrient_ne_out_of_range _ _ _ _ _ _ heq
          · simp
        · split
          · split
            · rename_i e heq
              intro hc
              injection hc with hc
              rw [hc] at heq
              exact GetPosOrient_ne_out_of_range _ _ _ _ _ _ heq
            · simp
          · simp
  · rw [hnum]
    have hnodup : (mapKeys st.m_portPaths).Nodup :=
      List.Pairwise.imp (fun hab => ne_of_lt hab) hsorted
    have hlen : st.m_portPaths.length = (mapKeys st.m_portPaths).length := by
      simp [mapKeys]
    rw [hlen, ← List.toFinset_card_of_nodup hnodup]
    congr 1
    ext k
    rw [List.mem_toFinset, List.mem_toFinset, mem_mapKeys_iff, hkeys, List.mem_map]

/-- Witness of C19: the orbital station with two bays, asked for the bay index
1; three locators declare the bay numbers 1, 2 and 1. -/
theorem bay_keys_witness :
    OnSetupComplete Example.envQ
        (SpaceStationType.new Example.model2 "orbital2" DockMethod.ORBITAL) =
          Except.ok Example.orbital2 ∧
    (∃ pPort, FindPortByBay Example.orbital2 (toInt 1) = some pPort) ∧
    (∃ path, mapFind (((1 + 1) % 2 ^ 32 : Nat) : Int) Example.orbital2.m_portPaths =
      some path) ∧
    Example.orbital2.numDockingPorts = 2 ∧
    ((locatorNames (Example.model2.FindTagsByStartOfName "loc_")).map
      LocatorName.bay).toFinset.card = 2 := by
  have ho : OnSetupComplete Example.envQ
      (SpaceStationType.new Example.model2 "orbital2" DockMethod.ORBITAL) =
        Except.ok Example.orbital2 := by rfl
  have hn : Example.orbital2.numDockingPorts = 2 := by decide
  cases hp : FindPortByBay Example.orbital2 (toInt 1) with
  | none => exact absurd hp (by decide)
  | some pPort =>
    exact ⟨ho, ⟨pPort, rfl⟩, ((bay_keys ho).2.1 1 pPort hp).1, hn,
      (bay_keys ho).2.2.symm.trans hn⟩

end Claims

end Pioneer
